import Mathlib

/-!
Storage core of the Scanner video-analysis engine.

A shallow embedding of

* `scanner/engine/op_registry.cpp` (operator registry),
* `scanner/api/frame.cpp` (frame descriptors and frame allocation),
* `scanner/engine/save_worker.cpp` (the save worker),
* `stdlib/misc/files_sink.cpp` (the files sink),

followed by the properties established about them.

Conventions of the embedding:

* `size_t` / `u64` values are natural numbers reduced modulo `2^64` at every
  arithmetic step of the source; `int` values are integers.
* An `assert`, a `LOG(FATAL)`, a throwing `at()` and an out-of-bounds
  `operator[]` make the embedded function return `none`.
* A `u8*` is a `Ptr`: an address together with the bytes readable from it.
-/

namespace Scanner

/-! ## Operator registry (`scanner/engine/op_registry.cpp`) -/

/-- The part of `OpInfo` read by `OpRegistry::add_op`. -/
structure OpInfo where
  name : String
  variadic_inputs : Bool
  input_columns : List String
  output_columns : List String
deriving DecidableEq, Repr

/-- The `Result` message: a success flag and an error text. -/
structure Result where
  success : Bool
  msg : String
deriving DecidableEq, Repr

/-- Modelled from the spec: the `RESULT_ERROR` macro of `scanner/util/common.h`
is not among the sources; it marks the result as failed and stores the
formatted message. -/
def RESULT_ERROR (_result : Result) (text : String) : Result :=
  { success := false, msg := text }

/-- The registry: `std::map<std::string, OpInfo*> ops_` as an association list
with at most one entry per key. -/
structure OpRegistry where
  ops_ : List (String × OpInfo)
deriving DecidableEq, Repr

/-- Number of entries under `name`: `ops_.count(name)`. -/
def OpRegistry.count (r : OpRegistry) (name : String) : Nat :=
  (r.ops_.filter (fun e => e.1 == name)).length

/-- Insertion into the map: `ops_.insert({name, info})` keeps an existing
entry and adds the pair otherwise. -/
def OpRegistry.insert (r : OpRegistry) (name : String) (info : OpInfo) : OpRegistry :=
  if r.count name > 0 then r else { ops_ := r.ops_ ++ [(name, info)] }

/-- Source function `OpRegistry::add_op`: returns the result together with the
registry after the call. -/
def OpRegistry.add_op (r : OpRegistry) (name : String) (info : OpInfo) :
    Result × OpRegistry :=
  let result : Result := { success := true, msg := "" }
  if r.count name > 0 then
    (RESULT_ERROR result ("Attempted to re-register op " ++ name), r)
  else if info.input_columns.isEmpty && !info.variadic_inputs then
    (RESULT_ERROR result
      ("Attempted to register op " ++ name ++ " with empty input columns"), r)
  else if info.output_columns.isEmpty then
    (RESULT_ERROR result
      ("Attempted to register op " ++ name ++ " with empty output columns"), r)
  else
    (result, r.insert name info)

/-- Source function `OpRegistry::get_op_info`: `ops_.at(name)` throws when the
name is absent. -/
def OpRegistry.get_op_info (r : OpRegistry) (name : String) : Option OpInfo :=
  (r.ops_.find? (fun e => e.1 == name)).map Prod.snd

/-- Source function `OpRegistry::has_op`. -/
def OpRegistry.has_op (r : OpRegistry) (name : String) : Bool :=
  decide (r.count name > 0)

/-- A sequence of calls of `OpRegistry::add_op`, in order, whatever each one
returns. -/
def OpRegistry.add_ops (r : OpRegistry) (ops : List (String × OpInfo)) : OpRegistry :=
  ops.foldl (fun reg op => (reg.add_op op.1 op.2).2) r

/-! ## Frames (`scanner/api/frame.cpp`) -/

/-- Element kind of a frame. -/
inductive FrameType where
  | U8
  | F32
  | F64
deriving DecidableEq, Repr

/-- Source function `size_of_frame_type`: `sizeof(u8)`, `sizeof(f32)`,
`sizeof(f64)`. -/
def size_of_frame_type (type : FrameType) : Nat :=
  match type with
  | .U8 => 1
  | .F32 => 4
  | .F64 => 8

/-- Number of dimensions of a frame (`FRAME_DIMS` of `scanner/api/frame.h`). -/
def FRAME_DIMS : Nat := 3

/-- Number of values of `size_t` and `u64`. -/
def SIZE_MOD : Nat := 2 ^ 64

/-- Conversion of an `int` to `size_t` (two's complement, 64 bits). -/
def to_size_t (x : Int) : Nat := (x % (SIZE_MOD : Int)).toNat

/-- The class `FrameInfo`: `int shape[FRAME_DIMS]` and the element kind. -/
structure FrameInfo where
  shape0 : Int
  shape1 : Int
  shape2 : Int
  type : FrameType
deriving DecidableEq, Repr

/-- Array access `shape[i]` for `i < FRAME_DIMS`. -/
def FrameInfo.shape (info : FrameInfo) (i : Nat) : Int :=
  match i with
  | 0 => info.shape0
  | 1 => info.shape1
  | _ => info.shape2

/-- Source constructor `FrameInfo::FrameInfo(int, int, int, FrameType)`; the
three assertions make it fail on a negative dimension. -/
def FrameInfo.create (shape0 shape1 shape2 : Int) (t : FrameType) : Option FrameInfo :=
  if 0 ≤ shape0 ∧ 0 ≤ shape1 ∧ 0 ≤ shape2 then
    some { shape0 := shape0, shape1 := shape1, shape2 := shape2, type := t }
  else none

/-- Assignment `shape[i] = v` for `i < FRAME_DIMS`. -/
def FrameInfo.set_shape (info : FrameInfo) (i : Nat) (v : Int) : FrameInfo :=
  match i with
  | 0 => { info with shape0 := v }
  | 1 => { info with shape1 := v }
  | _ => { info with shape2 := v }

/-- Source constructor `FrameInfo::FrameInfo(std::vector<int>, FrameType)`.
The constructor has no initialiser list and its body assigns `shape[i]` only
for `i < shapes.size()`; `declared` is what `shape` holds when the body
starts, and the entries the loop does not reach keep it. -/
def FrameInfo.of_shapes (declared : FrameInfo) (shapes : List Int) (t : FrameType) :
    Option FrameInfo :=
  if shapes.length ≤ 3 then
    ((List.range shapes.length).foldlM
      (fun (info : FrameInfo) (i : Nat) =>
        (shapes[i]?).bind (fun v =>
          if 0 ≤ (info.set_shape i v).shape i then some (info.set_shape i v) else none))
      declared).map (fun info => { info with type := t })
  else none

/-- Source function `FrameInfo::operator==`. -/
def FrameInfo.eq (a other : FrameInfo) : Bool :=
  (List.range FRAME_DIMS).foldl
    (fun same i => same && decide (a.shape i = other.shape i))
    (decide (a.type = other.type))

/-- Source function `FrameInfo::operator!=`. -/
def FrameInfo.ne (a other : FrameInfo) : Bool :=
  !(a.eq other)

/-- Source function `FrameInfo::size`: the running product is a `size_t`. -/
def FrameInfo.size (info : FrameInfo) : Nat :=
  (List.range FRAME_DIMS).foldl
    (fun s i => (s * to_size_t (info.shape i)) % SIZE_MOD)
    (size_of_frame_type info.type)

/-- Source function `FrameInfo::width`. -/
def FrameInfo.width (info : FrameInfo) : Int := info.shape 1

/-- Source function `FrameInfo::height`. -/
def FrameInfo.height (info : FrameInfo) : Int := info.shape 0

/-- Source function `FrameInfo::channels`. -/
def FrameInfo.channels (info : FrameInfo) : Int := info.shape 2

/-- A `u8*`: the address it holds and the bytes readable from that address on. -/
structure Ptr where
  addr : Nat
  bytes : List Nat
deriving DecidableEq, Repr

/-- Pointer arithmetic `p + k`. -/
def Ptr.add (p : Ptr) (k : Nat) : Ptr :=
  { addr := p.addr + k, bytes := p.bytes.drop k }

/-- The class `Frame`: its own `shape`, the kind and the data pointer. -/
structure Frame where
  shape0 : Int
  shape1 : Int
  shape2 : Int
  type : FrameType
  data : Ptr
deriving DecidableEq, Repr

/-- Source constructor `Frame::Frame(FrameInfo, u8*)`. -/
def Frame.create (info : FrameInfo) (b : Ptr) : Frame :=
  { shape0 := info.shape0, shape1 := info.shape1, shape2 := info.shape2,
    type := info.type, data := b }

/-- Source function `Frame::as_frame_info`. -/
def Frame.as_frame_info (f : Frame) : Option FrameInfo :=
  FrameInfo.create f.shape0 f.shape1 f.shape2 f.type

/-- Source function `Frame::size`. -/
def Frame.size (f : Frame) : Option Nat :=
  f.as_frame_info.map FrameInfo.size

/-- Source function `Frame::width`. -/
def Frame.width (f : Frame) : Option Int :=
  f.as_frame_info.map FrameInfo.width

/-- Source function `Frame::height`. -/
def Frame.height (f : Frame) : Option Int :=
  f.as_frame_info.map FrameInfo.height

/-- Source function `Frame::channels`. -/
def Frame.channels (f : Frame) : Option Int :=
  f.as_frame_info.map FrameInfo.channels

/-- Kind of device. -/
inductive DeviceType where
  | CPU
  | GPU
deriving DecidableEq, Repr

/-- A device: its kind and its number. -/
structure DeviceHandle where
  type : DeviceType
  id : Int
deriving DecidableEq, Repr

/-- The host device. -/
def CPU_DEVICE : DeviceHandle := { type := .CPU, id := 0 }

/-- One request served by the buffer allocator. -/
structure Allocation where
  device : DeviceHandle
  base : Nat
  size : Nat
  refs : Int
deriving DecidableEq, Repr

/-- State of the buffer allocator: the next free address and the requests
served so far. -/
structure Memory where
  next : Nat
  allocations : List Allocation
deriving DecidableEq, Repr

/-- Modelled from the spec: `new_block_buffer` of `scanner/util/memory.h` is
not among the sources; it performs a single block allocation of `size` bytes
on `device`, shared by `refs` users, and returns its start. -/
def new_block_buffer (m : Memory) (device : DeviceHandle) (size : Nat) (refs : Int) :
    Ptr × Memory :=
  ({ addr := m.next, bytes := List.replicate size 0 },
   { next := m.next + size,
     allocations := m.allocations ++
       [{ device := device, base := m.next, size := size, refs := refs }] })

/-- Modelled from the spec: `new_buffer` of `scanner/util/memory.h` is not
among the sources; it allocates a single buffer of `size` bytes on `device`. -/
def new_buffer (m : Memory) (device : DeviceHandle) (size : Nat) : Ptr × Memory :=
  new_block_buffer m device size 1

/-- Source function `new_frame`. -/
def new_frame (m : Memory) (device : DeviceHandle) (info : FrameInfo) : Frame × Memory :=
  let r := new_buffer m device info.size
  (Frame.create info r.1, r.2)

/-- Source function `new_frames`; `info.size() * num` and `i * info.size()` are
`size_t` products. -/
def new_frames (m : Memory) (device : DeviceHandle) (info : FrameInfo) (num : Int) :
    List Frame × Memory :=
  let r := new_block_buffer m device ((info.size * to_size_t num) % SIZE_MOD) num
  ((List.range num.toNat).map
      (fun i => Frame.create info (r.1.add ((i * info.size) % SIZE_MOD))),
   r.2)

/-! ## Save worker (`scanner/engine/save_worker.cpp`) -/

/-- Modelled from the spec: the declared type of a column, `{Bytes, Video}`
(the enumeration `ColumnType` is not among the sources). -/
inductive ColumnType where
  | Bytes
  | Video
deriving DecidableEq, Repr

/-- Modelled from the spec: the unit transported through columns (declared in
a header that is not among the sources), with the members the sources read:
`buffer`, `size`, `index`, and the frame returned by `as_frame()` when the
element holds one. -/
structure Element where
  buffer : Ptr
  size : Nat
  frame : Option Frame
  index : Int
deriving DecidableEq, Repr

/-- The accessor `Element::as_frame()`, which asserts that the element holds a
frame. -/
def Element.as_frame (e : Element) : Option Frame := e.frame

/-- The batched columnar payload `EvalWorkEntry`, with the members read by
`SaveWorker::feed`. -/
structure EvalWorkEntry where
  columns : List (List Element)
  column_handles : List DeviceHandle
  column_types : List ColumnType
  compressed : List Bool
  frame_sizes : List FrameInfo
deriving DecidableEq, Repr

/-- Codec of a video column. -/
inductive VideoCodecType where
  | H264
  | RAW
deriving DecidableEq, Repr

/-- Chroma format of a video column; `SaveWorker::feed` only ever writes
`YUV_420`. -/
inductive VideoChromaFormat where
  | YUV_420
deriving DecidableEq, Repr

/-- Modelled from the spec: the protobuf record `VideoDescriptor` (its
generated code is not among the sources). Counts are mathematical integers;
an enumeration field is `none` until it is set. -/
structure VideoDescriptor where
  table_id : Int
  column_id : Int
  item_id : Int
  frame_type : Option FrameType
  width : Int
  height : Int
  channels : Int
  codec_type : Option VideoCodecType
  chroma_format : Option VideoChromaFormat
  num_encoded_videos : Int
  frames : Int
  frames_per_video : List Int
  keyframes_per_video : List Int
  size_per_video : List Int
  metadata_packets : List Nat
  keyframe_indices : List Nat
  sample_offsets : List Nat
  sample_sizes : List Nat
  data_path : String
  inplace : Bool
  time_base_num : Int
  time_base_denom : Int
deriving DecidableEq, Repr

/-- A default-constructed `VideoDescriptor`. -/
def VideoDescriptor.empty : VideoDescriptor :=
  { table_id := 0, column_id := 0, item_id := 0, frame_type := none,
    width := 0, height := 0, channels := 0, codec_type := none,
    chroma_format := none, num_encoded_videos := 0, frames := 0,
    frames_per_video := [], keyframes_per_video := [], size_per_video := [],
    metadata_packets := [], keyframe_indices := [], sample_offsets := [],
    sample_sizes := [], data_path := "", inplace := false,
    time_base_num := 0, time_base_denom := 0 }

/-- A sequential-append write handle of the blob store: its path and the bytes
appended so far. -/
structure WriteFile where
  path : String
  data : List Nat
deriving DecidableEq, Repr

/-- Operations issued to the storage backend. -/
inductive StorageOp where
  | make_write_file (path : String)
  | save (file : WriteFile)
  | write_video_metadata (meta : VideoDescriptor)
deriving DecidableEq, Repr

/-- Modelled from the spec: column data path
`tables/{table_id}/{column_index}/{task_id}.bin` (the function
`table_item_output_path` is not among the sources). -/
def table_item_output_path (table_id : Int) (column_id : Nat) (task_id : Int) : String :=
  "tables/" ++ toString table_id ++ "/" ++ toString column_id ++ "/" ++
    toString task_id ++ ".bin"

/-- Modelled from the spec: column metadata path
`tables/{table_id}/{column_index}/{task_id}_metadata.bin` (the function
`table_item_metadata_path` is not among the sources). -/
def table_item_metadata_path (table_id : Int) (column_id : Nat) (task_id : Int) : String :=
  "tables/" ++ toString table_id ++ "/" ++ toString column_id ++ "/" ++
    toString task_id ++ "_metadata.bin"

/-- The eight bytes of a `u64`, least significant first. -/
def u64_bytes (v : Nat) : List Nat :=
  (List.range 8).map (fun i => (v / 256 ^ i) % 256)

/-- Modelled from the spec: `s_write(file, value)` for a `u64` value (the
helper of `scanner/util/storehouse.h` is not among the sources) appends the
fixed-width little-endian integer. -/
def s_write_u64 (file : WriteFile) (v : Nat) : WriteFile :=
  { file with data := file.data ++ u64_bytes v }

/-- Modelled from the spec: `s_write(file, buffer, size)` (the helper of
`scanner/util/storehouse.h` is not among the sources) appends the `size` bytes
at `buffer`; reading past the readable bytes is undefined. -/
def s_write (file : WriteFile) (buffer : Ptr) (size : Nat) : Option WriteFile :=
  if size ≤ buffer.bytes.length then
    some { file with data := file.data ++ buffer.bytes.take size }
  else none

/-- Modelled from the spec: `move_if_different_address_space` (not among the
sources) copies the elements to the target device when needed; the bytes of
every element are the same afterwards. -/
def move_if_different_address_space (_src _dst : DeviceHandle) (elements : List Element) :
    List Element :=
  elements

/-- State of an `H264ByteStreamIndexCreator`: the values its accessors return
and the output file it is bound to. -/
structure H264ByteStreamIndexCreator where
  output : WriteFile
  frames : Int
  num_non_ref_frames : Int
  metadata_bytes : List Nat
  keyframe_indices : List Nat
  sample_offsets : List Nat
  sample_sizes : List Nat
  bytestream_pos : Nat
deriving DecidableEq, Repr

/-- The H.264 bytestream indexer, whose code is not among the sources, as a
parameter: its constructor and `feed_packet` (`none` when it returns false). -/
structure Indexer where
  create : WriteFile → H264ByteStreamIndexCreator
  feed_packet : H264ByteStreamIndexCreator → Ptr → Nat → Option H264ByteStreamIndexCreator

/-- State of a `SaveWorker`: the log of operations issued to its storage
backend, the open writers, the in-progress descriptors and the profiler. -/
structure SaveWorker where
  storage_ : List StorageOp
  output_ : List WriteFile
  output_metadata_ : List WriteFile
  video_metadata_ : List VideoDescriptor
  intervals : List String
  io_write : Int
deriving DecidableEq, Repr

/-- The test of line 91 of `save_worker.cpp` selecting the H.264 path. -/
def h264_path (compressed : Bool) (frame_info : FrameInfo) : Bool :=
  compressed && decide (frame_info.type = FrameType.U8) &&
    decide (frame_info.channels = 3)

/-- Lines 93-101: every element of the column goes through `feed_packet`. -/
def feed_packets (ix : Indexer) (column : List Element)
    (index_creator : H264ByteStreamIndexCreator) (size_written : Int) :
    Option (H264ByteStreamIndexCreator × Int) :=
  column.foldlM
    (fun st element =>
      (ix.feed_packet st.1 element.buffer element.size).map
        (fun c => (c, st.2 + (element.size : Int))))
    (index_creator, size_written)

/-- Lines 103-137: the indexer's results are appended to the descriptor. -/
def append_index (video_descriptor : VideoDescriptor)
    (index_creator : H264ByteStreamIndexCreator) (out_idx : Nat) : VideoDescriptor :=
  let frame : Int := index_creator.frames
  { video_descriptor with
    chroma_format := some VideoChromaFormat.YUV_420
    codec_type := some VideoCodecType.H264
    frames := video_descriptor.frames + frame
    frames_per_video := video_descriptor.frames_per_video ++ [frame]
    keyframes_per_video := video_descriptor.keyframes_per_video ++
      [(index_creator.keyframe_indices.length : Int)]
    size_per_video := video_descriptor.size_per_video ++
      [(index_creator.bytestream_pos : Int)]
    metadata_packets := index_creator.metadata_bytes
    data_path := table_item_output_path video_descriptor.table_id out_idx
      video_descriptor.item_id
    inplace := false
    keyframe_indices := video_descriptor.keyframe_indices ++ index_creator.keyframe_indices
    sample_offsets := video_descriptor.sample_offsets ++ index_creator.sample_offsets
    sample_sizes := video_descriptor.sample_sizes ++ index_creator.sample_sizes }

/-- Lines 149-154: the size of every frame goes to the metadata file. -/
def write_frame_sizes (column : List Element) (output_metadata_file : WriteFile)
    (size_written : Int) : Option (WriteFile × Int) :=
  column.foldlM
    (fun st element => do
      let frame ← element.as_frame
      let buffer_size ← frame.size
      pure (s_write_u64 st.1 buffer_size, st.2 + 8))
    (output_metadata_file, size_written)

/-- Lines 156-162: the pixels of every frame go to the data file. -/
def write_frame_data (column : List Element) (output_file : WriteFile)
    (size_written : Int) : Option (WriteFile × Int) :=
  column.foldlM
    (fun st element => do
      let frame ← element.as_frame
      let buffer_size ← frame.size
      let file ← s_write st.1 frame.data buffer_size
      pure (file, st.2 + (buffer_size : Int)))
    (output_file, size_written)

/-- Lines 170-174: the size of every element goes to the metadata file. -/
def write_element_sizes (column : List Element) (output_metadata_file : WriteFile)
    (size_written : Int) : WriteFile × Int :=
  column.foldl
    (fun st element => (s_write_u64 st.1 element.size, st.2 + 8))
    (output_metadata_file, size_written)

/-- Lines 176-181: the bytes of every element go to the data file. -/
def write_element_data (column : List Element) (output_file : WriteFile)
    (size_written : Int) : Option (WriteFile × Int) :=
  column.foldlM
    (fun st element => do
      let file ← s_write st.1 element.buffer element.size
      pure (file, st.2 + (element.size : Int)))
    (output_file, size_written)

/-- The result of writing one column: both files, the descriptor when the
column is a video, and the bytes counted. -/
structure ColumnOutput where
  output_file : WriteFile
  output_metadata_file : WriteFile
  video_descriptor : Option VideoDescriptor
  size_written : Int
deriving DecidableEq, Repr

/-- Lines 80-89: the descriptor takes the frame shape and kind of the column,
the time base 1/25, and counts one more encoded video. -/
def describe_frames (video_descriptor : VideoDescriptor) (frame_info : FrameInfo) :
    VideoDescriptor :=
  { video_descriptor with
    width := frame_info.width
    height := frame_info.height
    channels := frame_info.channels
    frame_type := some frame_info.type
    time_base_num := 1
    time_base_denom := 25
    num_encoded_videos := video_descriptor.num_encoded_videos + 1 }

/-- Lines 140-143: the raw path marks the codec and counts the elements as
frames. -/
def count_raw_frames (video_descriptor : VideoDescriptor) (num_elements : Nat) :
    VideoDescriptor :=
  { video_descriptor with
    codec_type := some VideoCodecType.RAW
    chroma_format := some VideoChromaFormat.YUV_420
    frames := video_descriptor.frames + (num_elements : Int) }

/-- Lines 71-165: a Video column. -/
def feed_video (ix : Indexer) (column : List Element) (compressed : Bool)
    (frame_info : FrameInfo) (out_idx : Nat) (output_file output_metadata_file : WriteFile)
    (video_descriptor : VideoDescriptor) : Option ColumnOutput :=
  let num_elements : Nat := column.length
  if column.length > 0 then
    let video_descriptor := describe_frames video_descriptor frame_info
    if h264_path compressed frame_info then
      (feed_packets ix column (ix.create output_file) 0).map
        (fun r =>
          { output_file := r.1.output
            output_metadata_file := output_metadata_file
            video_descriptor := some (append_index video_descriptor r.1 out_idx)
            size_written := r.2 })
    else
      let video_descriptor := count_raw_frames video_descriptor num_elements
      let output_metadata_file := s_write_u64 output_metadata_file num_elements
      (write_frame_sizes column output_metadata_file 0).bind
        (fun m =>
          (write_frame_data column output_file m.2).map
            (fun d =>
              { output_file := d.1
                output_metadata_file := m.1
                video_descriptor := some video_descriptor
                size_written := d.2 }))
  else none

/-- Lines 167-181: a column that is not a video. -/
def feed_bytes (column : List Element) (output_file output_metadata_file : WriteFile) :
    Option ColumnOutput :=
  let num_elements : Nat := column.length
  let output_metadata_file := s_write_u64 output_metadata_file num_elements
  let m := write_element_sizes column output_metadata_file 0
  (write_element_data column output_file m.2).map
    (fun d =>
      { output_file := d.1
        output_metadata_file := m.1
        video_descriptor := none
        size_written := d.2 })

/-- One iteration of the loop of `SaveWorker::feed` (lines 51-192), on the
worker and the running `video_col_idx`. The test of line 59 compares the
length of the column with itself and never fires; `delete_element` and the
timing of the profiler interval leave no trace in the state. -/
def feed_column (ix : Indexer) (work_entry : EvalWorkEntry) (out_idx : Nat)
    (st : SaveWorker × Nat) : Option (SaveWorker × Nat) := do
  let worker := st.1
  let video_col_idx := st.2
  let elements ← work_entry.columns[out_idx]?
  let output_file ← worker.output_[out_idx]?
  let output_metadata_file ← worker.output_metadata_[out_idx]?
  let handle ← work_entry.column_handles[out_idx]?
  let column := move_if_different_address_space handle CPU_DEVICE elements
  let compressed ← work_entry.compressed[out_idx]?
  let column_type ← work_entry.column_types[out_idx]?
  if column_type = ColumnType.Video then
    let frame_info ← work_entry.frame_sizes[video_col_idx]?
    let video_descriptor ← worker.video_metadata_[video_col_idx]?
    let r ← feed_video ix column compressed frame_info out_idx output_file
      output_metadata_file video_descriptor
    let d ← r.video_descriptor
    pure
      ({ worker with
          output_ := worker.output_.set out_idx r.output_file
          output_metadata_ := worker.output_metadata_.set out_idx r.output_metadata_file
          video_metadata_ := worker.video_metadata_.set video_col_idx d
          intervals := worker.intervals ++ ["io"]
          io_write := worker.io_write + r.size_written },
        video_col_idx + 1)
  else
    let r ← feed_bytes column output_file output_metadata_file
    pure
      ({ worker with
          output_ := worker.output_.set out_idx r.output_file
          output_metadata_ := worker.output_metadata_.set out_idx r.output_metadata_file
          intervals := worker.intervals ++ ["io"]
          io_write := worker.io_write + r.size_written },
        video_col_idx)

/-- The loop of `SaveWorker::feed` run over the column indices `indices`. -/
def feed_columns (ix : Indexer) (work_entry : EvalWorkEntry) (indices : List Nat)
    (st : SaveWorker × Nat) : Option (SaveWorker × Nat) :=
  indices.foldlM (fun st out_idx => feed_column ix work_entry out_idx st) st

/-- Source function `SaveWorker::feed`: the loop runs over
`0 .. columns.size() - 1` and starts with `video_col_idx = 0`. -/
def SaveWorker.feed (ix : Indexer) (worker : SaveWorker) (work_entry : EvalWorkEntry) :
    Option SaveWorker :=
  (feed_columns ix work_entry (List.range work_entry.columns.length) (worker, 0)).map Prod.fst

/-- Source function `SaveWorker::~SaveWorker` (lines 31-44). -/
def SaveWorker.destroy (worker : SaveWorker) : SaveWorker :=
  let storage := worker.output_.foldl
    (fun s file => s ++ [StorageOp.save file]) worker.storage_
  let storage := worker.output_metadata_.foldl
    (fun s file => s ++ [StorageOp.save file]) storage
  let storage := worker.video_metadata_.foldl
    (fun s m => s ++ [StorageOp.write_video_metadata m]) storage
  { worker with
    storage_ := storage
    output_ := []
    output_metadata_ := []
    video_metadata_ := [] }

/-- The flush as the specification words it: all open data writers are saved,
then all metadata writers, then all pending descriptors are persisted, and no
writer or descriptor is left. -/
def flush_spec (worker : SaveWorker) : SaveWorker :=
  { worker with
    storage_ := worker.storage_ ++ worker.output_.map StorageOp.save ++
      worker.output_metadata_.map StorageOp.save ++
      worker.video_metadata_.map StorageOp.write_video_metadata
    output_ := []
    output_metadata_ := []
    video_metadata_ := [] }

/-- One iteration of the loop of lines 213-237 of `SaveWorker::new_task`. -/
def open_column (table_id task_id : Int) (column_types : List ColumnType)
    (worker : SaveWorker) (out_idx : Nat) : SaveWorker :=
  let output_path := table_item_output_path table_id out_idx task_id
  let output_metdata_path := table_item_metadata_path table_id out_idx task_id
  let worker : SaveWorker :=
    { worker with
      storage_ := worker.storage_ ++ [StorageOp.make_write_file output_path]
      output_ := worker.output_ ++ [{ path := output_path, data := [] }] }
  let worker : SaveWorker :=
    { worker with
      storage_ := worker.storage_ ++ [StorageOp.make_write_file output_metdata_path]
      output_metadata_ := worker.output_metadata_ ++
        [{ path := output_metdata_path, data := [] }] }
  if column_types[out_idx]? = some ColumnType.Video then
    { worker with
      video_metadata_ := worker.video_metadata_ ++
        [{ VideoDescriptor.empty with
            table_id := table_id, column_id := (out_idx : Int), item_id := task_id }] }
  else worker

/-- Source function `SaveWorker::new_task`. -/
def SaveWorker.new_task (worker : SaveWorker) (table_id task_id : Int)
    (column_types : List ColumnType) : SaveWorker :=
  let storage := worker.output_.foldl
    (fun s file => s ++ [StorageOp.save file]) worker.storage_
  let storage := worker.output_metadata_.foldl
    (fun s file => s ++ [StorageOp.save file]) storage
  let storage := worker.video_metadata_.foldl
    (fun s m => s ++ [StorageOp.write_video_metadata m]) storage
  let worker : SaveWorker :=
    { worker with
      storage_ := storage
      output_ := []
      output_metadata_ := []
      video_metadata_ := []
      intervals := worker.intervals ++ ["io"] }
  (List.range column_types.length).foldl (open_column table_id task_id column_types) worker

/-! ## Files sink (`stdlib/misc/files_sink.cpp`) -/

/-- State of a `FilesSink`: the member `valid_`, the member `paths_`, and the
files made through its storage backend, oldest first, each with the bytes
written to it. -/
structure FilesSink where
  valid_ : Result
  paths_ : List String
  files : List WriteFile
deriving DecidableEq, Repr

/-- Source function `FilesSink::new_stream`. The protobuf parser of
`FilesSinkStreamArgs` is generated code that is not among the sources; it is
the parameter `parse`, which gives the `paths` field, or `none` when
`ParseFromArray` returns false. -/
def FilesSink.new_stream (parse : List Nat → Option (List String)) (sink : FilesSink)
    (args : List Nat) : FilesSink :=
  let sink : FilesSink := { sink with paths_ := [] }
  if args.length ≠ 0 then
    match parse args with
    | none =>
      { sink with valid_ := RESULT_ERROR sink.valid_ "Could not parse FilesSinkStreamArgs" }
    | some paths => { sink with paths_ := paths }
  else sink

/-- One iteration of the loop of `FilesSink::write` (lines 79-89): `offset` is
the `u64` value of the element's `index`. -/
def FilesSink.write_element (sink : FilesSink) (element : Element) : Option FilesSink :=
  let offset : Nat := to_size_t element.index
  if offset < sink.paths_.length then
    (sink.paths_[offset]?).bind (fun path =>
      (s_write { path := path, data := [] } element.buffer element.size).map
        (fun file => { sink with files := sink.files ++ [file] }))
  else none

/-- Source function `FilesSink::write`: the loop runs over the elements of
`input_columns[0]`. -/
def FilesSink.write (sink : FilesSink) (input_columns : List (List Element)) :
    Option FilesSink :=
  (input_columns[0]?).bind (fun column => column.foldlM FilesSink.write_element sink)

/-! ## Notions used to state the properties -/

/-- The value of `frame->size()` for the frame held by an element (`0` when
the element holds no frame or the frame has a negative dimension). -/
def Element.frame_size (e : Element) : Nat :=
  (e.as_frame.bind Frame.size).getD 0

/-- The `frame->size()` bytes at `frame->data` for the frame held by an
element. -/
def Element.pixels (e : Element) : List Nat :=
  match e.as_frame with
  | some frame => frame.data.bytes.take e.frame_size
  | none => []

/-- The value of `video_col_idx` when the loop of `feed` reaches column
`out_idx`: the number of Video columns before it. -/
def video_col_idx_at (work_entry : EvalWorkEntry) (out_idx : Nat) : Nat :=
  ((List.range out_idx).filter
    (fun i => decide (work_entry.column_types[i]? = some ColumnType.Video))).length

/-- Whether the Video column `out_idx` of a work entry passes the test of
line 91, read with the flag and the `FrameInfo` the loop of `feed` uses for
it. -/
def takes_h264_path (work_entry : EvalWorkEntry) (out_idx : Nat) : Bool :=
  match work_entry.compressed[out_idx]?,
    work_entry.frame_sizes[video_col_idx_at work_entry out_idx]? with
  | some compressed, some frame_info => h264_path compressed frame_info
  | _, _ => false

/-- The identifiers a descriptor is created with. -/
def VideoDescriptor.ids (d : VideoDescriptor) : Int × Int × Int :=
  (d.table_id, d.column_id, d.item_id)

/-- What an indexer run is assumed to leave: keyframe indices and sample
offsets strictly increasing, every keyframe index below the frame count, one
offset and one size per frame. -/
def indexer_post (c : H264ByteStreamIndexCreator) : Prop :=
  c.keyframe_indices.Pairwise (· < ·) ∧ (∀ x ∈ c.keyframe_indices, (x : Int) < c.frames) ∧
  c.sample_offsets.Pairwise (· < ·) ∧ (c.sample_offsets.length : Int) = c.frames ∧
  (c.sample_sizes.length : Int) = c.frames

/-- A sequence of calls of `SaveWorker::feed`, one per work entry, in order. -/
def SaveWorker.feed_all (ix : Indexer) (worker : SaveWorker) (entries : List EvalWorkEntry) :
    Option SaveWorker :=
  entries.foldlM (fun w entry => w.feed ix entry) worker

/-- Reads a little-endian `u64` from the first eight bytes. -/
def read_u64 (bytes : List Nat) : Option (Nat × List Nat) :=
  if 8 ≤ bytes.length then
    some (((bytes.take 8).reverse.foldl (fun acc b => acc * 256 + b) 0), bytes.drop 8)
  else none

/-- Reads `n` consecutive `u64` values. -/
def read_u64s : Nat → List Nat → Option (List Nat)
  | 0, _ => some []
  | n + 1, bytes =>
    (read_u64 bytes).bind (fun r => (read_u64s n r.2).map (fun rest => r.1 :: rest))

/-- Modelled from the spec: the reader of a generic column metadata file (the
load worker is not among the sources): the first `u64` is `num_elements`, the
following `num_elements` values of type `u64` are the element sizes. -/
def read_generic_metadata (bytes : List Nat) : Option (List Nat) :=
  (read_u64 bytes).bind (fun r => read_u64s r.1 r.2)

/-! ## The scenarios of the specification, as inputs -/

/-- A worker that holds nothing. -/
def scenario_worker : SaveWorker :=
  { storage_ := [], output_ := [], output_metadata_ := [], video_metadata_ := [],
    intervals := [], io_write := 0 }

/-- An indexer that rejects every packet. -/
def scenario_indexer : Indexer :=
  { create := fun file =>
      { output := file, frames := 0, num_non_ref_frames := 0, metadata_bytes := [],
        keyframe_indices := [], sample_offsets := [], sample_sizes := [],
        bytestream_pos := 0 }
    feed_packet := fun _ _ _ => none }

/-- An element holding the given bytes. -/
def scenario_element (bytes : List Nat) : Element :=
  { buffer := { addr := 4096, bytes := bytes }, size := bytes.length, frame := none,
    index := 0 }

/-- Scenario 1: one Bytes column with the elements `[0x01]`, `[0x02,0x03]`,
`[0x04]`. -/
def scenario_bytes_entry : EvalWorkEntry :=
  { columns := [[scenario_element [1], scenario_element [2, 3], scenario_element [4]]]
    column_handles := [CPU_DEVICE]
    column_types := [ColumnType.Bytes]
    compressed := [false]
    frame_sizes := [] }

/-- An element holding a 2x2x3 frame of U8 with every pixel `0x7F`. -/
def scenario_frame : Element :=
  { buffer := { addr := 0, bytes := [] }, size := 0,
    frame := some { shape0 := 2, shape1 := 2, shape2 := 3, type := FrameType.U8,
                    data := { addr := 8192, bytes := List.replicate 12 127 } },
    index := 0 }

/-- Scenario 2: one Video column, `FrameInfo = (2,2,3,U8)`, not compressed,
two frames. -/
def scenario_frames_entry : EvalWorkEntry :=
  { columns := [[scenario_frame, scenario_frame]]
    column_handles := [CPU_DEVICE]
    column_types := [ColumnType.Video]
    compressed := [false]
    frame_sizes := [{ shape0 := 2, shape1 := 2, shape2 := 3, type := FrameType.U8 }] }

/-- An indexer that takes every packet as one frame, the first one a
keyframe, and copies it to the output file. -/
def scenario_packet_indexer : Indexer :=
  { create := fun file =>
      { output := file, frames := 0, num_non_ref_frames := 0, metadata_bytes := [],
        keyframe_indices := [], sample_offsets := [], sample_sizes := [],
        bytestream_pos := 0 }
    feed_packet := fun c buffer size =>
      if size ≤ buffer.bytes.length then
        some { c with
          output := { c.output with data := c.output.data ++ buffer.bytes.take size }
          frames := c.frames + 1
          keyframe_indices := if c.frames = 0 then [0] else c.keyframe_indices
          sample_offsets := c.sample_offsets ++ [c.bytestream_pos]
          sample_sizes := c.sample_sizes ++ [size]
          bytestream_pos := c.bytestream_pos + size }
      else none }

/-- One Video column, `FrameInfo = (2,2,3,U8)`, compressed, two packets. -/
def scenario_compressed_entry : EvalWorkEntry :=
  { columns := [[scenario_element [0, 0, 1, 101], scenario_element [0, 0, 1, 65, 9]]]
    column_handles := [CPU_DEVICE]
    column_types := [ColumnType.Video]
    compressed := [true]
    frame_sizes := [{ shape0 := 2, shape1 := 2, shape2 := 3, type := FrameType.U8 }] }

/-- One Video column, `FrameInfo = (2,2,3,U8)`, not compressed, with an empty
batch. -/
def scenario_empty_video_entry : EvalWorkEntry :=
  { columns := [[]]
    column_handles := [CPU_DEVICE]
    column_types := [ColumnType.Video]
    compressed := [false]
    frame_sizes := [{ shape0 := 2, shape1 := 2, shape2 := 3, type := FrameType.U8 }] }

/-- One Bytes column with an empty batch. -/
def scenario_empty_bytes_entry : EvalWorkEntry :=
  { columns := [[]]
    column_handles := [CPU_DEVICE]
    column_types := [ColumnType.Bytes]
    compressed := [false]
    frame_sizes := [] }

/-- Three columns: a raw Video column, a Bytes column and a compressed Video
column. -/
def scenario_mixed_entry : EvalWorkEntry :=
  { columns := [[scenario_frame], [scenario_element [1, 2]],
                [scenario_element [0, 0, 1, 101]]]
    column_handles := [CPU_DEVICE, CPU_DEVICE, CPU_DEVICE]
    column_types := [ColumnType.Video, ColumnType.Bytes, ColumnType.Video]
    compressed := [false, false, true]
    frame_sizes := [{ shape0 := 2, shape1 := 2, shape2 := 3, type := FrameType.U8 },
                    { shape0 := 4, shape1 := 6, shape2 := 3, type := FrameType.U8 }] }

/-! ## Properties -/

/-- C1: `add_op` returns a failed result exactly when the name is already
registered, or the inputs are empty and the op is not variadic, or the outputs
are empty; in every other case the result is a success. -/
theorem add_op_fails_iff (r : OpRegistry) (name : String) (info : OpInfo) :
    ((r.add_op name info).1.success = false ↔
      (r.has_op name = true ∨
        (info.input_columns = [] ∧ info.variadic_inputs = false) ∨
        info.output_columns = [])) ∧
    ((r.add_op name info).1.success = true ↔
      ¬ (r.has_op name = true ∨
        (info.input_columns = [] ∧ info.variadic_inputs = false) ∨
        info.output_columns = [])) := by
  have key : (r.add_op name info).1.success = false ↔
      (r.has_op name = true ∨
        (info.input_columns = [] ∧ info.variadic_inputs = false) ∨
        info.output_columns = []) := by
    unfold OpRegistry.add_op OpRegistry.has_op RESULT_ERROR
    by_cases h1 : r.count name > 0
    · simp [h1]
    · by_cases h2 : info.input_columns = [] <;>
        by_cases h3 : info.output_columns = [] <;>
        cases hv : info.variadic_inputs <;>
        simp [h1, h2, h3, hv, List.isEmpty_iff]
  refine ⟨key, ?_⟩
  rw [← key]
  cases (r.add_op name info).1.success <;> simp

/-! ### Frame sizes -/

theorem to_size_t_of_nonneg (x : Int) (hx : 0 ≤ x) : to_size_t x = x.toNat % SIZE_MOD := by
  obtain ⟨n, rfl⟩ := Int.eq_ofNat_of_zero_le hx
  unfold to_size_t
  rw [← Int.natCast_mod, Int.toNat_natCast, Int.toNat_natCast]

theorem FrameInfo.size_eq_mod (info : FrameInfo)
    (h0 : 0 ≤ info.shape0) (h1 : 0 ≤ info.shape1) (h2 : 0 ≤ info.shape2) :
    info.size =
      (info.shape0.toNat * info.shape1.toNat * info.shape2.toNat *
        size_of_frame_type info.type) % SIZE_MOD := by
  have e : info.size =
      ((size_of_frame_type info.type * to_size_t info.shape0 % SIZE_MOD) *
        to_size_t info.shape1 % SIZE_MOD) * to_size_t info.shape2 % SIZE_MOD := by
    simp [FrameInfo.size, FRAME_DIMS, List.range_succ, FrameInfo.shape]
  rw [e, to_size_t_of_nonneg _ h0, to_size_t_of_nonneg _ h1, to_size_t_of_nonneg _ h2]
  generalize size_of_frame_type info.type = s
  generalize info.shape0.toNat = a
  generalize info.shape1.toNat = b
  generalize info.shape2.toNat = c
  generalize SIZE_MOD = M
  have : a * b * c * s = s * a * b * c := by ring
  rw [this]
  simp [Nat.mul_mod, Nat.mod_mod]

theorem FrameInfo.size_lt (info : FrameInfo) : info.size < SIZE_MOD := by
  have hM : 0 < SIZE_MOD := by unfold SIZE_MOD; positivity
  simp only [FrameInfo.size, FRAME_DIMS, List.range_succ, List.range_zero, List.nil_append,
    List.foldl_append, List.foldl_cons, List.foldl_nil, List.cons_append]
  exact Nat.mod_lt _ hM

/-- C5: for non-negative dimensions whose byte count is below `2^64`,
`FrameInfo::size` is `H*W*C*sizeof(kind)` with `sizeof` 1, 4, 8 for U8, F32,
F64; `new_frame` requests a buffer of exactly that many bytes and the frame it
returns has that `size()`. -/
theorem frame_size_and_new_frame (info : FrameInfo) (m : Memory) (device : DeviceHandle)
    (h0 : 0 ≤ info.shape0) (h1 : 0 ≤ info.shape1) (h2 : 0 ≤ info.shape2)
    (hlt : info.shape0 * info.shape1 * info.shape2 * (size_of_frame_type info.type : Int)
      < 2 ^ 64) :
    size_of_frame_type FrameType.U8 = 1 ∧ size_of_frame_type FrameType.F32 = 4 ∧
    size_of_frame_type FrameType.F64 = 8 ∧
    (info.size : Int) =
      info.height * info.width * info.channels * (size_of_frame_type info.type : Int) ∧
    (new_frame m device info).2.allocations =
      m.allocations ++ [{ device := device, base := m.next, size := info.size, refs := 1 }] ∧
    (new_frame m device info).1.data.bytes.length = info.size ∧
    (new_frame m device info).1.size = some info.size := by
  refine ⟨rfl, rfl, rfl, ?_, rfl, ?_, ?_⟩
  · rw [FrameInfo.size_eq_mod info h0 h1 h2]
    obtain ⟨a, ha⟩ := Int.eq_ofNat_of_zero_le h0
    obtain ⟨b, hb⟩ := Int.eq_ofNat_of_zero_le h1
    obtain ⟨c, hc⟩ := Int.eq_ofNat_of_zero_le h2
    simp only [FrameInfo.height, FrameInfo.width, FrameInfo.channels, FrameInfo.shape]
    rw [ha, hb, hc] at hlt ⊢
    simp only [Int.toNat_ofNat]
    have hlt2 : a * b * c * size_of_frame_type info.type < SIZE_MOD := by
      unfold SIZE_MOD
      exact_mod_cast hlt
    rw [Nat.mod_eq_of_lt hlt2]
    push_cast
    ring
  · simp [new_frame, new_buffer, new_block_buffer, Frame.create]
  · simp [new_frame, Frame.create, Frame.size, Frame.as_frame_info, FrameInfo.create,
      h0, h1, h2]

/-- Witness for C5: a 2x2x3 frame of U8. -/
theorem frame_size_and_new_frame_witness :
    (FrameInfo.size { shape0 := 2, shape1 := 2, shape2 := 3, type := FrameType.U8 } : Int)
      = 12 ∧
    (new_frame { next := 0, allocations := [] } CPU_DEVICE
      { shape0 := 2, shape1 := 2, shape2 := 3, type := FrameType.U8 }).1.size = some 12 := by
  have h := frame_size_and_new_frame
    { shape0 := 2, shape1 := 2, shape2 := 3, type := FrameType.U8 }
    { next := 0, allocations := [] } CPU_DEVICE (by decide) (by decide) (by decide)
    (by decide)
  refine ⟨?_, ?_⟩
  · rw [h.2.2.2.1]; decide
  · rw [h.2.2.2.2.2.2]
    have e := h.2.2.2.1
    have e2 : (FrameInfo.size { shape0 := 2, shape1 := 2, shape2 := 3, type := FrameType.U8 } : Int)
        = ((12 : Nat) : Int) := by rw [e]; decide
    rw [Int.ofNat_inj.mp e2]

/-! ### Block allocation of frames -/

/-- C6, as stated, fails on `size_t` overflow: for two frames of `2^63` bytes
each the block requested has `0` bytes, not `2 * info.size()`, and the second
frame starts `2^63` bytes past a block in which no byte is readable. -/
theorem new_frames_overflow :
    FrameInfo.size { shape0 := 2097152, shape1 := 2097152, shape2 := 2097152,
                     type := FrameType.U8 } = 2 ^ 63 ∧
    (new_frames { next := 0, allocations := [] } CPU_DEVICE
      { shape0 := 2097152, shape1 := 2097152, shape2 := 2097152, type := FrameType.U8 }
      2).2.allocations =
      [{ device := CPU_DEVICE, base := 0, size := 0, refs := 2 }] ∧
    (new_frames { next := 0, allocations := [] } CPU_DEVICE
      { shape0 := 2097152, shape1 := 2097152, shape2 := 2097152, type := FrameType.U8 }
      2).1.map (fun f => (f.data.addr, f.data.bytes.length)) =
      [(0, 0), (2 ^ 63, 0)] := by
  decide


theorem new_frames_eq (m : Memory) (device : DeviceHandle) (info : FrameInfo) (num : Int)
    (hn : 0 ≤ num) (hlt : num.toNat * info.size < 2 ^ 64) :
    new_frames m device info num =
      ((List.range num.toNat).map
        (fun i => Frame.create info
          { addr := m.next + i * info.size,
            bytes := List.replicate (num.toNat * info.size - i * info.size) 0 }),
       { next := m.next + num.toNat * info.size,
         allocations := m.allocations ++
           [{ device := device, base := m.next, size := num.toNat * info.size,
              refs := num }] }) := by
  have hM : SIZE_MOD = 2 ^ 64 := rfl
  have hsz : (info.size * to_size_t num) % SIZE_MOD = num.toNat * info.size := by
    rw [to_size_t_of_nonneg num hn, Nat.mul_mod, Nat.mod_mod, ← Nat.mul_mod,
      Nat.mul_comm, Nat.mod_eq_of_lt (by rw [hM]; exact hlt)]
  unfold new_frames new_block_buffer
  simp only [hsz]
  refine Prod.ext ?_ rfl
  simp only
  apply List.map_congr_left
  intro i hi
  have hi2 : i < num.toNat := List.mem_range.mp hi
  have hle : i * info.size ≤ num.toNat * info.size :=
    Nat.mul_le_mul_right _ (Nat.le_of_lt hi2)
  have hmod : (i * info.size) % SIZE_MOD = i * info.size :=
    Nat.mod_eq_of_lt (by rw [hM]; exact lt_of_le_of_lt hle hlt)
  simp [Ptr.add, hmod, List.drop_replicate]

/-- C6, amended: when `n * info.size()` is below `2^64`, `new_frames` makes one
block allocation of `n * info.size()` bytes and returns `n` frames; frame `i`
carries the shape and kind of `info` and starts `i * info.size()` bytes into
the block; the views are pairwise disjoint, lie inside the block and cover
every byte of it. -/
theorem new_frames_views (m : Memory) (device : DeviceHandle) (info : FrameInfo) (num : Int)
    (hn : 0 ≤ num) (hlt : num.toNat * info.size < 2 ^ 64) :
    (new_frames m device info num).2.allocations =
      m.allocations ++
        [{ device := device, base := m.next, size := num.toNat * info.size, refs := num }] ∧
    (new_frames m device info num).1.length = num.toNat ∧
    (∀ (i : Nat) (f : Frame), (new_frames m device info num).1[i]? = some f →
      f.data.addr = m.next + i * info.size ∧
      f.shape0 = info.shape0 ∧ f.shape1 = info.shape1 ∧ f.shape2 = info.shape2 ∧
      f.type = info.type ∧
      f.data.addr + info.size ≤ m.next + num.toNat * info.size ∧
      info.size ≤ f.data.bytes.length) ∧
    (∀ (i j : Nat) (fi fj : Frame), (new_frames m device info num).1[i]? = some fi →
      (new_frames m device info num).1[j]? = some fj → i < j →
      fi.data.addr + info.size ≤ fj.data.addr) ∧
    (∀ a : Nat, m.next ≤ a → a < m.next + num.toNat * info.size →
      ∃ (i : Nat) (f : Frame), (new_frames m device info num).1[i]? = some f ∧
        f.data.addr ≤ a ∧ a < f.data.addr + info.size) := by
  rw [new_frames_eq m device info num hn hlt]
  dsimp only
  have key : ∀ (i : Nat) (f : Frame),
      ((List.range num.toNat).map
        (fun i => Frame.create info
          { addr := m.next + i * info.size,
            bytes := List.replicate (num.toNat * info.size - i * info.size) 0 }))[i]?
        = some f →
      i < num.toNat ∧ f = Frame.create info
          { addr := m.next + i * info.size,
            bytes := List.replicate (num.toNat * info.size - i * info.size) 0 } := by
    intro i f h
    rw [List.getElem?_map] at h
    by_cases hi : i < num.toNat
    · rw [List.getElem?_range hi] at h
      simp only [Option.map_some', Option.some.injEq] at h
      exact ⟨hi, h.symm⟩
    · rw [List.getElem?_eq_none (by simpa using hi)] at h
      simp at h
  have step : ∀ i, i < num.toNat → (i + 1) * info.size ≤ num.toNat * info.size :=
    fun i hi => Nat.mul_le_mul_right _ hi
  refine ⟨rfl, by simp, ?_, ?_, ?_⟩
  · intro i f h
    obtain ⟨hi, rfl⟩ := key i f h
    have := step i hi
    refine ⟨rfl, rfl, rfl, rfl, rfl, ?_, ?_⟩
    · simp only [Frame.create]
      rw [Nat.add_mul, Nat.one_mul] at this
      omega
    · simp only [Frame.create, List.length_replicate]
      rw [Nat.add_mul, Nat.one_mul] at this
      omega
  · intro i j fi fj h1 h2 hij
    obtain ⟨_, rfl⟩ := key i fi h1
    obtain ⟨_, rfl⟩ := key j fj h2
    simp only [Frame.create]
    have : (i + 1) * info.size ≤ j * info.size := Nat.mul_le_mul_right _ hij
    rw [Nat.add_mul, Nat.one_mul] at this
    omega
  · intro a ha1 ha2
    have hpos : 0 < info.size := by
      rcases Nat.eq_zero_or_pos info.size with h | h
      · rw [h] at ha2; omega
      · exact h
    have hq : (a - m.next) / info.size < num.toNat := by
      rw [Nat.div_lt_iff_lt_mul hpos]
      omega
    refine ⟨(a - m.next) / info.size, Frame.create info
      { addr := m.next + ((a - m.next) / info.size) * info.size,
        bytes := List.replicate
          (num.toNat * info.size - ((a - m.next) / info.size) * info.size) 0 }, ?_, ?_, ?_⟩
    · rw [List.getElem?_map, List.getElem?_range hq]
      rfl
    · simp only [Frame.create]
      have := Nat.div_mul_le_self (a - m.next) info.size
      omega
    · simp only [Frame.create]
      have := Nat.lt_div_mul_add (a := a - m.next) hpos
      omega

/-- Witness for C6: three 2x2x3 frames of U8 in one block of 36 bytes. -/
theorem new_frames_views_witness :
    (new_frames { next := 64, allocations := [] } CPU_DEVICE
      { shape0 := 2, shape1 := 2, shape2 := 3, type := FrameType.U8 } 3).2.allocations =
      [{ device := CPU_DEVICE, base := 64, size := 36, refs := 3 }] ∧
    (new_frames { next := 64, allocations := [] } CPU_DEVICE
      { shape0 := 2, shape1 := 2, shape2 := 3, type := FrameType.U8 } 3).1.length = 3 := by
  have h := new_frames_views { next := 64, allocations := [] } CPU_DEVICE
    { shape0 := 2, shape1 := 2, shape2 := 3, type := FrameType.U8 } 3 (by decide) (by decide)
  exact ⟨h.1.trans (by decide), h.2.1.trans (by decide)⟩

/-! ### Opening and flushing an item -/

theorem foldl_append_singleton {α β : Type} (f : α → β) (l : List α) (s : List β) :
    l.foldl (fun s x => s ++ [f x]) s = s ++ l.map f := by
  induction l generalizing s with
  | nil => simp
  | cons a l ih => simp [ih]

theorem destroy_eq_flush_spec (worker : SaveWorker) : worker.destroy = flush_spec worker := by
  simp [SaveWorker.destroy, flush_spec, foldl_append_singleton]

theorem open_columns_eq (table_id task_id : Int) (column_types : List ColumnType)
    (worker : SaveWorker) (k : Nat) :
    (List.range k).foldl (open_column table_id task_id column_types) worker =
      { worker with
        storage_ := worker.storage_ ++ (List.range k).flatMap (fun i =>
          [StorageOp.make_write_file (table_item_output_path table_id i task_id),
           StorageOp.make_write_file (table_item_metadata_path table_id i task_id)])
        output_ := worker.output_ ++ (List.range k).map (fun i =>
          { path := table_item_output_path table_id i task_id, data := [] })
        output_metadata_ := worker.output_metadata_ ++ (List.range k).map (fun i =>
          { path := table_item_metadata_path table_id i task_id, data := [] })
        video_metadata_ := worker.video_metadata_ ++
          ((List.range k).filter
            (fun i => decide (column_types[i]? = some ColumnType.Video))).map (fun (i : Nat) =>
            { VideoDescriptor.empty with
              table_id := table_id, column_id := (i : Int), item_id := task_id }) } := by
  induction k with
  | zero => simp
  | succ k ih =>
    rw [List.range_succ, List.foldl_append, ih]
    by_cases h : column_types[k]? = some ColumnType.Video
    · simp [open_column, h, List.filter_append, List.flatMap_append]
    · simp [open_column, h, List.filter_append, List.flatMap_append]

theorem count_video_eq (column_types : List ColumnType) :
    ((List.range column_types.length).filter
      (fun i => decide (column_types[i]? = some ColumnType.Video))).length =
      column_types.count ColumnType.Video := by
  induction column_types using List.reverseRecOn with
  | nil => simp
  | append_singleton l a ih =>
    rw [List.length_append, List.length_singleton, List.range_succ, List.filter_append,
      List.length_append, List.count_append]
    have e : (List.range l.length).filter
        (fun i => decide ((l ++ [a])[i]? = some ColumnType.Video)) =
        (List.range l.length).filter (fun i => decide (l[i]? = some ColumnType.Video)) := by
      apply List.filter_congr
      intro i hi
      rw [List.getElem?_append_left (List.mem_range.mp hi)]
    rw [e, ih]
    cases a <;> simp [List.count_cons]

theorem new_task_eq (worker : SaveWorker) (table_id task_id : Int)
    (column_types : List ColumnType) :
    worker.new_task table_id task_id column_types =
      { storage_ := (flush_spec worker).storage_ ++
          (List.range column_types.length).flatMap (fun i =>
            [StorageOp.make_write_file (table_item_output_path table_id i task_id),
             StorageOp.make_write_file (table_item_metadata_path table_id i task_id)])
        output_ := (List.range column_types.length).map (fun i =>
          { path := table_item_output_path table_id i task_id, data := [] })
        output_metadata_ := (List.range column_types.length).map (fun i =>
          { path := table_item_metadata_path table_id i task_id, data := [] })
        video_metadata_ :=
          ((List.range column_types.length).filter
            (fun i => decide (column_types[i]? = some ColumnType.Video))).map (fun (i : Nat) =>
            { VideoDescriptor.empty with
              table_id := table_id, column_id := (i : Int), item_id := task_id })
        intervals := worker.intervals ++ ["io"]
        io_write := worker.io_write } := by
  unfold SaveWorker.new_task
  simp only [open_columns_eq, foldl_append_singleton, flush_spec, List.nil_append]

/-- C9: after `new_task(table_id, task_id, column_types)`, from any prior
state, the worker holds one data writer and one metadata writer per column,
writer `i` being newly opened at the canonical data (metadata) path of
`(table_id, i, task_id)`, and one fresh descriptor per Video column, in column
order, carrying `table_id`, that column's index and `task_id`; with no column
it opens no file and holds no descriptor. -/
theorem new_task_opens (worker : SaveWorker) (table_id task_id : Int)
    (column_types : List ColumnType) :
    (worker.new_task table_id task_id column_types).output_ =
      (List.range column_types.length).map (fun i =>
        { path := table_item_output_path table_id i task_id, data := [] }) ∧
    (worker.new_task table_id task_id column_types).output_metadata_ =
      (List.range column_types.length).map (fun i =>
        { path := table_item_metadata_path table_id i task_id, data := [] }) ∧
    (worker.new_task table_id task_id column_types).video_metadata_ =
      ((List.range column_types.length).filter
        (fun i => decide (column_types[i]? = some ColumnType.Video))).map (fun (i : Nat) =>
        { VideoDescriptor.empty with
          table_id := table_id, column_id := (i : Int), item_id := task_id }) ∧
    (worker.new_task table_id task_id column_types).storage_ =
      (flush_spec worker).storage_ ++
        (List.range column_types.length).flatMap (fun i =>
          [StorageOp.make_write_file (table_item_output_path table_id i task_id),
           StorageOp.make_write_file (table_item_metadata_path table_id i task_id)]) ∧
    (worker.new_task table_id task_id column_types).output_.length = column_types.length ∧
    (worker.new_task table_id task_id column_types).output_metadata_.length =
      column_types.length ∧
    (worker.new_task table_id task_id column_types).video_metadata_.length =
      column_types.count ColumnType.Video ∧
    (worker.new_task table_id task_id []).output_ = [] ∧
    (worker.new_task table_id task_id []).output_metadata_ = [] ∧
    (worker.new_task table_id task_id []).video_metadata_ = [] ∧
    (worker.new_task table_id task_id []).storage_ = (flush_spec worker).storage_ := by
  rw [new_task_eq, new_task_eq]
  refine ⟨rfl, rfl, rfl, rfl, by simp, by simp, ?_, by simp, by simp, by simp, by simp⟩
  simp only [List.length_map]
  exact count_video_eq column_types

/-- C10: the destructor is the flush step of `new_task`: from every state it
issues the storage operations the specification lists (every data writer
saved, then every metadata writer, then every pending descriptor written),
which are those of `new_task` with no column, and both leave no writer and no
descriptor. -/
theorem destroy_equiv_new_task_flush (worker : SaveWorker) (table_id task_id : Int) :
    worker.destroy = flush_spec worker ∧
    worker.destroy.storage_ = (worker.new_task table_id task_id []).storage_ ∧
    worker.destroy.output_ = (worker.new_task table_id task_id []).output_ ∧
    worker.destroy.output_metadata_ = (worker.new_task table_id task_id []).output_metadata_ ∧
    worker.destroy.video_metadata_ = (worker.new_task table_id task_id []).video_metadata_ ∧
    worker.destroy.io_write = (worker.new_task table_id task_id []).io_write ∧
    worker.destroy.output_ = [] ∧ worker.destroy.output_metadata_ = [] ∧
    worker.destroy.video_metadata_ = [] ∧
    worker.destroy.storage_ =
      worker.storage_ ++ worker.output_.map StorageOp.save ++
        worker.output_metadata_.map StorageOp.save ++
        worker.video_metadata_.map StorageOp.write_video_metadata := by
  rw [new_task_eq, destroy_eq_flush_spec]
  simp [flush_spec]

/-! ### The writing loops of `feed` -/

theorem write_element_sizes_eq (column : List Element) (mf : WriteFile) (s : Int) :
    write_element_sizes column mf s =
      ({ mf with data := mf.data ++ column.flatMap (fun e => u64_bytes e.size) },
       s + 8 * (column.length : Int)) := by
  unfold write_element_sizes
  induction column generalizing mf s with
  | nil => simp
  | cons e es ih =>
    rw [List.foldl_cons, ih]
    simp only [s_write_u64, List.flatMap_cons, List.append_assoc, List.length_cons,
      Nat.cast_add, Nat.cast_one, Prod.mk.injEq, true_and]
    ring

theorem s_write_some (file : WriteFile) (buffer : Ptr) (size : Nat)
    (h : size ≤ buffer.bytes.length) :
    s_write file buffer size =
      some { file with data := file.data ++ buffer.bytes.take size } := by
  simp [s_write, h]

theorem s_write_eq_some (file : WriteFile) (buffer : Ptr) (size : Nat) (r : WriteFile)
    (h : s_write file buffer size = some r) :
    size ≤ buffer.bytes.length ∧
      r = { file with data := file.data ++ buffer.bytes.take size } := by
  unfold s_write at h
  by_cases hs : size ≤ buffer.bytes.length
  · rw [if_pos hs] at h
    exact ⟨hs, (Option.some.inj h).symm⟩
  · rw [if_neg hs] at h
    exact absurd h (by simp)

theorem write_element_data_some (column : List Element) (df : WriteFile) (s : Int)
    (h : ∀ e ∈ column, e.size ≤ e.buffer.bytes.length) :
    write_element_data column df s =
      some ({ df with data := df.data ++ column.flatMap (fun e => e.buffer.bytes.take e.size) },
            s + ((column.map (fun e => e.size)).sum : Nat)) := by
  unfold write_element_data
  simp only [Option.pure_def, Option.bind_eq_bind]
  induction column generalizing df s with
  | nil => simp
  | cons e es ih =>
    have he : e.size ≤ e.buffer.bytes.length := h e (List.mem_cons_self _ _)
    rw [List.foldlM_cons]
    dsimp only
    rw [s_write_some _ _ _ he]
    simp only [Option.bind_eq_bind, Option.some_bind]
    rw [ih _ _ (fun x hx => h x (List.mem_cons_of_mem _ hx))]
    simp only [List.flatMap_cons, List.append_assoc, List.map_cons, List.sum_cons,
      Nat.cast_add, Option.some.injEq, Prod.mk.injEq, true_and]
    ring

theorem write_element_data_readable (column : List Element) (df : WriteFile) (s : Int)
    (r : WriteFile × Int) (h : write_element_data column df s = some r) :
    ∀ e ∈ column, e.size ≤ e.buffer.bytes.length := by
  unfold write_element_data at h
  simp only [Option.pure_def, Option.bind_eq_bind] at h
  induction column generalizing df s with
  | nil => simp
  | cons e es ih =>
    rw [List.foldlM_cons] at h
    dsimp only at h
    by_cases he : e.size ≤ e.buffer.bytes.length
    · rw [s_write_some _ _ _ he] at h
      simp only [Option.bind_eq_bind, Option.some_bind] at h
      intro x hx
      rcases List.mem_cons.mp hx with rfl | hx
      · exact he
      · exact ih _ _ h x hx
    · have : s_write df e.buffer e.size = none := by simp [s_write, he]
      rw [this] at h
      simp at h

theorem Element.frame_size_lt (e : Element) : e.frame_size < SIZE_MOD := by
  unfold Element.frame_size Element.as_frame
  cases hf : e.frame with
  | none => simp [SIZE_MOD]
  | some f =>
    simp only [Option.some_bind, Frame.size]
    cases hi : f.as_frame_info with
    | none => simp [SIZE_MOD]
    | some info => simpa using FrameInfo.size_lt info

theorem write_frame_sizes_some (column : List Element) (mf : WriteFile) (s : Int)
    (h : ∀ e ∈ column, ∃ f sz, e.frame = some f ∧ f.size = some sz) :
    write_frame_sizes column mf s =
      some ({ mf with data := mf.data ++ column.flatMap (fun e => u64_bytes e.frame_size) },
            s + 8 * (column.length : Int)) := by
  unfold write_frame_sizes
  simp only [Option.pure_def, Option.bind_eq_bind, Element.as_frame]
  induction column generalizing mf s with
  | nil => simp
  | cons e es ih =>
    obtain ⟨f, sz, hf, hsz⟩ := h e (List.mem_cons_self _ _)
    rw [List.foldlM_cons]
    dsimp only
    have hfs : e.frame_size = sz := by simp [Element.frame_size, Element.as_frame, hf, hsz]
    simp only [hf, hsz, Option.bind_eq_bind, Option.some_bind]
    rw [ih _ _ (fun x hx => h x (List.mem_cons_of_mem _ hx))]
    simp only [s_write_u64, hfs, List.flatMap_cons, List.append_assoc, List.length_cons,
      Nat.cast_add, Nat.cast_one, Option.some.injEq, Prod.mk.injEq, true_and]
    ring

theorem write_frame_sizes_frames (column : List Element) (mf : WriteFile) (s : Int)
    (r : WriteFile × Int) (h : write_frame_sizes column mf s = some r) :
    ∀ e ∈ column, ∃ f sz, e.frame = some f ∧ f.size = some sz := by
  unfold write_frame_sizes at h
  simp only [Option.pure_def, Option.bind_eq_bind, Element.as_frame] at h
  induction column generalizing mf s with
  | nil => simp
  | cons e es ih =>
    rw [List.foldlM_cons] at h
    dsimp only at h
    cases hf : e.frame with
    | none => simp [hf] at h
    | some f =>
      cases hsz : f.size with
      | none => simp [hf, hsz] at h
      | some sz =>
        simp only [hf, hsz, Option.bind_eq_bind, Option.some_bind] at h
        intro x hx
        rcases List.mem_cons.mp hx with rfl | hx
        · exact ⟨f, sz, hf, hsz⟩
        · exact ih _ _ h x hx

theorem write_frame_data_some (column : List Element) (df : WriteFile) (s : Int)
    (h : ∀ e ∈ column, ∃ f sz, e.frame = some f ∧ f.size = some sz ∧
      sz ≤ f.data.bytes.length) :
    write_frame_data column df s =
      some ({ df with data := df.data ++ column.flatMap Element.pixels },
            s + ((column.map Element.frame_size).sum : Nat)) := by
  unfold write_frame_data
  simp only [Option.pure_def, Option.bind_eq_bind, Element.as_frame]
  induction column generalizing df s with
  | nil => simp
  | cons e es ih =>
    obtain ⟨f, sz, hf, hsz, hle⟩ := h e (List.mem_cons_self _ _)
    rw [List.foldlM_cons]
    dsimp only
    have hfs : e.frame_size = sz := by simp [Element.frame_size, Element.as_frame, hf, hsz]
    have hpx : e.pixels = f.data.bytes.take sz := by
      simp [Element.pixels, Element.as_frame, hf, hfs]
    simp only [hf, hsz, Option.bind_eq_bind, Option.some_bind,
      s_write_some _ _ _ hle]
    rw [ih _ _ (fun x hx => h x (List.mem_cons_of_mem _ hx))]
    simp only [hfs, hpx, List.flatMap_cons, List.append_assoc, List.map_cons, List.sum_cons,
      Nat.cast_add, Option.some.injEq, Prod.mk.injEq, true_and]
    ring

theorem write_frame_data_readable (column : List Element) (df : WriteFile) (s : Int)
    (r : WriteFile × Int) (h : write_frame_data column df s = some r) :
    ∀ e ∈ column, ∃ f sz, e.frame = some f ∧ f.size = some sz ∧
      sz ≤ f.data.bytes.length := by
  unfold write_frame_data at h
  simp only [Option.pure_def, Option.bind_eq_bind, Element.as_frame] at h
  induction column generalizing df s with
  | nil => simp
  | cons e es ih =>
    rw [List.foldlM_cons] at h
    dsimp only at h
    cases hf : e.frame with
    | none => simp [hf] at h
    | some f =>
      cases hsz : f.size with
      | none => simp [hf, hsz] at h
      | some sz =>
        simp only [hf, hsz, Option.bind_eq_bind, Option.some_bind] at h
        by_cases hle : sz ≤ f.data.bytes.length
        · rw [s_write_some _ _ _ hle] at h
          simp only [Option.some_bind] at h
          intro x hx
          rcases List.mem_cons.mp hx with rfl | hx
          · exact ⟨f, sz, hf, hsz, hle⟩
          · exact ih _ _ h x hx
        · have : s_write df f.data sz = none := by simp [s_write, hle]
          rw [this] at h
          simp at h

theorem pixels_length (e : Element)
    (h : ∃ f sz, e.frame = some f ∧ f.size = some sz ∧ sz ≤ f.data.bytes.length) :
    e.pixels.length = e.frame_size := by
  obtain ⟨f, sz, hf, hsz, hle⟩ := h
  have hfs : e.frame_size = sz := by simp [Element.frame_size, Element.as_frame, hf, hsz]
  simp [Element.pixels, Element.as_frame, hf, hfs, hle]

/-! ### One column of `feed` -/

/-- What one iteration of the loop does, read off a successful run. -/
theorem feed_column_inv (ix : Indexer) (w : EvalWorkEntry) (j : Nat) (s s' : SaveWorker)
    (v v' : Nat) (h : feed_column ix w j (s, v) = some (s', v')) :
    ∃ (elements : List Element) (df mf : WriteFile) (r : ColumnOutput),
      w.columns[j]? = some elements ∧ s.output_[j]? = some df ∧
      s.output_metadata_[j]? = some mf ∧
      s'.output_ = s.output_.set j r.output_file ∧
      s'.output_metadata_ = s.output_metadata_.set j r.output_metadata_file ∧
      s'.storage_ = s.storage_ ∧
      s'.io_write = s.io_write + r.size_written ∧
      ((w.column_types[j]? = some ColumnType.Video ∧
          ∃ (compressed : Bool) (frame_info : FrameInfo) (vd d : VideoDescriptor),
            w.compressed[j]? = some compressed ∧ w.frame_sizes[v]? = some frame_info ∧
            s.video_metadata_[v]? = some vd ∧
            feed_video ix elements compressed frame_info j df mf vd = some r ∧
            r.video_descriptor = some d ∧
            s'.video_metadata_ = s.video_metadata_.set v d ∧ v' = v + 1) ∨
       (w.column_types[j]? = some ColumnType.Bytes ∧
          feed_bytes elements df mf = some r ∧
          s'.video_metadata_ = s.video_metadata_ ∧ v' = v)) := by
  unfold feed_column at h
  simp only [Option.pure_def, Option.bind_eq_bind, move_if_different_address_space] at h
  cases h1 : w.columns[j]? with
  | none => simp [h1] at h
  | some elements =>
  cases h2 : s.output_[j]? with
  | none => simp [h1, h2] at h
  | some df =>
  cases h3 : s.output_metadata_[j]? with
  | none => simp [h1, h2, h3] at h
  | some mf =>
  cases h4 : w.column_handles[j]? with
  | none => simp [h1, h2, h3, h4] at h
  | some handle =>
  cases h5 : w.compressed[j]? with
  | none => simp [h1, h2, h3, h4, h5] at h
  | some compressed =>
  cases h6 : w.column_types[j]? with
  | none => simp [h1, h2, h3, h4, h5, h6] at h
  | some ct =>
  simp only [h1, h2, h3, h4, h5, h6, Option.some_bind] at h
  cases ct with
  | Video =>
    simp only [if_true] at h
    cases h7 : w.frame_sizes[v]? with
    | none => simp [h7] at h
    | some frame_info =>
    cases h8 : s.video_metadata_[v]? with
    | none => simp [h7, h8] at h
    | some vd =>
    simp only [h7, h8, Option.some_bind] at h
    cases h9 : feed_video ix elements compressed frame_info j df mf vd with
    | none => simp [h9] at h
    | some r =>
    simp only [h9, Option.some_bind] at h
    cases h10 : r.video_descriptor with
    | none => simp [h10] at h
    | some d =>
    simp only [h10, Option.some_bind, Option.some.injEq, Prod.mk.injEq] at h
    obtain ⟨hs, hv⟩ := h
    subst hs
    exact ⟨elements, df, mf, r, rfl, rfl, rfl, rfl, rfl, rfl, rfl,
      Or.inl ⟨rfl, compressed, frame_info, vd, d, rfl, rfl, rfl, h9, h10, rfl, hv.symm⟩⟩
  | Bytes =>
    simp only [reduceCtorEq, if_false] at h
    cases h9 : feed_bytes elements df mf with
    | none => simp [h9] at h
    | some r =>
    simp only [h9, Option.some_bind, Option.some.injEq, Prod.mk.injEq] at h
    obtain ⟨hs, hv⟩ := h
    subst hs
    exact ⟨elements, df, mf, r, rfl, rfl, rfl, rfl, rfl, rfl, rfl,
      Or.inr ⟨rfl, h9, rfl, hv.symm⟩⟩

/-! ### The loop of `feed` -/

theorem feed_columns_nil (ix : Indexer) (w : EvalWorkEntry) (st : SaveWorker × Nat) :
    feed_columns ix w [] st = some st := rfl

theorem feed_columns_cons (ix : Indexer) (w : EvalWorkEntry) (j : Nat) (l : List Nat)
    (st : SaveWorker × Nat) :
    feed_columns ix w (j :: l) st = (feed_column ix w j st).bind (feed_columns ix w l) := by
  unfold feed_columns
  rw [List.foldlM_cons]
  rfl

theorem feed_columns_append (ix : Indexer) (w : EvalWorkEntry) (l₁ l₂ : List Nat)
    (st : SaveWorker × Nat) :
    feed_columns ix w (l₁ ++ l₂) st =
      (feed_columns ix w l₁ st).bind (feed_columns ix w l₂) := by
  unfold feed_columns
  rw [List.foldlM_append]
  rfl

/-- One iteration touches only the two writers of its column and the
descriptor at `video_col_idx`. -/
theorem feed_column_frame (ix : Indexer) (w : EvalWorkEntry) (j : Nat) (s s' : SaveWorker)
    (v v' : Nat) (h : feed_column ix w j (s, v) = some (s', v')) :
    s'.output_.length = s.output_.length ∧
    s'.output_metadata_.length = s.output_metadata_.length ∧
    s'.video_metadata_.length = s.video_metadata_.length ∧
    s'.storage_ = s.storage_ ∧
    (∀ i, i ≠ j → s'.output_[i]? = s.output_[i]? ∧
      s'.output_metadata_[i]? = s.output_metadata_[i]?) ∧
    v ≤ v' ∧ v' ≤ v + 1 ∧
    (v' = v + 1 ↔ w.column_types[j]? = some ColumnType.Video) ∧
    (∀ u, u ≠ v → s'.video_metadata_[u]? = s.video_metadata_[u]?) ∧
    (v' = v → s'.video_metadata_ = s.video_metadata_) := by
  obtain ⟨elements, df, mf, r, _, _, _, ho, hm, hst, _, hcase⟩ := feed_column_inv ix w j s s' v v' h
  have hfiles : ∀ i, i ≠ j → s'.output_[i]? = s.output_[i]? ∧
      s'.output_metadata_[i]? = s.output_metadata_[i]? := by
    intro i hi
    rw [ho, hm]
    exact ⟨List.getElem?_set_ne (Ne.symm hi), List.getElem?_set_ne (Ne.symm hi)⟩
  rcases hcase with ⟨hct, c, fi, vd, d, _, _, _, _, _, hvm, hv⟩ | ⟨hct, _, hvm, hv⟩
  · refine ⟨by rw [ho]; simp, by rw [hm]; simp, by rw [hvm]; simp, hst, hfiles,
      by omega, by omega, ⟨fun _ => hct, fun _ => hv⟩, ?_, fun hh => by omega⟩
    intro u hu
    rw [hvm]
    exact List.getElem?_set_ne (Ne.symm hu)
  · refine ⟨by rw [ho]; simp, by rw [hm]; simp, by rw [hvm], hst, hfiles,
      by omega, by omega, ⟨fun hh => by omega, fun hh => ?_⟩, fun u _ => by rw [hvm],
      fun _ => hvm⟩
    rw [hct] at hh
    exact absurd hh (by simp)

/-- The loop touches only the writers of the columns it visits and the
descriptors from its first to its last `video_col_idx`. -/
theorem feed_columns_frame (ix : Indexer) (w : EvalWorkEntry) (l : List Nat) :
    ∀ (s s' : SaveWorker) (v v' : Nat), feed_columns ix w l (s, v) = some (s', v') →
    s'.output_.length = s.output_.length ∧
    s'.output_metadata_.length = s.output_metadata_.length ∧
    s'.video_metadata_.length = s.video_metadata_.length ∧
    s'.storage_ = s.storage_ ∧
    (∀ i, i ∉ l → s'.output_[i]? = s.output_[i]? ∧
      s'.output_metadata_[i]? = s.output_metadata_[i]?) ∧
    v' = v + (l.filter
      (fun i => decide (w.column_types[i]? = some ColumnType.Video))).length ∧
    (∀ u, u < v ∨ v' ≤ u → s'.video_metadata_[u]? = s.video_metadata_[u]?) := by
  induction l with
  | nil =>
    intro s s' v v' h
    rw [feed_columns_nil] at h
    obtain ⟨rfl, rfl⟩ := Prod.mk.inj (Option.some.inj h)
    simp
  | cons j l ih =>
    intro s s' v v' h
    rw [feed_columns_cons] at h
    cases hstep : feed_column ix w j (s, v) with
    | none => rw [hstep] at h; simp at h
    | some st1 =>
      obtain ⟨s1, v1⟩ := st1
      rw [hstep, Option.some_bind] at h
      obtain ⟨a1, a2, a3, a4, a5, a6, a7, a8, a9, _⟩ := feed_column_frame ix w j s s1 v v1 hstep
      obtain ⟨b1, b2, b3, b4, b5, b6, b7⟩ := ih s1 s' v1 v' h
      have hv1 : v1 = v + (if w.column_types[j]? = some ColumnType.Video then 1 else 0) := by
        by_cases hc : w.column_types[j]? = some ColumnType.Video
        · rw [if_pos hc]; exact a8.mpr hc
        · rw [if_neg hc]
          have : v1 ≠ v + 1 := fun hh => hc (a8.mp hh)
          omega
      refine ⟨b1.trans a1, b2.trans a2, b3.trans a3, b4.trans a4, ?_, ?_, ?_⟩
      · intro i hi
        rw [List.mem_cons, not_or] at hi
        exact ⟨(b5 i hi.2).1.trans (a5 i hi.1).1, (b5 i hi.2).2.trans (a5 i hi.1).2⟩
      · rw [b6, hv1, List.filter_cons]
        by_cases hc : w.column_types[j]? = some ColumnType.Video
        · simp [hc]; omega
        · simp [hc]
      · intro u hu
        have hle : v1 ≤ v' := by omega
        rw [b7 u (by omega)]
        by_cases huv : u = v
        · subst huv
          have : v1 = u := by omega
          rw [(feed_column_frame ix w j s s1 u v1 hstep).2.2.2.2.2.2.2.2.2 this]
        · exact a9 u huv

theorem range_split (n j : Nat) (hj : j < n) :
    List.range n = List.range j ++ (j :: List.range' (j + 1) (n - (j + 1))) := by
  have e : n = (n - (j + 1) + 1) + j := by omega
  conv_lhs => rw [e, List.range_eq_range', ← List.range'_append_1, Nat.zero_add,
    List.range'_succ]
  rw [List.range_eq_range']

/-- The iteration of a successful `feed` for column `j`: it starts from the
writers of column `j` and the descriptor as they were before the call, runs
with `video_col_idx = video_col_idx_at w j`, and what it leaves in the writers
(and, for a Video column, in the descriptor) is what the call leaves. -/
theorem feed_at (ix : Indexer) (w : EvalWorkEntry) (s0 sN : SaveWorker)
    (h : s0.feed ix w = some sN) (j : Nat) (hj : j < w.columns.length) :
    ∃ (s s' : SaveWorker) (v' : Nat),
      feed_column ix w j (s, video_col_idx_at w j) = some (s', v') ∧
      s.output_[j]? = s0.output_[j]? ∧
      s.output_metadata_[j]? = s0.output_metadata_[j]? ∧
      sN.output_[j]? = s'.output_[j]? ∧
      sN.output_metadata_[j]? = s'.output_metadata_[j]? ∧
      s.video_metadata_[video_col_idx_at w j]? = s0.video_metadata_[video_col_idx_at w j]? ∧
      (w.column_types[j]? = some ColumnType.Video →
        sN.video_metadata_[video_col_idx_at w j]? =
          s'.video_metadata_[video_col_idx_at w j]?) := by
  unfold SaveWorker.feed at h
  rw [range_split _ j hj, feed_columns_append] at h
  cases h1 : feed_columns ix w (List.range j) (s0, 0) with
  | none => rw [h1] at h; simp at h
  | some st1 =>
    obtain ⟨s, v⟩ := st1
    rw [h1, Option.some_bind, feed_columns_cons] at h
    cases h2 : feed_column ix w j (s, v) with
    | none => rw [h2] at h; simp at h
    | some st2 =>
      obtain ⟨s', v'⟩ := st2
      rw [h2, Option.some_bind] at h
      cases h3 : feed_columns ix w (List.range' (j + 1) (w.columns.length - (j + 1))) (s', v')
        with
      | none => rw [h3] at h; simp at h
      | some st3 =>
        obtain ⟨s3, v3⟩ := st3
        rw [h3] at h
        simp only [Option.map_some', Option.some.injEq] at h
        subst h
        obtain ⟨_, _, _, _, a5, a6, a7⟩ := feed_columns_frame ix w _ s0 s 0 v h1
        obtain ⟨_, _, _, _, b5, b6, b7⟩ := feed_columns_frame ix w _ s' s3 v' v3 h3
        have hv : v = video_col_idx_at w j := by
          rw [a6, Nat.zero_add]; rfl
        subst hv
        have hj1 : j ∉ List.range j := by simp
        have hj2 : j ∉ List.range' (j + 1) (w.columns.length - (j + 1)) := by
          simp
        refine ⟨s, s', v', h2, (a5 j hj1).1, (a5 j hj1).2, (b5 j hj2).1, (b5 j hj2).2,
          a7 _ (Or.inr (Nat.le_refl _)), ?_⟩
        intro hvid
        have := ((feed_column_frame ix w j s s' _ v' h2).2.2.2.2.2.2.2.1).mpr hvid
        exact b7 _ (Or.inl (by omega))

/-! ### Fixed-width integers -/

theorem u64_bytes_length (v : Nat) : (u64_bytes v).length = 8 := by
  simp [u64_bytes]

theorem read_u64_bytes (v : Nat) (rest : List Nat) :
    read_u64 (u64_bytes v ++ rest) = some (v % SIZE_MOD, rest) := by
  have hlen : (u64_bytes v).length = 8 := u64_bytes_length v
  unfold read_u64
  rw [if_pos (by rw [List.length_append, hlen]; omega)]
  rw [List.take_left' hlen, List.drop_left' hlen]
  simp only [Option.some.injEq, Prod.mk.injEq, and_true]
  simp only [u64_bytes, SIZE_MOD, List.range_succ, List.range_zero, List.nil_append,
    List.cons_append, List.map_cons, List.map_nil, List.reverse_cons, List.reverse_nil,
    List.foldl_cons, List.foldl_nil]
  norm_num
  omega

theorem read_u64s_bytes (sizes : List Nat) (rest : List Nat)
    (h : ∀ x ∈ sizes, x < SIZE_MOD) :
    read_u64s sizes.length (sizes.flatMap u64_bytes ++ rest) = some sizes := by
  induction sizes with
  | nil => simp [read_u64s]
  | cons a l ih =>
    have ha : a < SIZE_MOD := h a (List.mem_cons_self _ _)
    simp only [List.length_cons, read_u64s, List.flatMap_cons, List.append_assoc]
    rw [read_u64_bytes, Option.some_bind]
    simp only
    rw [ih (fun x hx => h x (List.mem_cons_of_mem _ hx)), Nat.mod_eq_of_lt ha]
    rfl

/-- A generic record, `u64 n` followed by the `n` sizes, reads back as the
sizes. -/
theorem read_generic_record (sizes : List Nat) (hn : sizes.length < SIZE_MOD)
    (h : ∀ x ∈ sizes, x < SIZE_MOD) :
    read_generic_metadata (u64_bytes sizes.length ++ sizes.flatMap u64_bytes) = some sizes := by
  unfold read_generic_metadata
  rw [read_u64_bytes, Option.some_bind]
  simp only
  rw [Nat.mod_eq_of_lt hn]
  have := read_u64s_bytes sizes [] h
  rwa [List.append_nil] at this

/-! ### Bytes columns -/

theorem feed_bytes_some (elements : List Element) (df mf : WriteFile)
    (h : ∀ e ∈ elements, e.size ≤ e.buffer.bytes.length) :
    feed_bytes elements df mf =
      some { output_file :=
               { df with data := df.data ++
                   elements.flatMap (fun e => e.buffer.bytes.take e.size) }
             output_metadata_file :=
               { mf with data := mf.data ++ u64_bytes elements.length ++
                   elements.flatMap (fun e => u64_bytes e.size) }
             video_descriptor := none
             size_written := 0 + 8 * (elements.length : Int) +
               ((elements.map (fun e => e.size)).sum : Nat) } := by
  unfold feed_bytes
  simp only [write_element_sizes_eq, write_element_data_some _ _ _ h, Option.map_some',
    s_write_u64]

theorem feed_bytes_readable (elements : List Element) (df mf : WriteFile) (r : ColumnOutput)
    (h : feed_bytes elements df mf = some r) :
    ∀ e ∈ elements, e.size ≤ e.buffer.bytes.length := by
  unfold feed_bytes at h
  simp only [Option.map_eq_some'] at h
  obtain ⟨d, hd, _⟩ := h
  exact write_element_data_readable _ _ _ d hd

/-- C2: for a Bytes column with elements `e_1 .. e_n`, one `feed` appends to
the column's metadata file exactly the little-endian `u64` `n` followed by the
`u64` sizes of `e_1 .. e_n`, and to its data file exactly the bytes of
`e_1 .. e_n` in order. The iteration for the column succeeds whenever its
writers exist and every element's `size` bytes are readable; and whatever the
other columns are, a `feed` that returns has appended exactly these bytes. -/
theorem feed_bytes_column (ix : Indexer) (w : EvalWorkEntry) (j : Nat)
    (elements : List Element) (hcol : w.columns[j]? = some elements)
    (htype : w.column_types[j]? = some ColumnType.Bytes) :
    (∀ (s : SaveWorker) (v : Nat) (df mf : WriteFile) (handle : DeviceHandle) (c : Bool),
      s.output_[j]? = some df → s.output_metadata_[j]? = some mf →
      w.column_handles[j]? = some handle → w.compressed[j]? = some c →
      (∀ e ∈ elements, e.size ≤ e.buffer.bytes.length) →
      ∃ s', feed_column ix w j (s, v) = some (s', v) ∧
        s'.output_metadata_[j]? =
          some { mf with data := mf.data ++ u64_bytes elements.length ++
            elements.flatMap (fun e => u64_bytes e.size) } ∧
        s'.output_[j]? =
          some { df with data := df.data ++
            elements.flatMap (fun e => e.buffer.bytes.take e.size) }) ∧
    (∀ (s0 sN : SaveWorker), s0.feed ix w = some sN →
      ∃ (df mf : WriteFile), s0.output_[j]? = some df ∧ s0.output_metadata_[j]? = some mf ∧
        sN.output_metadata_[j]? =
          some { mf with data := mf.data ++ u64_bytes elements.length ++
            elements.flatMap (fun e => u64_bytes e.size) } ∧
        sN.output_[j]? =
          some { df with data := df.data ++
            elements.flatMap (fun e => e.buffer.bytes.take e.size) }) ∧
    (u64_bytes elements.length).length = 8 ∧
    read_u64 (u64_bytes elements.length) = some (elements.length % 2 ^ 64, []) := by
  refine ⟨?_, ?_, u64_bytes_length _, ?_⟩
  · intro s v df mf handle c h1 h2 h3 h4 hr
    have hj1 : j < s.output_.length := by
      by_contra hh
      rw [List.getElem?_eq_none (by omega)] at h1
      exact absurd h1 (by simp)
    have hj2 : j < s.output_metadata_.length := by
      by_contra hh
      rw [List.getElem?_eq_none (by omega)] at h2
      exact absurd h2 (by simp)
    refine ⟨{ s with
        output_ := s.output_.set j
          { df with data := df.data ++
              elements.flatMap (fun e => e.buffer.bytes.take e.size) }
        output_metadata_ := s.output_metadata_.set j
          { mf with data := mf.data ++ u64_bytes elements.length ++
              elements.flatMap (fun e => u64_bytes e.size) }
        intervals := s.intervals ++ ["io"]
        io_write := s.io_write + (0 + 8 * (elements.length : Int) +
          ((elements.map (fun e => e.size)).sum : Nat)) }, ?_, ?_, ?_⟩
    · unfold feed_column
      simp only [Option.pure_def, Option.bind_eq_bind, move_if_different_address_space,
        hcol, h1, h2, h3, h4, htype, Option.some_bind, reduceCtorEq, if_false,
        feed_bytes_some _ _ _ hr]
    · simp [hj2]
    · simp [hj1]
  · intro s0 sN h
    have hj : j < w.columns.length := by
      by_contra hh
      rw [List.getElem?_eq_none (by omega)] at hcol
      exact absurd hcol (by simp)
    obtain ⟨s, s', v', hstep, e1, e2, e3, e4, _, _⟩ := feed_at ix w s0 sN h j hj
    obtain ⟨els, df, mf, r, c1, c2, c3, c4, c5, _, _, hcase⟩ :=
      feed_column_inv ix w j s s' _ v' hstep
    rw [hcol] at c1
    obtain rfl := Option.some.inj c1
    rcases hcase with ⟨hct, _⟩ | ⟨_, hfb, _, _⟩
    · rw [htype] at hct
      exact absurd hct (by simp)
    · have hr := feed_bytes_readable _ _ _ r hfb
      rw [feed_bytes_some _ _ _ hr] at hfb
      obtain rfl := Option.some.inj hfb
      have hj1 : j < s.output_.length := by
        by_contra hh
        rw [List.getElem?_eq_none (by omega)] at c2
        exact absurd c2 (by simp)
      have hj2 : j < s.output_metadata_.length := by
        by_contra hh
        rw [List.getElem?_eq_none (by omega)] at c3
        exact absurd c3 (by simp)
      refine ⟨df, mf, e1 ▸ c2, e2 ▸ c3, ?_, ?_⟩
      · rw [e4, c5]; simp [hj2]
      · rw [e3, c4]; simp [hj1]
  · have := read_u64_bytes elements.length []
    rw [List.append_nil] at this
    exact this

/-- Witness for C2: scenario 1 of the specification. -/
theorem feed_bytes_column_witness :
    ∃ sN, (scenario_worker.new_task 7 0 [ColumnType.Bytes]).feed scenario_indexer
        scenario_bytes_entry = some sN ∧
      sN.output_metadata_[0]? = some
        { path := "tables/7/0/0_metadata.bin",
          data := u64_bytes 3 ++ u64_bytes 1 ++ u64_bytes 2 ++ u64_bytes 1 } ∧
      sN.output_[0]? = some { path := "tables/7/0/0.bin", data := [1, 2, 3, 4] } := by
  have hsome : ((scenario_worker.new_task 7 0 [ColumnType.Bytes]).feed scenario_indexer
      scenario_bytes_entry).isSome = true := by decide
  obtain ⟨sN, hN⟩ := Option.isSome_iff_exists.mp hsome
  obtain ⟨df, mf, h1, h2, h3, h4⟩ :=
    (feed_bytes_column scenario_indexer scenario_bytes_entry 0
      [scenario_element [1], scenario_element [2, 3], scenario_element [4]] rfl rfl).2.1
      _ sN hN
  have hdf : df = { path := "tables/7/0/0.bin", data := [] } := by
    have e : (scenario_worker.new_task 7 0 [ColumnType.Bytes]).output_[0]? =
        some { path := "tables/7/0/0.bin", data := [] } := by decide
    rw [e] at h1
    exact (Option.some.inj h1).symm
  have hmf : mf = { path := "tables/7/0/0_metadata.bin", data := [] } := by
    have e : (scenario_worker.new_task 7 0 [ColumnType.Bytes]).output_metadata_[0]? =
        some { path := "tables/7/0/0_metadata.bin", data := [] } := by decide
    rw [e] at h2
    exact (Option.some.inj h2).symm
  subst hdf hmf
  refine ⟨sN, hN, ?_, ?_⟩
  · rw [h3]; decide
  · rw [h4]; decide

/-! ### Video columns -/

theorem feed_video_raw_some (ix : Indexer) (column : List Element) (c : Bool) (fi : FrameInfo)
    (j : Nat) (df mf : WriteFile) (vd : VideoDescriptor) (hn : 0 < column.length)
    (hraw : h264_path c fi = false)
    (h : ∀ e ∈ column, ∃ f sz, e.frame = some f ∧ f.size = some sz ∧
      sz ≤ f.data.bytes.length) :
    feed_video ix column c fi j df mf vd =
      some { output_file := { df with data := df.data ++ column.flatMap Element.pixels }
             output_metadata_file :=
               { mf with data := mf.data ++ u64_bytes column.length ++
                   column.flatMap (fun e => u64_bytes e.frame_size) }
             video_descriptor :=
               some (count_raw_frames (describe_frames vd fi) column.length)
             size_written := 0 + 8 * (column.length : Int) +
               ((column.map Element.frame_size).sum : Nat) } := by
  have h' : ∀ e ∈ column, ∃ f sz, e.frame = some f ∧ f.size = some sz := by
    intro e he
    obtain ⟨f, sz, a, b, _⟩ := h e he
    exact ⟨f, sz, a, b⟩
  unfold feed_video
  simp only [hn, gt_iff_lt, if_true, hraw, Bool.false_eq_true, if_false,
    write_frame_sizes_some _ _ _ h', write_frame_data_some _ _ _ h, Option.some_bind,
    Option.map_some', s_write_u64]

/-- What `feed` does with a Video column, read off a successful run. -/
theorem feed_video_inv (ix : Indexer) (column : List Element) (c : Bool) (fi : FrameInfo)
    (j : Nat) (df mf : WriteFile) (vd : VideoDescriptor) (r : ColumnOutput)
    (h : feed_video ix column c fi j df mf vd = some r) :
    0 < column.length ∧
    ((h264_path c fi = true ∧
        ∃ (ic : H264ByteStreamIndexCreator) (sz : Int),
          feed_packets ix column (ix.create df) 0 = some (ic, sz) ∧
          r = { output_file := ic.output
                output_metadata_file := mf
                video_descriptor := some (append_index (describe_frames vd fi) ic j)
                size_written := sz }) ∨
     (h264_path c fi = false ∧
        (∀ e ∈ column, ∃ f sz, e.frame = some f ∧ f.size = some sz ∧
          sz ≤ f.data.bytes.length) ∧
        r = { output_file := { df with data := df.data ++ column.flatMap Element.pixels }
              output_metadata_file :=
                { mf with data := mf.data ++ u64_bytes column.length ++
                    column.flatMap (fun e => u64_bytes e.frame_size) }
              video_descriptor :=
                some (count_raw_frames (describe_frames vd fi) column.length)
              size_written := 0 + 8 * (column.length : Int) +
                ((column.map Element.frame_size).sum : Nat) })) := by
  by_cases hn : 0 < column.length
  · refine ⟨hn, ?_⟩
    cases hp : h264_path c fi with
    | true =>
      left
      refine ⟨rfl, ?_⟩
      unfold feed_video at h
      simp only [hn, gt_iff_lt, if_true, hp, Option.map_eq_some'] at h
      obtain ⟨⟨ic, sz⟩, h1, h2⟩ := h
      exact ⟨ic, sz, h1, h2.symm⟩
    | false =>
      right
      refine ⟨rfl, ?_⟩
      have hread : ∀ e ∈ column, ∃ f sz, e.frame = some f ∧ f.size = some sz ∧
          sz ≤ f.data.bytes.length := by
        unfold feed_video at h
        simp only [hn, gt_iff_lt, if_true, hp, Bool.false_eq_true, if_false,
          Option.bind_eq_some, Option.map_eq_some'] at h
        obtain ⟨m, _, d, hd, _⟩ := h
        exact write_frame_data_readable _ _ _ d hd
      refine ⟨hread, ?_⟩
      rw [feed_video_raw_some ix column c fi j df mf vd hn hp hread] at h
      exact (Option.some.inj h).symm
  · unfold feed_video at h
    simp [hn] at h

theorem matching_frames (fi : FrameInfo) (elements : List Element)
    (h : ∀ e ∈ elements, ∃ f, e.frame = some f ∧ f.as_frame_info = some fi ∧
      fi.size ≤ f.data.bytes.length) :
    (∀ e ∈ elements, ∃ f sz, e.frame = some f ∧ f.size = some sz ∧
      sz ≤ f.data.bytes.length) ∧
    (∀ e ∈ elements, e.frame_size = fi.size) ∧
    (∀ e ∈ elements, ∀ f, e.frame = some f → e.pixels = f.data.bytes.take fi.size) ∧
    elements.flatMap (fun e => u64_bytes e.frame_size) =
      elements.flatMap (fun _ => u64_bytes fi.size) := by
  have hsz : ∀ e ∈ elements, e.frame_size = fi.size := by
    intro e he
    obtain ⟨f, hf, hi, _⟩ := h e he
    simp [Element.frame_size, Element.as_frame, hf, Frame.size, hi]
  refine ⟨?_, hsz, ?_, ?_⟩
  · intro e he
    obtain ⟨f, hf, hi, hle⟩ := h e he
    exact ⟨f, fi.size, hf, by simp [Frame.size, hi], hle⟩
  · intro e he f hf
    simp [Element.pixels, Element.as_frame, hf, hsz e he]
  · induction elements with
    | nil => rfl
    | cons a l ih =>
      rw [List.flatMap_cons, List.flatMap_cons, hsz a (List.mem_cons_self _ _),
        ih (fun e he => h e (List.mem_cons_of_mem _ he))
          (fun e he => hsz e (List.mem_cons_of_mem _ he))]

/-- C8: a Video column of `n >= 1` frames matching the column's `FrameInfo`
`(H, W, C, kind)`, fed on the raw path: the descriptor ends with codec RAW,
height `H`, width `W`, channels `C`, frame type `kind` and `n` more frames;
the metadata file receives the `u64` `n` and `n` times the `u64` byte size of
a frame; the data file receives the pixel bytes of the frames in order. The
iteration for the column succeeds whenever its writers and descriptor exist;
and whatever the other columns are, a `feed` that returns has done exactly
this. -/
theorem feed_raw_video_column (ix : Indexer) (w : EvalWorkEntry) (j : Nat)
    (elements : List Element) (c : Bool) (fi : FrameInfo)
    (hcol : w.columns[j]? = some elements)
    (htype : w.column_types[j]? = some ColumnType.Video)
    (hc : w.compressed[j]? = some c)
    (hfi : w.frame_sizes[video_col_idx_at w j]? = some fi)
    (hraw : h264_path c fi = false) (hn : 1 ≤ elements.length)
    (hframes : ∀ e ∈ elements, ∃ f, e.frame = some f ∧ f.as_frame_info = some fi ∧
      fi.size ≤ f.data.bytes.length) :
    (∀ (s : SaveWorker) (df mf : WriteFile) (vd : VideoDescriptor) (handle : DeviceHandle),
      s.output_[j]? = some df → s.output_metadata_[j]? = some mf →
      s.video_metadata_[video_col_idx_at w j]? = some vd →
      w.column_handles[j]? = some handle →
      ∃ s' d, feed_column ix w j (s, video_col_idx_at w j) =
          some (s', video_col_idx_at w j + 1) ∧
        s'.video_metadata_[video_col_idx_at w j]? = some d ∧
        d.codec_type = some VideoCodecType.RAW ∧ d.height = fi.height ∧
        d.width = fi.width ∧ d.channels = fi.channels ∧ d.frame_type = some fi.type ∧
        d.frames = vd.frames + (elements.length : Int) ∧
        s'.output_metadata_[j]? =
          some { mf with data := mf.data ++ u64_bytes elements.length ++
            elements.flatMap (fun _ => u64_bytes fi.size) } ∧
        s'.output_[j]? =
          some { df with data := df.data ++ elements.flatMap Element.pixels }) ∧
    (∀ (s0 sN : SaveWorker), s0.feed ix w = some sN →
      ∃ (df mf : WriteFile) (vd d : VideoDescriptor),
        s0.output_[j]? = some df ∧ s0.output_metadata_[j]? = some mf ∧
        s0.video_metadata_[video_col_idx_at w j]? = some vd ∧
        sN.video_metadata_[video_col_idx_at w j]? = some d ∧
        d.codec_type = some VideoCodecType.RAW ∧ d.height = fi.height ∧
        d.width = fi.width ∧ d.channels = fi.channels ∧ d.frame_type = some fi.type ∧
        d.frames = vd.frames + (elements.length : Int) ∧
        sN.output_metadata_[j]? =
          some { mf with data := mf.data ++ u64_bytes elements.length ++
            elements.flatMap (fun _ => u64_bytes fi.size) } ∧
        sN.output_[j]? =
          some { df with data := df.data ++ elements.flatMap Element.pixels }) ∧
    (∀ e ∈ elements, ∀ f, e.frame = some f → e.pixels = f.data.bytes.take fi.size) ∧
    (elements.flatMap Element.pixels).length = elements.length * fi.size := by
  obtain ⟨hread, hsz, hpx, hflat⟩ := matching_frames fi elements hframes
  have hlen : ∀ {α : Type} (l : List α) (i : Nat) (x : α), l[i]? = some x → i < l.length := by
    intro α l i x hx
    by_contra hh
    rw [List.getElem?_eq_none (by omega)] at hx
    exact absurd hx (by simp)
  refine ⟨?_, ?_, hpx, ?_⟩
  · intro s df mf vd handle h1 h2 h3 h4
    have hj1 := hlen _ _ _ h1
    have hj2 := hlen _ _ _ h2
    have hj3 := hlen _ _ _ h3
    refine ⟨{ s with
        output_ := s.output_.set j
          { df with data := df.data ++ elements.flatMap Element.pixels }
        output_metadata_ := s.output_metadata_.set j
          { mf with data := mf.data ++ u64_bytes elements.length ++
              elements.flatMap (fun e => u64_bytes e.frame_size) }
        video_metadata_ := s.video_metadata_.set (video_col_idx_at w j)
          (count_raw_frames (describe_frames vd fi) elements.length)
        intervals := s.intervals ++ ["io"]
        io_write := s.io_write + (0 + 8 * (elements.length : Int) +
          ((elements.map Element.frame_size).sum : Nat)) },
      count_raw_frames (describe_frames vd fi) elements.length, ?_, ?_, rfl, rfl, rfl, rfl,
      rfl, rfl, ?_, ?_⟩
    · unfold feed_column
      simp only [Option.pure_def, Option.bind_eq_bind, move_if_different_address_space,
        hcol, h1, h2, h3, h4, hc, hfi, htype, Option.some_bind, if_true,
        feed_video_raw_some ix elements c fi j df mf vd (by omega) hraw hread]
    · simp [hj3]
    · rw [← hflat]; simp [hj2]
    · simp [hj1]
  · intro s0 sN h
    have hj := hlen _ _ _ hcol
    obtain ⟨s, s', v', hstep, e1, e2, e3, e4, e5, e6⟩ := feed_at ix w s0 sN h j hj
    obtain ⟨els, df, mf, r, c1, c2, c3, c4, c5, _, _, hcase⟩ :=
      feed_column_inv ix w j s s' _ v' hstep
    rw [hcol] at c1
    obtain rfl := Option.some.inj c1
    rcases hcase with ⟨_, c', fi', vd, d, k1, k2, k3, k4, k5, k6, _⟩ | ⟨hct, _⟩
    · rw [hc] at k1
      obtain rfl := Option.some.inj k1
      rw [hfi] at k2
      obtain rfl := Option.some.inj k2
      obtain ⟨_, hcase2⟩ := feed_video_inv ix elements c fi j df mf vd r k4
      rcases hcase2 with ⟨hp, _⟩ | ⟨_, _, rfl⟩
      · rw [hraw] at hp
        exact absurd hp (by simp)
      · simp only [Option.some.injEq] at k5
        subst k5
        have hj1 := hlen _ _ _ c2
        have hj2 := hlen _ _ _ c3
        have hj3 := hlen _ _ _ k3
        refine ⟨df, mf, vd, count_raw_frames (describe_frames vd fi) elements.length,
          e1 ▸ c2, e2 ▸ c3, e5 ▸ k3, ?_, rfl, rfl, rfl, rfl, rfl, rfl,
          ?_, ?_⟩
        · rw [e6 htype, k6]; simp [hj3]
        · rw [e4, c5, ← hflat]; simp [hj2]
        · rw [e3, c4]; simp [hj1]
    · rw [htype] at hct
      exact absurd hct (by simp)
  · have : ∀ l : List Element, (∀ e ∈ l, e.pixels.length = fi.size) →
        (l.flatMap Element.pixels).length = l.length * fi.size := by
      intro l
      induction l with
      | nil => simp
      | cons a l ih =>
        intro hl
        rw [List.flatMap_cons, List.length_append, hl a (List.mem_cons_self _ _),
          ih (fun e he => hl e (List.mem_cons_of_mem _ he)), List.length_cons]
        ring
    apply this
    intro e he
    rw [pixels_length e (hread e he), hsz e he]

/-- Witness for C8: scenario 2 of the specification. -/
theorem feed_raw_video_column_witness :
    ∃ sN d, (scenario_worker.new_task 7 0 [ColumnType.Video]).feed scenario_indexer
        scenario_frames_entry = some sN ∧
      sN.video_metadata_[0]? = some d ∧
      d.codec_type = some VideoCodecType.RAW ∧ d.frames = 2 ∧ d.width = 2 ∧
      d.height = 2 ∧ d.channels = 3 ∧
      sN.output_[0]? =
        some { path := "tables/7/0/0.bin", data := List.replicate 24 127 } := by
  have hsome : ((scenario_worker.new_task 7 0 [ColumnType.Video]).feed scenario_indexer
      scenario_frames_entry).isSome = true := by decide
  obtain ⟨sN, hN⟩ := Option.isSome_iff_exists.mp hsome
  have hframes : ∀ e ∈ [scenario_frame, scenario_frame], ∃ f, e.frame = some f ∧
      f.as_frame_info = some { shape0 := 2, shape1 := 2, shape2 := 3, type := FrameType.U8 } ∧
      FrameInfo.size { shape0 := 2, shape1 := 2, shape2 := 3, type := FrameType.U8 } ≤
        f.data.bytes.length := by
    intro e he
    have he' : e = scenario_frame := by simpa using he
    subst he'
    exact ⟨_, rfl, by decide, by decide⟩
  obtain ⟨df, mf, vd, d, h1, h2, h3, h4, h5, h6, h7, h8, h9, h10, h11, h12⟩ :=
    (feed_raw_video_column scenario_indexer scenario_frames_entry 0
      [scenario_frame, scenario_frame] false
      { shape0 := 2, shape1 := 2, shape2 := 3, type := FrameType.U8 }
      rfl rfl rfl (by decide) (by decide) (by decide) hframes).2.1 _ sN hN
  have hdf : df = { path := "tables/7/0/0.bin", data := [] } := by
    have e : (scenario_worker.new_task 7 0 [ColumnType.Video]).output_[0]? =
        some { path := "tables/7/0/0.bin", data := [] } := by decide
    rw [e] at h1
    exact (Option.some.inj h1).symm
  have hvd : vd.frames = 0 := by
    have e : ((scenario_worker.new_task 7 0 [ColumnType.Video]).video_metadata_[0]?).map
        VideoDescriptor.frames = some 0 := by decide
    have e2 : video_col_idx_at scenario_frames_entry 0 = 0 := by decide
    rw [e2] at h3
    rw [h3] at e
    exact Option.some.inj e
  have e2 : video_col_idx_at scenario_frames_entry 0 = 0 := by decide
  rw [e2] at h4
  subst hdf
  refine ⟨sN, d, hN, h4, h5, ?_, ?_, ?_, ?_, ?_⟩
  · rw [h10, hvd]; decide
  · rw [h7]; decide
  · rw [h6]; decide
  · rw [h8]; decide
  · rw [h12]; decide

/-! ### Properties of every descriptor -/

theorem video_col_idx_at_eq (ix : Indexer) (w : EvalWorkEntry) (n : Nat) (s0 s : SaveWorker)
    (v : Nat) (h : feed_columns ix w (List.range n) (s0, 0) = some (s, v)) :
    v = video_col_idx_at w n := by
  have := (feed_columns_frame ix w _ s0 s 0 v h).2.2.2.2.2.1
  rw [this, Nat.zero_add]
  rfl

/-- A property of descriptors that every Video iteration of a `feed` hands on
holds of every descriptor after the `feed` if it held before. -/
theorem feed_descriptors_induct (ix : Indexer) (w : EvalWorkEntry)
    (P : VideoDescriptor → Prop)
    (hstep : ∀ (j : Nat) (column : List Element) (c : Bool) (fi : FrameInfo)
      (df mf : WriteFile) (vd d : VideoDescriptor) (r : ColumnOutput),
      w.columns[j]? = some column → w.column_types[j]? = some ColumnType.Video →
      w.compressed[j]? = some c → w.frame_sizes[video_col_idx_at w j]? = some fi →
      P vd → feed_video ix column c fi j df mf vd = some r → r.video_descriptor = some d →
      P d)
    (s0 sN : SaveWorker) (h0 : ∀ d ∈ s0.video_metadata_, P d)
    (h : s0.feed ix w = some sN) : ∀ d ∈ sN.video_metadata_, P d := by
  have key : ∀ (n : Nat) (s : SaveWorker) (v : Nat),
      feed_columns ix w (List.range n) (s0, 0) = some (s, v) →
      ∀ d ∈ s.video_metadata_, P d := by
    intro n
    induction n with
    | zero =>
      intro s v hs
      rw [List.range_zero, feed_columns_nil] at hs
      obtain ⟨rfl, _⟩ := Prod.mk.inj (Option.some.inj hs)
      exact h0
    | succ n ih =>
      intro s v hs
      rw [List.range_succ, feed_columns_append] at hs
      cases h1 : feed_columns ix w (List.range n) (s0, 0) with
      | none => rw [h1] at hs; simp at hs
      | some st1 =>
        obtain ⟨s1, v1⟩ := st1
        rw [h1, Option.some_bind, feed_columns_cons] at hs
        cases h2 : feed_column ix w n (s1, v1) with
        | none => rw [h2] at hs; simp at hs
        | some st2 =>
          obtain ⟨s2, v2⟩ := st2
          rw [h2, Option.some_bind, feed_columns_nil] at hs
          obtain ⟨rfl, _⟩ := Prod.mk.inj (Option.some.inj hs)
          have hv1 := video_col_idx_at_eq ix w n s0 s1 v1 h1
          subst hv1
          have ih1 := ih s1 _ h1
          obtain ⟨elements, df, mf, r, c1, _, _, _, _, _, _, hcase⟩ :=
            feed_column_inv ix w n s1 s2 _ v2 h2
          rcases hcase with ⟨hct, c, fi, vd, d, k1, k2, k3, k4, k5, k6, _⟩ | ⟨_, _, hvm, _⟩
          · intro x hx
            rw [k6] at hx
            rcases List.mem_or_eq_of_mem_set hx with hx | hx
            · exact ih1 x hx
            · subst hx
              exact hstep n elements c fi df mf vd x r c1 hct k1 k2
                (ih1 vd (List.getElem?_mem k3)) k4 k5
          · rw [hvm]
            exact ih1
  unfold SaveWorker.feed at h
  cases h1 : feed_columns ix w (List.range w.columns.length) (s0, 0) with
  | none => rw [h1] at h; simp at h
  | some st =>
    obtain ⟨s, v⟩ := st
    rw [h1] at h
    simp only [Option.map_some', Option.some.injEq] at h
    subst h
    exact key _ s v h1

theorem h264_path_iff (c : Bool) (fi : FrameInfo) :
    h264_path c fi = true ↔ (c = true ∧ fi.type = FrameType.U8 ∧ fi.channels = 3) := by
  simp [h264_path, and_assoc]

theorem feed_video_codec (ix : Indexer) (column : List Element) (c : Bool) (fi : FrameInfo)
    (j : Nat) (df mf : WriteFile) (vd d : VideoDescriptor) (r : ColumnOutput)
    (h : feed_video ix column c fi j df mf vd = some r) (hd : r.video_descriptor = some d) :
    (d.codec_type = some VideoCodecType.H264 ↔ h264_path c fi = true) ∧
    (d.codec_type = some VideoCodecType.RAW ↔ h264_path c fi = false) ∧
    d.frame_type = some fi.type ∧ d.channels = fi.channels ∧ d.width = fi.width ∧
    d.height = fi.height := by
  obtain ⟨_, hcase⟩ := feed_video_inv ix column c fi j df mf vd r h
  rcases hcase with ⟨hp, ic, sz, _, rfl⟩ | ⟨hp, _, rfl⟩
  · obtain rfl := Option.some.inj hd
    simp [hp, append_index, describe_frames]
  · obtain rfl := Option.some.inj hd
    simp [hp, count_raw_frames, describe_frames]

/-- C7: after a `feed`, the descriptor of every Video column it processed has
codec H264 exactly when the column's compressed flag is set and its
`FrameInfo` has kind U8 and 3 channels, and codec RAW otherwise; its frame
type and channels are those of the `FrameInfo`, so codec H264 implies frame
type U8 and 3 channels, and `feed` keeps this implication true of every
descriptor the worker holds. -/
theorem video_codec_choice (ix : Indexer) (w : EvalWorkEntry) (s0 sN : SaveWorker)
    (h : s0.feed ix w = some sN) :
    (∀ j, j < w.columns.length → w.column_types[j]? = some ColumnType.Video →
      ∃ (c : Bool) (fi : FrameInfo) (d : VideoDescriptor),
        w.compressed[j]? = some c ∧ w.frame_sizes[video_col_idx_at w j]? = some fi ∧
        sN.video_metadata_[video_col_idx_at w j]? = some d ∧
        (d.codec_type = some VideoCodecType.H264 ↔
          (c = true ∧ fi.type = FrameType.U8 ∧ fi.channels = 3)) ∧
        (d.codec_type = some VideoCodecType.RAW ↔
          ¬ (c = true ∧ fi.type = FrameType.U8 ∧ fi.channels = 3)) ∧
        d.frame_type = some fi.type ∧ d.channels = fi.channels ∧
        (d.codec_type = some VideoCodecType.H264 →
          d.frame_type = some FrameType.U8 ∧ d.channels = 3)) ∧
    ((∀ d ∈ s0.video_metadata_, d.codec_type = some VideoCodecType.H264 →
        d.frame_type = some FrameType.U8 ∧ d.channels = 3) →
      ∀ d ∈ sN.video_metadata_, d.codec_type = some VideoCodecType.H264 →
        d.frame_type = some FrameType.U8 ∧ d.channels = 3) := by
  constructor
  · intro j hj htype
    obtain ⟨s, s', v', hstep, _, _, _, _, _, e6⟩ := feed_at ix w s0 sN h j hj
    obtain ⟨elements, df, mf, r, _, _, _, _, _, _, _, hcase⟩ :=
      feed_column_inv ix w j s s' _ v' hstep
    rcases hcase with ⟨_, c, fi, vd, d, k1, k2, k3, k4, k5, k6, _⟩ | ⟨hct, _⟩
    · obtain ⟨a1, a2, a3, a4, _, _⟩ := feed_video_codec ix elements c fi j df mf vd d r k4 k5
      have hlen : video_col_idx_at w j < s.video_metadata_.length := by
        by_contra hh
        rw [List.getElem?_eq_none (by omega)] at k3
        exact absurd k3 (by simp)
      refine ⟨c, fi, d, k1, k2, ?_, ?_, ?_, a3, a4, ?_⟩
      · rw [e6 htype, k6]; simp [hlen]
      · rw [a1, h264_path_iff]
      · rw [a2, ← h264_path_iff]; simp
      · intro hc
        obtain ⟨_, h2, h3⟩ := (h264_path_iff c fi).mp (a1.mp hc)
        exact ⟨by rw [a3, h2], by rw [a4, h3]⟩
    · rw [htype] at hct
      exact absurd hct (by simp)
  · intro h0
    refine feed_descriptors_induct ix w
      (fun d => d.codec_type = some VideoCodecType.H264 →
        d.frame_type = some FrameType.U8 ∧ d.channels = 3) ?_ s0 sN h0 h
    intro j column c fi df mf vd d r _ _ _ _ _ hfv hd hc
    obtain ⟨a1, _, a3, a4, _, _⟩ := feed_video_codec ix column c fi j df mf vd d r hfv hd
    obtain ⟨_, h2, h3⟩ := (h264_path_iff c fi).mp (a1.mp hc)
    exact ⟨by rw [a3, h2], by rw [a4, h3]⟩

/-- Witness for C7: scenario 2 of the specification, a column that is not
compressed. -/
theorem video_codec_choice_witness :
    ∃ sN d, (scenario_worker.new_task 7 0 [ColumnType.Video]).feed scenario_indexer
        scenario_frames_entry = some sN ∧
      sN.video_metadata_[0]? = some d ∧ d.codec_type = some VideoCodecType.RAW := by
  have hsome : ((scenario_worker.new_task 7 0 [ColumnType.Video]).feed scenario_indexer
      scenario_frames_entry).isSome = true := by decide
  obtain ⟨sN, hN⟩ := Option.isSome_iff_exists.mp hsome
  obtain ⟨c, fi, d, h1, h2, h3, _, h5, _⟩ :=
    (video_codec_choice scenario_indexer scenario_frames_entry _ sN hN).1 0
      (by decide) rfl
  have e2 : video_col_idx_at scenario_frames_entry 0 = 0 := by decide
  rw [e2] at h3
  have hc : c = false := by
    have e : scenario_frames_entry.compressed[0]? = some false := by decide
    rw [e] at h1
    exact (Option.some.inj h1).symm
  subst hc
  exact ⟨sN, d, hN, h3, h5.mpr (by simp)⟩

/-! ### Frame counts -/

theorem feed_all_nil (ix : Indexer) (s : SaveWorker) : s.feed_all ix [] = some s := rfl

theorem feed_all_cons (ix : Indexer) (s : SaveWorker) (w : EvalWorkEntry)
    (ws : List EvalWorkEntry) :
    s.feed_all ix (w :: ws) = (s.feed ix w).bind (fun s1 => s1.feed_all ix ws) := by
  unfold SaveWorker.feed_all
  rw [List.foldlM_cons]
  rfl

/-- C4, as stated, fails on the raw path: after scenario 2 the descriptor
counts 2 frames while `frames_per_video` is empty. -/
theorem raw_feed_frames_per_video :
    ((scenario_worker.new_task 7 0 [ColumnType.Video]).feed scenario_indexer
      scenario_frames_entry).map
      (fun s => s.video_metadata_.map
        (fun d => (d.frames_per_video, d.frames_per_video.sum, d.frames))) =
      some [([], 0, 2)] := by
  decide

/-- C4, amended: after `new_task` and any sequence of feeds in which every
Video column takes the H.264 path, every descriptor held by the worker has
`sum(frames_per_video) == frames`, whatever frame counts the indexer
returns. -/
theorem frames_per_video_sum (ix : Indexer) (worker : SaveWorker) (table_id task_id : Int)
    (column_types : List ColumnType) (entries : List EvalWorkEntry) (sN : SaveWorker)
    (hpath : ∀ w ∈ entries, ∀ (j : Nat) (c : Bool) (fi : FrameInfo),
      w.column_types[j]? = some ColumnType.Video → w.compressed[j]? = some c →
      w.frame_sizes[video_col_idx_at w j]? = some fi → h264_path c fi = true)
    (h : (worker.new_task table_id task_id column_types).feed_all ix entries = some sN) :
    ∀ d ∈ sN.video_metadata_, d.frames_per_video.sum = d.frames := by
  have key : ∀ (entries : List EvalWorkEntry) (s0 sN : SaveWorker),
      (∀ w ∈ entries, ∀ (j : Nat) (c : Bool) (fi : FrameInfo),
        w.column_types[j]? = some ColumnType.Video → w.compressed[j]? = some c →
        w.frame_sizes[video_col_idx_at w j]? = some fi → h264_path c fi = true) →
      (∀ d ∈ s0.video_metadata_, d.frames_per_video.sum = d.frames) →
      s0.feed_all ix entries = some sN →
      ∀ d ∈ sN.video_metadata_, d.frames_per_video.sum = d.frames := by
    intro entries
    induction entries with
    | nil =>
      intro s0 sN _ h0 hs
      rw [feed_all_nil] at hs
      obtain rfl := Option.some.inj hs
      exact h0
    | cons w ws ih =>
      intro s0 sN hp h0 hs
      rw [feed_all_cons] at hs
      cases h1 : s0.feed ix w with
      | none => rw [h1] at hs; simp at hs
      | some s1 =>
        rw [h1, Option.some_bind] at hs
        refine ih s1 sN (fun w' hw' => hp w' (List.mem_cons_of_mem _ hw')) ?_ hs
        refine feed_descriptors_induct ix w
          (fun d => d.frames_per_video.sum = d.frames) ?_ s0 s1 h0 h1
        intro j column c fi df mf vd d r _ hct hc hfi hvd hfv hd
        have hp264 := hp w (List.mem_cons_self _ _) j c fi hct hc hfi
        obtain ⟨_, hcase⟩ := feed_video_inv ix column c fi j df mf vd r hfv
        rcases hcase with ⟨_, ic, sz, _, rfl⟩ | ⟨hraw, _⟩
        · obtain rfl := Option.some.inj hd
          simp only [append_index, describe_frames, List.sum_append, List.sum_cons,
            List.sum_nil, add_zero]
          rw [hvd]
        · rw [hp264] at hraw
          exact absurd hraw (by simp)
  refine key entries _ sN hpath ?_ h
  rw [new_task_eq]
  intro d hd
  simp only [List.mem_map] at hd
  obtain ⟨i, _, rfl⟩ := hd
  rfl

/-- Witness for C4: two compressed feeds to one Video column. -/
theorem frames_per_video_sum_witness :
    ∃ sN, (scenario_worker.new_task 7 0 [ColumnType.Video]).feed_all scenario_packet_indexer
        [scenario_compressed_entry, scenario_compressed_entry] = some sN ∧
      sN.video_metadata_.map (fun d => (d.frames_per_video, d.frames)) = [([2, 2], 4)] ∧
      ∀ d ∈ sN.video_metadata_, d.frames_per_video.sum = d.frames := by
  have hsome : ((scenario_worker.new_task 7 0 [ColumnType.Video]).feed_all
      scenario_packet_indexer
      [scenario_compressed_entry, scenario_compressed_entry]).map
      (fun s => s.video_metadata_.map (fun d => (d.frames_per_video, d.frames))) =
      some [([2, 2], 4)] := by decide
  obtain ⟨sN, hN, hv⟩ := Option.map_eq_some'.mp hsome
  refine ⟨sN, hN, hv, ?_⟩
  refine frames_per_video_sum scenario_packet_indexer scenario_worker 7 0 [ColumnType.Video]
    [scenario_compressed_entry, scenario_compressed_entry] sN ?_ hN
  intro w hw j c fi ht hc hfi
  have hw' : w = scenario_compressed_entry := by simpa using hw
  subst hw'
  have hj : j = 0 := by
    by_contra hne
    have : scenario_compressed_entry.column_types[j]? = none := by
      apply List.getElem?_eq_none
      simp [scenario_compressed_entry]
      omega
    rw [this] at ht
    exact absurd ht (by simp)
  subst hj
  have e1 : scenario_compressed_entry.compressed[0]? = some true := by decide
  have e2 : scenario_compressed_entry.frame_sizes[video_col_idx_at scenario_compressed_entry 0]?
      = some { shape0 := 2, shape1 := 2, shape2 := 3, type := FrameType.U8 } := by decide
  rw [e1] at hc
  rw [e2] at hfi
  obtain rfl := Option.some.inj hc
  obtain rfl := Option.some.inj hfi
  decide

/-! ### Generic column files -/

theorem flatMap_length_eq_sum {α : Type} (l : List α) (f : α → List Nat) (g : α → Nat)
    (h : ∀ x ∈ l, (f x).length = g x) : (l.flatMap f).length = (l.map g).sum := by
  induction l with
  | nil => rfl
  | cons a l ih =>
    rw [List.flatMap_cons, List.length_append, h a (List.mem_cons_self _ _),
      ih (fun x hx => h x (List.mem_cons_of_mem _ hx)), List.map_cons, List.sum_cons]

theorem flatMap_u64_map {α : Type} (l : List α) (g : α → Nat) :
    l.flatMap (fun x => u64_bytes (g x)) = (l.map g).flatMap u64_bytes := by
  induction l with
  | nil => rfl
  | cons a l ih => rw [List.flatMap_cons, List.map_cons, List.flatMap_cons, ih]

/-- C3, as stated, fails for an item of two feeds: the metadata file read in
the generic format gives the sizes of the first feed only, which sum to 4,
while the data file has 8 bytes. -/
theorem two_feeds_generic_metadata :
    ((scenario_worker.new_task 7 0 [ColumnType.Bytes]).feed_all scenario_indexer
      [scenario_bytes_entry, scenario_bytes_entry]).map
      (fun s => (s.output_metadata_.map (fun f => read_generic_metadata f.data),
                 s.output_.map (fun f => f.data.length))) =
      some ([some [1, 2, 1]], [8]) := by
  decide

theorem getElem?_lt {α : Type} (l : List α) (i : Nat) (x : α) (h : l[i]? = some x) :
    i < l.length := by
  by_contra hh
  rw [List.getElem?_eq_none (by omega)] at h
  exact absurd h (by simp)

/-- C3, amended: every `feed` appends to the metadata file of a Bytes or
raw-video column one generic record (the `u64` count, then the `u64` sizes)
whose sizes sum to the number of bytes the same `feed` appends to the data
file; so for an item of exactly one `feed` after `new_task` the metadata file
read in the generic format gives sizes whose sum is the length of the data
file. -/
theorem generic_record_per_feed (ix : Indexer) (w : EvalWorkEntry) (s0 sN : SaveWorker)
    (j : Nat) (elements : List Element)
    (h : s0.feed ix w = some sN) (hcol : w.columns[j]? = some elements)
    (hgen : w.column_types[j]? = some ColumnType.Bytes ∨
      (w.column_types[j]? = some ColumnType.Video ∧
        ∀ (c : Bool) (fi : FrameInfo), w.compressed[j]? = some c →
          w.frame_sizes[video_col_idx_at w j]? = some fi → h264_path c fi = false))
    (hcount : elements.length < 2 ^ 64) (hsize : ∀ e ∈ elements, e.size < 2 ^ 64) :
    (∃ (mf df : WriteFile) (record bytes sizes : List Nat),
      s0.output_metadata_[j]? = some mf ∧ s0.output_[j]? = some df ∧
      sN.output_metadata_[j]? = some { mf with data := mf.data ++ record } ∧
      sN.output_[j]? = some { df with data := df.data ++ bytes } ∧
      read_generic_metadata record = some sizes ∧ sizes.length = elements.length ∧
      sizes.sum = bytes.length) ∧
    (∀ (worker : SaveWorker) (table_id task_id : Int) (column_types : List ColumnType),
      s0 = worker.new_task table_id task_id column_types →
      ∃ (md dd : WriteFile) (sizes : List Nat),
        sN.output_metadata_[j]? = some md ∧ sN.output_[j]? = some dd ∧
        read_generic_metadata md.data = some sizes ∧ sizes.length = elements.length ∧
        sizes.sum = dd.data.length) := by
  have hM : SIZE_MOD = 2 ^ 64 := rfl
  have main : ∃ (mf df : WriteFile) (record bytes sizes : List Nat),
      s0.output_metadata_[j]? = some mf ∧ s0.output_[j]? = some df ∧
      sN.output_metadata_[j]? = some { mf with data := mf.data ++ record } ∧
      sN.output_[j]? = some { df with data := df.data ++ bytes } ∧
      read_generic_metadata record = some sizes ∧ sizes.length = elements.length ∧
      sizes.sum = bytes.length := by
    have hj := getElem?_lt _ _ _ hcol
    obtain ⟨s, s', v', hstep, e1, e2, e3, e4, _, _⟩ := feed_at ix w s0 sN h j hj
    obtain ⟨els, df, mf, r, c1, c2, c3, c4, c5, _, _, hcase⟩ :=
      feed_column_inv ix w j s s' _ v' hstep
    rw [hcol] at c1
    obtain rfl := Option.some.inj c1
    have hj1 := getElem?_lt _ _ _ c2
    have hj2 := getElem?_lt _ _ _ c3
    rcases hcase with ⟨hct, c, fi, vd, d, k1, k2, _, k4, _, _, _⟩ | ⟨hct, hfb, _, _⟩
    · have hraw : h264_path c fi = false := by
        rcases hgen with hb | ⟨_, hv⟩
        · rw [hct] at hb
          exact absurd hb (by simp)
        · exact hv c fi k1 k2
      obtain ⟨_, hcase2⟩ := feed_video_inv ix elements c fi j df mf vd r k4
      rcases hcase2 with ⟨hp, _⟩ | ⟨_, hread, rfl⟩
      · rw [hraw] at hp
        exact absurd hp (by simp)
      · refine ⟨mf, df,
          u64_bytes elements.length ++ elements.flatMap (fun e => u64_bytes e.frame_size),
          elements.flatMap Element.pixels, elements.map Element.frame_size,
          e2 ▸ c3, e1 ▸ c2, ?_, ?_, ?_, by simp, ?_⟩
        · rw [e4, c5]; simp [hj2]
        · rw [e3, c4]; simp [hj1]
        · rw [flatMap_u64_map]
          have := read_generic_record (elements.map Element.frame_size)
            (by rw [List.length_map, hM]; exact hcount)
            (by
              intro x hx
              obtain ⟨e, _, rfl⟩ := List.mem_map.mp hx
              exact Element.frame_size_lt e)
          rwa [List.length_map] at this
        · exact (flatMap_length_eq_sum elements Element.pixels Element.frame_size
            (fun e he => pixels_length e (hread e he))).symm
    · have hr := feed_bytes_readable _ _ _ r hfb
      rw [feed_bytes_some _ _ _ hr] at hfb
      obtain rfl := Option.some.inj hfb
      refine ⟨mf, df,
        u64_bytes elements.length ++ elements.flatMap (fun e => u64_bytes e.size),
        elements.flatMap (fun e => e.buffer.bytes.take e.size),
        elements.map (fun e => e.size), e2 ▸ c3, e1 ▸ c2, ?_, ?_, ?_, by simp, ?_⟩
      · rw [e4, c5]; simp [hj2]
      · rw [e3, c4]; simp [hj1]
      · rw [flatMap_u64_map]
        have := read_generic_record (elements.map (fun e => e.size))
          (by rw [List.length_map, hM]; exact hcount)
          (by
            intro x hx
            obtain ⟨e, he, rfl⟩ := List.mem_map.mp hx
            rw [hM]
            exact hsize e he)
        rwa [List.length_map] at this
      · exact (flatMap_length_eq_sum elements (fun e => e.buffer.bytes.take e.size)
          (fun e => e.size)
          (fun e he => by rw [List.length_take]; exact Nat.min_eq_left (hr e he))).symm
  refine ⟨main, ?_⟩
  intro worker table_id task_id column_types hs0
  obtain ⟨mf, df, record, bytes, sizes, a1, a2, a3, a4, a5, a6, a7⟩ := main
  have hmf : mf.data = [] := by
    rw [hs0, new_task_eq] at a1
    simp only [List.getElem?_map, Option.map_eq_some'] at a1
    obtain ⟨i, _, rfl⟩ := a1
    rfl
  have hdf : df.data = [] := by
    rw [hs0, new_task_eq] at a2
    simp only [List.getElem?_map, Option.map_eq_some'] at a2
    obtain ⟨i, _, rfl⟩ := a2
    rfl
  refine ⟨_, _, sizes, a3, a4, ?_, a6, ?_⟩
  · simp only [hmf, List.nil_append]
    exact a5
  · simp only [hdf, List.nil_append]
    exact a7

/-- Witness for C3: scenario 1 of the specification, an item of one feed. -/
theorem generic_record_per_feed_witness :
    ∃ sN md dd sizes, (scenario_worker.new_task 7 0 [ColumnType.Bytes]).feed scenario_indexer
        scenario_bytes_entry = some sN ∧
      sN.output_metadata_[0]? = some md ∧ sN.output_[0]? = some dd ∧
      read_generic_metadata md.data = some sizes ∧ sizes.length = 3 ∧
      sizes.sum = dd.data.length := by
  have hsome : ((scenario_worker.new_task 7 0 [ColumnType.Bytes]).feed scenario_indexer
      scenario_bytes_entry).isSome = true := by decide
  obtain ⟨sN, hN⟩ := Option.isSome_iff_exists.mp hsome
  obtain ⟨md, dd, sizes, h1, h2, h3, h4, h5⟩ :=
    (generic_record_per_feed scenario_indexer scenario_bytes_entry _ sN 0
      [scenario_element [1], scenario_element [2, 3], scenario_element [4]] hN rfl
      (Or.inl rfl) (by decide) (by decide)).2 scenario_worker 7 0 [ColumnType.Bytes] rfl
  exact ⟨sN, md, dd, sizes, hN, h1, h2, h3, h4, h5⟩

/-! ### Frame descriptors -/

/-- What the list constructor builds from at most three non-negative entries:
the entries of the list, followed by what `shape` held before for the entries
the list does not reach. -/
theorem of_shapes_eq (declared : FrameInfo) (shapes : List Int) (t : FrameType)
    (hm : shapes.length ≤ 3) (hnn : ∀ x ∈ shapes, 0 ≤ x) :
    FrameInfo.of_shapes declared shapes t =
      some { shape0 := shapes.getD 0 declared.shape0
             shape1 := shapes.getD 1 declared.shape1
             shape2 := shapes.getD 2 declared.shape2
             type := t } := by
  match shapes, hm, hnn with
  | [], _, _ => simp [FrameInfo.of_shapes]
  | [a], _, h =>
    have ha : 0 ≤ a := h a (by simp)
    simp [FrameInfo.of_shapes, List.range_succ, FrameInfo.set_shape, FrameInfo.shape, ha]
  | [a, b], _, h =>
    have ha : 0 ≤ a := h a (by simp)
    have hb : 0 ≤ b := h b (by simp)
    simp [FrameInfo.of_shapes, List.range_succ, FrameInfo.set_shape, FrameInfo.shape, ha, hb]
  | [a, b, c], _, h =>
    have ha : 0 ≤ a := h a (by simp)
    have hb : 0 ≤ b := h b (by simp)
    have hc : 0 ≤ c := h c (by simp)
    simp [FrameInfo.of_shapes, List.range_succ, FrameInfo.set_shape, FrameInfo.shape, ha, hb,
      hc]
  | _ :: _ :: _ :: _ :: _, h, _ => simp at h

/-- C12 at the shape list `[4, 5]` with kind F32, built in storage whose
`shape` held `(7, 7, 7)`: the constructor assigns `shape[0] = 4` and
`shape[1] = 5` and never writes `shape[2]`, which stays 7, so `size()` is
`4 * 5 * 7 * 4 = 560`; the claim has `shape[2] = 0` and `size() = 0`. -/
theorem of_shapes_leaves_missing_dims :
    FrameInfo.of_shapes { shape0 := 7, shape1 := 7, shape2 := 7, type := FrameType.U8 }
      [4, 5] FrameType.F32 =
      some { shape0 := 4, shape1 := 5, shape2 := 7, type := FrameType.F32 } ∧
    (FrameInfo.of_shapes { shape0 := 7, shape1 := 7, shape2 := 7, type := FrameType.U8 }
      [4, 5] FrameType.F32).map FrameInfo.size = some 560 ∧
    (FrameInfo.of_shapes { shape0 := 7, shape1 := 7, shape2 := 7, type := FrameType.U8 }
      [] FrameType.F32).map (fun info => (info.shape 0, info.shape 1, info.shape 2)) =
      some (7, 7, 7) := by
  decide

theorem FrameInfo.eq_iff (a b : FrameInfo) : a.eq b = true ↔ a = b := by
  cases a
  cases b
  simp [FrameInfo.eq, FRAME_DIMS, List.range_succ, FrameInfo.shape]
  tauto

/-- C13: for a `FrameInfo` with non-negative dimensions and any buffer
pointer, `Frame(info, b).as_frame_info()` is `info` (also under
`operator==`), and the frame's `size()`, `height()`, `width()`, `channels()`
are those of `info`, with height `shape[0]`, width `shape[1]` and channels
`shape[2]`. -/
theorem frame_as_frame_info (info : FrameInfo) (b : Ptr)
    (h0 : 0 ≤ info.shape0) (h1 : 0 ≤ info.shape1) (h2 : 0 ≤ info.shape2) :
    (Frame.create info b).as_frame_info = some info ∧
    (Frame.create info b).as_frame_info.map (fun i => i.eq info) = some true ∧
    (Frame.create info b).size = some info.size ∧
    (Frame.create info b).height = some info.height ∧
    (Frame.create info b).width = some info.width ∧
    (Frame.create info b).channels = some info.channels ∧
    info.height = info.shape 0 ∧ info.width = info.shape 1 ∧
    info.channels = info.shape 2 ∧
    (Frame.create info b).data = b := by
  have e : (Frame.create info b).as_frame_info = some info := by
    simp [Frame.create, Frame.as_frame_info, FrameInfo.create, h0, h1, h2]
  refine ⟨e, ?_, ?_, ?_, ?_, ?_, rfl, rfl, rfl, rfl⟩
  · rw [e]
    simp [(FrameInfo.eq_iff info info).mpr rfl]
  · simp [Frame.size, e]
  · simp [Frame.height, e]
  · simp [Frame.width, e]
  · simp [Frame.channels, e]

/-- Witness for C13: a 2x2x3 frame of U8. -/
theorem frame_as_frame_info_witness :
    (Frame.create { shape0 := 2, shape1 := 2, shape2 := 3, type := FrameType.U8 }
      { addr := 64, bytes := [] }).as_frame_info =
      some { shape0 := 2, shape1 := 2, shape2 := 3, type := FrameType.U8 } :=
  (frame_as_frame_info { shape0 := 2, shape1 := 2, shape2 := 3, type := FrameType.U8 }
    { addr := 64, bytes := [] } (by decide) (by decide) (by decide)).1

/-- C14: `a == b` holds exactly when the kinds are equal and `shape[i]` agree
for `i` in `{0, 1, 2}`; `a != b` is the negation of `a == b`; `==` is
reflexive, symmetric and transitive, and equal descriptors have equal
`size()`. -/
theorem frame_info_eq_spec (a b c : FrameInfo) :
    (a.eq b = true ↔ (a.type = b.type ∧ ∀ i, i < 3 → a.shape i = b.shape i)) ∧
    a.ne b = !(a.eq b) ∧
    (a.ne b = true ↔ ¬ (a.eq b = true)) ∧
    a.eq a = true ∧
    (a.eq b = true → b.eq a = true) ∧
    (a.eq b = true → b.eq c = true → a.eq c = true) ∧
    (a.eq b = true → a.size = b.size) := by
  refine ⟨?_, rfl, ?_, (FrameInfo.eq_iff a a).mpr rfl, ?_, ?_, ?_⟩
  · rw [FrameInfo.eq_iff]
    constructor
    · rintro rfl
      exact ⟨rfl, fun _ _ => rfl⟩
    · rintro ⟨ht, hs⟩
      have e0 := hs 0 (by omega)
      have e1 := hs 1 (by omega)
      have e2 := hs 2 (by omega)
      cases a
      cases b
      simp only [FrameInfo.shape] at e0 e1 e2
      simp only at ht
      subst ht e0 e1 e2
      rfl
  · simp [FrameInfo.ne]
  · intro h
    rw [FrameInfo.eq_iff] at h ⊢
    exact h.symm
  · intro h1 h2
    rw [FrameInfo.eq_iff] at h1 h2 ⊢
    exact h1.trans h2
  · intro h
    rw [(FrameInfo.eq_iff a b).mp h]

/-- Witness for C14: two descriptors that differ in one dimension. -/
theorem frame_info_eq_spec_witness :
    FrameInfo.eq { shape0 := 2, shape1 := 2, shape2 := 3, type := FrameType.U8 }
      { shape0 := 2, shape1 := 2, shape2 := 3, type := FrameType.U8 } = true ∧
    FrameInfo.ne { shape0 := 2, shape1 := 2, shape2 := 3, type := FrameType.U8 }
      { shape0 := 2, shape1 := 4, shape2 := 3, type := FrameType.U8 } = true :=
  ⟨(frame_info_eq_spec { shape0 := 2, shape1 := 2, shape2 := 3, type := FrameType.U8 }
      { shape0 := 2, shape1 := 2, shape2 := 3, type := FrameType.U8 }
      { shape0 := 2, shape1 := 2, shape2 := 3, type := FrameType.U8 }).2.2.2.1,
   (frame_info_eq_spec { shape0 := 2, shape1 := 2, shape2 := 3, type := FrameType.U8 }
      { shape0 := 2, shape1 := 4, shape2 := 3, type := FrameType.U8 }
      { shape0 := 2, shape1 := 2, shape2 := 3, type := FrameType.U8 }).2.2.1.mpr
      (by decide)⟩

/-! ### Registering operators -/

theorem add_op_state (r : OpRegistry) (name : String) (info : OpInfo) :
    ((r.add_op name info).1.success = false ∧ (r.add_op name info).2 = r) ∨
    ((r.add_op name info).1.success = true ∧ r.count name = 0 ∧
      (r.add_op name info).2 = { ops_ := r.ops_ ++ [(name, info)] }) := by
  unfold OpRegistry.add_op RESULT_ERROR
  by_cases h1 : r.count name > 0
  · left; simp [h1]
  · by_cases h2 : (info.input_columns.isEmpty && !info.variadic_inputs) = true
    · left; simp [h1, h2]
    · by_cases h3 : info.output_columns.isEmpty = true
      · left; simp [h1, h2, h3]
      · right
        simp only [h1, h2, h3, if_false, Bool.false_eq_true, OpRegistry.insert, true_and]
        exact ⟨by omega, trivial⟩

theorem count_pos_iff (r : OpRegistry) (name : String) :
    r.count name > 0 ↔ ∃ i, r.get_op_info name = some i := by
  unfold OpRegistry.count OpRegistry.get_op_info
  induction r.ops_ with
  | nil => simp
  | cons e l ih =>
    cases hb : (e.1 == name) with
    | true => simp [List.filter_cons, List.find?_cons, hb]
    | false =>
      rw [List.filter_cons, List.find?_cons]
      simp only [hb, Bool.false_eq_true, if_false]
      exact ih

theorem add_op_registered (r : OpRegistry) (name : String) (info : OpInfo)
    (h : r.count name > 0) : (r.add_op name info).1.success = false := by
  unfold OpRegistry.add_op RESULT_ERROR
  simp [h]

theorem add_op_keeps (r : OpRegistry) (name name2 : String) (info info2 : OpInfo)
    (h : r.get_op_info name = some info) :
    (r.add_op name2 info2).2.get_op_info name = some info := by
  rcases add_op_state r name2 info2 with ⟨_, e⟩ | ⟨_, _, e⟩
  · rw [e]; exact h
  · rw [e]
    unfold OpRegistry.get_op_info at h ⊢
    simp only [Option.map_eq_some'] at h ⊢
    obtain ⟨a, ha, ha2⟩ := h
    exact ⟨a, by rw [List.find?_append, ha]; rfl, ha2⟩

theorem add_ops_keeps (later : List (String × OpInfo)) (r : OpRegistry) (name : String)
    (info : OpInfo) (h : r.get_op_info name = some info) :
    (r.add_ops later).get_op_info name = some info := by
  induction later generalizing r with
  | nil => exact h
  | cons op l ih =>
    unfold OpRegistry.add_ops
    rw [List.foldl_cons]
    exact ih _ (add_op_keeps r name op.1 info op.2 h)

/-- C15: for a name not yet registered and an info with non-empty inputs and
outputs, `add_op` succeeds, and afterwards `has_op(name)` is true and
`get_op_info(name)` returns the info; after any further registrations every
`add_op` with the same name fails and leaves the registry as it is, with
`get_op_info(name)` still the first info; an `add_op` that fails never
changes the registry. -/
theorem add_op_then_conflict (r : OpRegistry) (name : String) (info : OpInfo)
    (hnew : r.has_op name = false) (hin : info.input_columns ≠ [])
    (hout : info.output_columns ≠ []) :
    (r.add_op name info).1.success = true ∧
    (r.add_op name info).2.has_op name = true ∧
    (r.add_op name info).2.get_op_info name = some info ∧
    (∀ (later : List (String × OpInfo)) (info2 : OpInfo),
      ((((r.add_op name info).2.add_ops later).add_op name info2).1.success = false ∧
       (((r.add_op name info).2.add_ops later).add_op name info2).2 =
         (r.add_op name info).2.add_ops later ∧
       ((r.add_op name info).2.add_ops later).get_op_info name = some info ∧
       ((r.add_op name info).2.add_ops later).has_op name = true)) ∧
    (∀ (r' : OpRegistry) (n : String) (i : OpInfo),
      (r'.add_op n i).1.success = false → (r'.add_op n i).2 = r') := by
  have hc : ¬ r.count name > 0 := by
    simpa [OpRegistry.has_op] using hnew
  have hs : (r.add_op name info).1.success = true := by
    unfold OpRegistry.add_op
    simp [hc, hin, hout, List.isEmpty_iff]
  have hstate : (r.add_op name info).2 = { ops_ := r.ops_ ++ [(name, info)] } := by
    rcases add_op_state r name info with ⟨hf, _⟩ | ⟨_, _, e⟩
    · rw [hs] at hf
      exact absurd hf (by simp)
    · exact e
  have hget : (r.add_op name info).2.get_op_info name = some info := by
    rw [hstate]
    have hnone : r.ops_.find? (fun e => e.1 == name) = none := by
      have : ¬ ∃ i, r.get_op_info name = some i := fun hh => hc ((count_pos_iff r name).mpr hh)
      unfold OpRegistry.get_op_info at this
      cases hf : r.ops_.find? (fun e => e.1 == name) with
      | none => rfl
      | some a => exact absurd ⟨a.2, by rw [hf]; rfl⟩ this
    unfold OpRegistry.get_op_info
    simp only
    rw [List.find?_append, hnone]
    simp
  have hfail : ∀ (r' : OpRegistry) (n : String) (i : OpInfo),
      (r'.add_op n i).1.success = false → (r'.add_op n i).2 = r' := by
    intro r' n i hf
    rcases add_op_state r' n i with ⟨_, e⟩ | ⟨ht, _, _⟩
    · exact e
    · rw [ht] at hf
      exact absurd hf (by simp)
  refine ⟨hs, ?_, hget, ?_, hfail⟩
  · simpa [OpRegistry.has_op] using (count_pos_iff _ name).mpr ⟨info, hget⟩
  · intro later info2
    have hk := add_ops_keeps later _ name info hget
    have hcount := (count_pos_iff _ name).mpr ⟨info, hk⟩
    have hf : ((((r.add_op name info).2.add_ops later).add_op name info2).1.success = false) :=
      add_op_registered _ name info2 hcount
    exact ⟨hf, hfail _ _ _ hf, hk, by simpa [OpRegistry.has_op] using hcount⟩

/-- Witness for C15: scenario 6 of the specification, op "Foo". -/
theorem add_op_then_conflict_witness :
    (OpRegistry.add_op { ops_ := [] } "Foo"
      { name := "Foo", variadic_inputs := false, input_columns := ["frame"],
        output_columns := ["out"] }).1.success = true ∧
    (OpRegistry.add_op
      (OpRegistry.add_op { ops_ := [] } "Foo"
        { name := "Foo", variadic_inputs := false, input_columns := ["frame"],
          output_columns := ["out"] }).2 "Foo"
        { name := "Foo", variadic_inputs := true, input_columns := [],
          output_columns := ["other"] }).1.success = false := by
  have h := add_op_then_conflict { ops_ := [] } "Foo"
    { name := "Foo", variadic_inputs := false, input_columns := ["frame"],
      output_columns := ["out"] } (by decide) (by decide) (by decide)
  exact ⟨h.1, (h.2.2.2.1 []
    { name := "Foo", variadic_inputs := true, input_columns := [],
      output_columns := ["other"] }).1⟩

/-! ### Files sink -/

theorem write_element_some (sink : FilesSink) (e : Element)
    (hi : to_size_t e.index < sink.paths_.length) (hr : e.size ≤ e.buffer.bytes.length) :
    sink.write_element e =
      some { sink with files := sink.files ++
        [{ path := sink.paths_.getD (to_size_t e.index) "",
           data := e.buffer.bytes.take e.size }] } := by
  unfold FilesSink.write_element
  simp only [hi, if_true, List.getElem?_eq_getElem hi, Option.some_bind,
    s_write_some _ _ _ hr, Option.map_some', List.getD_eq_getElem?_getD, Option.getD_some,
    List.nil_append]

theorem write_element_paths (sink sink' : FilesSink) (e : Element)
    (h : sink.write_element e = some sink') : sink'.paths_ = sink.paths_ := by
  unfold FilesSink.write_element at h
  by_cases hi : to_size_t e.index < sink.paths_.length
  · simp only [hi, if_true, List.getElem?_eq_getElem hi, Option.some_bind,
      Option.map_eq_some'] at h
    obtain ⟨f, _, rfl⟩ := h
    rfl
  · simp [hi] at h

theorem write_element_none (sink : FilesSink) (e : Element)
    (hi : sink.paths_.length ≤ to_size_t e.index) : sink.write_element e = none := by
  unfold FilesSink.write_element
  simp [Nat.not_lt.mpr hi]

theorem write_loop_some (column : List Element) (sink : FilesSink)
    (h : ∀ e ∈ column, to_size_t e.index < sink.paths_.length ∧
      e.size ≤ e.buffer.bytes.length) :
    column.foldlM FilesSink.write_element sink =
      some { sink with files := sink.files ++ column.map (fun e =>
        { path := sink.paths_.getD (to_size_t e.index) "",
          data := e.buffer.bytes.take e.size }) } := by
  induction column generalizing sink with
  | nil => simp
  | cons e es ih =>
    obtain ⟨hi, hr⟩ := h e (List.mem_cons_self _ _)
    rw [List.foldlM_cons, write_element_some sink e hi hr]
    simp only [Option.bind_eq_bind, Option.some_bind]
    refine (ih { sink with files := sink.files ++
        [{ path := sink.paths_.getD (to_size_t e.index) "",
           data := e.buffer.bytes.take e.size }] }
      (fun x hx => h x (List.mem_cons_of_mem _ hx))).trans ?_
    simp

theorem write_loop_none (column : List Element) (sink : FilesSink)
    (h : ∃ e ∈ column, sink.paths_.length ≤ to_size_t e.index) :
    column.foldlM FilesSink.write_element sink = none := by
  induction column generalizing sink with
  | nil => simp at h
  | cons a es ih =>
    rw [List.foldlM_cons]
    cases hstep : sink.write_element a with
    | none => rfl
    | some sink' =>
      simp only [Option.bind_eq_bind, Option.some_bind]
      obtain ⟨e, he, hle⟩ := h
      rcases List.mem_cons.mp he with rfl | he
      · rw [write_element_none sink e hle] at hstep
        exact absurd hstep (by simp)
      · exact ih sink' ⟨e, he, by rw [write_element_paths sink sink' a hstep]; exact hle⟩

/-- C20: the path list after `new_stream(args)` depends on `args` only: it is
empty for empty or unparseable `args` and the parsed paths, in order,
otherwise; `write(batch)` makes, for each element of column 0 in order, one
file at `paths[element.index]` holding exactly the element's bytes, and it
fails when some element's index is at or past the number of paths. -/
theorem files_sink_stream_and_write (parse : List Nat → Option (List String))
    (sink : FilesSink) (args : List Nat) (column : List Element)
    (rest : List (List Element)) :
    (∀ other : FilesSink,
      (FilesSink.new_stream parse other args).paths_ =
        (FilesSink.new_stream parse sink args).paths_) ∧
    (args = [] → (FilesSink.new_stream parse sink args).paths_ = []) ∧
    (parse args = none → (FilesSink.new_stream parse sink args).paths_ = []) ∧
    (∀ paths, args ≠ [] → parse args = some paths →
      (FilesSink.new_stream parse sink args).paths_ = paths) ∧
    ((∀ e ∈ column, to_size_t e.index < sink.paths_.length ∧
        e.size ≤ e.buffer.bytes.length) →
      sink.write (column :: rest) =
        some { sink with files := sink.files ++ column.map (fun e =>
          { path := sink.paths_.getD (to_size_t e.index) "",
            data := e.buffer.bytes.take e.size }) }) ∧
    ((∃ e ∈ column, sink.paths_.length ≤ to_size_t e.index) →
      sink.write (column :: rest) = none) ∧
    (∀ i : Int, 0 ≤ i → i < 2 ^ 64 → to_size_t i = i.toNat) := by
  have hpaths : ∀ s : FilesSink, (FilesSink.new_stream parse s args).paths_ =
      if args.length ≠ 0 then (parse args).getD [] else [] := by
    intro s
    unfold FilesSink.new_stream
    by_cases ha : args.length ≠ 0
    · cases hp : parse args <;> simp [ha, hp]
    · simp [ha]
  refine ⟨?_, ?_, ?_, ?_, ?_, ?_, ?_⟩
  · intro other
    rw [hpaths, hpaths]
  · intro ha
    rw [hpaths]
    simp [ha]
  · intro hp
    rw [hpaths]
    simp [hp]
  · intro paths ha hp
    rw [hpaths]
    simp [ha, hp]
  · intro h
    unfold FilesSink.write
    simp only [List.getElem?_cons_zero, Option.some_bind]
    exact write_loop_some column sink h
  · intro h
    unfold FilesSink.write
    simp only [List.getElem?_cons_zero, Option.some_bind]
    exact write_loop_none column sink h
  · intro i h0 hlt
    rw [to_size_t_of_nonneg i h0]
    apply Nat.mod_eq_of_lt
    have : (i.toNat : Int) < 2 ^ 64 := by rw [Int.toNat_of_nonneg h0]; exact hlt
    unfold SIZE_MOD
    exact_mod_cast this

/-- Witness for C20: a stream of two paths, written in the order of the
elements, and an element whose index is past the paths. -/
theorem files_sink_stream_and_write_witness :
    (FilesSink.new_stream (fun _ => some ["a.jpg", "b.jpg"])
      { valid_ := { success := true, msg := "" }, paths_ := ["old"], files := [] }
      [10, 5]).paths_ = ["a.jpg", "b.jpg"] ∧
    FilesSink.write
      { valid_ := { success := true, msg := "" }, paths_ := ["a.jpg", "b.jpg"], files := [] }
      [[{ scenario_element [7, 8] with index := 1 }, scenario_element [9]]] =
      some { valid_ := { success := true, msg := "" }, paths_ := ["a.jpg", "b.jpg"],
             files := [{ path := "b.jpg", data := [7, 8] }, { path := "a.jpg", data := [9] }] } ∧
    FilesSink.write
      { valid_ := { success := true, msg := "" }, paths_ := ["a.jpg", "b.jpg"], files := [] }
      [[{ scenario_element [7, 8] with index := 2 }]] = none := by
  refine ⟨?_, ?_, ?_⟩
  · exact (files_sink_stream_and_write (fun _ => some ["a.jpg", "b.jpg"])
      { valid_ := { success := true, msg := "" }, paths_ := ["old"], files := [] }
      [10, 5] [] []).2.2.2.1 ["a.jpg", "b.jpg"] (by decide) rfl
  · exact ((files_sink_stream_and_write (fun _ => none)
      { valid_ := { success := true, msg := "" }, paths_ := ["a.jpg", "b.jpg"], files := [] }
      [] [{ scenario_element [7, 8] with index := 1 }, scenario_element [9]] []).2.2.2.2.1
      (by decide)).trans (by decide)
  · exact (files_sink_stream_and_write (fun _ => none)
      { valid_ := { success := true, msg := "" }, paths_ := ["a.jpg", "b.jpg"], files := [] }
      [] [{ scenario_element [7, 8] with index := 2 }] []).2.2.2.2.2.1
      ⟨_, List.mem_singleton.mpr rfl, by decide⟩

/-! ### Empty batches -/

theorem feed_column_empty_video (ix : Indexer) (w : EvalWorkEntry) (j : Nat)
    (hcol : w.columns[j]? = some []) (htype : w.column_types[j]? = some ColumnType.Video)
    (s : SaveWorker) (v : Nat) : feed_column ix w j (s, v) = none := by
  cases h : feed_column ix w j (s, v) with
  | none => rfl
  | some st =>
    obtain ⟨s', v'⟩ := st
    obtain ⟨elements, df, mf, r, c1, _, _, _, _, _, _, hcase⟩ :=
      feed_column_inv ix w j s s' v v' h
    rw [hcol] at c1
    obtain rfl := Option.some.inj c1
    rcases hcase with ⟨_, c, fi, vd, d, _, _, _, k4, _, _, _⟩ | ⟨hct, _⟩
    · have := (feed_video_inv ix [] c fi j df mf vd r k4).1
      simp at this
    · rw [htype] at hct
      exact absurd hct (by simp)

/-- C11, as stated, fails for a Video column: `feed` of an empty Video batch
does not complete, it stops at the assertion of line 73. -/
theorem feed_empty_video_fails :
    (scenario_worker.new_task 7 0 [ColumnType.Video]).feed scenario_indexer
      scenario_empty_video_entry = none := by
  decide

/-- C11, amended: for a Bytes column, `feed` of an empty batch appends only
the 8-byte `u64` `0` to the metadata file, appends nothing to the data file,
completes, and leaves every descriptor as it is; for a Video column an empty
batch makes `feed` fail at the assertion of line 73. -/
theorem feed_empty_batch (ix : Indexer) (w : EvalWorkEntry) (j : Nat)
    (hcol : w.columns[j]? = some []) :
    (w.column_types[j]? = some ColumnType.Bytes →
      (∀ (s : SaveWorker) (v : Nat) (df mf : WriteFile) (handle : DeviceHandle) (c : Bool),
        s.output_[j]? = some df → s.output_metadata_[j]? = some mf →
        w.column_handles[j]? = some handle → w.compressed[j]? = some c →
        ∃ s', feed_column ix w j (s, v) = some (s', v) ∧
          s'.output_metadata_[j]? = some { mf with data := mf.data ++ u64_bytes 0 } ∧
          s'.output_[j]? = some df ∧ s'.video_metadata_ = s.video_metadata_) ∧
      (∀ (s0 sN : SaveWorker), s0.feed ix w = some sN →
        ∃ (df mf : WriteFile), s0.output_[j]? = some df ∧
          s0.output_metadata_[j]? = some mf ∧
          sN.output_metadata_[j]? = some { mf with data := mf.data ++ u64_bytes 0 } ∧
          sN.output_[j]? = some df)) ∧
    (w.column_types[j]? = some ColumnType.Video → ∀ s0 : SaveWorker, s0.feed ix w = none) ∧
    u64_bytes 0 = List.replicate 8 0 := by
  have hj : j < w.columns.length := getElem?_lt _ _ _ hcol
  refine ⟨fun htype => ⟨?_, ?_⟩, ?_, by decide⟩
  · intro s v df mf handle c h1 h2 h3 h4
    have hj1 := getElem?_lt _ _ _ h1
    have hj2 := getElem?_lt _ _ _ h2
    refine ⟨{ s with
        output_ := s.output_.set j df
        output_metadata_ := s.output_metadata_.set j
          { mf with data := mf.data ++ u64_bytes 0 }
        intervals := s.intervals ++ ["io"]
        io_write := s.io_write + 0 }, ?_, ?_, ?_, rfl⟩
    · unfold feed_column
      simp only [Option.pure_def, Option.bind_eq_bind, move_if_different_address_space,
        hcol, h1, h2, h3, h4, htype, Option.some_bind, reduceCtorEq, if_false,
        feed_bytes_some [] df mf (by simp)]
      simp
    · simp [hj2]
    · simp [hj1]
  · intro s0 sN h
    obtain ⟨s, s', v', hstep, e1, e2, e3, e4, _, _⟩ := feed_at ix w s0 sN h j hj
    obtain ⟨els, df, mf, r, c1, c2, c3, c4, c5, _, _, hcase⟩ :=
      feed_column_inv ix w j s s' _ v' hstep
    rw [hcol] at c1
    obtain rfl := Option.some.inj c1
    rcases hcase with ⟨hct, _⟩ | ⟨_, hfb, _, _⟩
    · rw [htype] at hct
      exact absurd hct (by simp)
    · rw [feed_bytes_some [] df mf (by simp)] at hfb
      obtain rfl := Option.some.inj hfb
      have hj1 := getElem?_lt _ _ _ c2
      have hj2 := getElem?_lt _ _ _ c3
      refine ⟨df, mf, e1 ▸ c2, e2 ▸ c3, ?_, ?_⟩
      · rw [e4, c5]; simp [hj2]
      · rw [e3, c4]; simp [hj1]
  · intro htype s0
    cases h : s0.feed ix w with
    | none => rfl
    | some sN =>
      obtain ⟨s, s', v', hstep, _⟩ := feed_at ix w s0 sN h j hj
      rw [feed_column_empty_video ix w j hcol htype] at hstep
      exact absurd hstep (by simp)

/-- Witness for C11: an empty batch of a Bytes column. -/
theorem feed_empty_batch_witness :
    ∃ sN, (scenario_worker.new_task 7 0 [ColumnType.Bytes]).feed scenario_indexer
        scenario_empty_bytes_entry = some sN ∧
      sN.output_metadata_[0]? =
        some { path := "tables/7/0/0_metadata.bin", data := u64_bytes 0 } ∧
      sN.output_[0]? = some { path := "tables/7/0/0.bin", data := [] } := by
  have hsome : ((scenario_worker.new_task 7 0 [ColumnType.Bytes]).feed scenario_indexer
      scenario_empty_bytes_entry).isSome = true := by decide
  obtain ⟨sN, hN⟩ := Option.isSome_iff_exists.mp hsome
  obtain ⟨df, mf, h1, h2, h3, h4⟩ :=
    ((feed_empty_batch scenario_indexer scenario_empty_bytes_entry 0 rfl).1 rfl).2 _ sN hN
  have hdf : df = { path := "tables/7/0/0.bin", data := [] } := by
    have e : (scenario_worker.new_task 7 0 [ColumnType.Bytes]).output_[0]? =
        some { path := "tables/7/0/0.bin", data := [] } := by decide
    rw [e] at h1
    exact (Option.some.inj h1).symm
  have hmf : mf = { path := "tables/7/0/0_metadata.bin", data := [] } := by
    have e : (scenario_worker.new_task 7 0 [ColumnType.Bytes]).output_metadata_[0]? =
        some { path := "tables/7/0/0_metadata.bin", data := [] } := by decide
    rw [e] at h2
    exact (Option.some.inj h2).symm
  subst hdf hmf
  exact ⟨sN, hN, by rw [h3]; rfl, h4⟩

/-! ### The descriptor of a Video column through `feed` -/

/-- The iteration of a successful `feed` for a Video column `j`: it runs
`feed_video` on the descriptor found at `video_col_idx_at w j` before the call
and leaves its result there. -/
theorem feed_video_at (ix : Indexer) (w : EvalWorkEntry) (s0 sN : SaveWorker)
    (h : s0.feed ix w = some sN) (j : Nat) (hj : j < w.columns.length)
    (htype : w.column_types[j]? = some ColumnType.Video) :
    ∃ (elements : List Element) (c : Bool) (fi : FrameInfo) (df mf : WriteFile)
      (vd d : VideoDescriptor) (r : ColumnOutput),
      w.columns[j]? = some elements ∧ w.compressed[j]? = some c ∧
      w.frame_sizes[video_col_idx_at w j]? = some fi ∧
      s0.video_metadata_[video_col_idx_at w j]? = some vd ∧
      sN.video_metadata_[video_col_idx_at w j]? = some d ∧
      feed_video ix elements c fi j df mf vd = some r ∧ r.video_descriptor = some d := by
  obtain ⟨s, s', v', hstep, _, _, _, _, e5, e6⟩ := feed_at ix w s0 sN h j hj
  obtain ⟨elements, df, mf, r, c1, _, _, _, _, _, _, hcase⟩ :=
    feed_column_inv ix w j s s' _ v' hstep
  rcases hcase with ⟨_, c, fi, vd, d, k1, k2, k3, k4, k5, k6, _⟩ | ⟨hct, _⟩
  · have hlen := getElem?_lt _ _ _ k3
    refine ⟨elements, c, fi, df, mf, vd, d, r, c1, k1, k2, e5 ▸ k3, ?_, k4, k5⟩
    rw [e6 htype, k6]
    simp [hlen]
  · rw [htype] at hct
    exact absurd hct (by simp)

theorem feed_video_ids (ix : Indexer) (column : List Element) (c : Bool) (fi : FrameInfo)
    (j : Nat) (df mf : WriteFile) (vd d : VideoDescriptor) (r : ColumnOutput)
    (h : feed_video ix column c fi j df mf vd = some r) (hd : r.video_descriptor = some d) :
    d.ids = vd.ids := by
  obtain ⟨_, hcase⟩ := feed_video_inv ix column c fi j df mf vd r h
  rcases hcase with ⟨_, ic, sz, _, rfl⟩ | ⟨_, _, rfl⟩
  · obtain rfl := Option.some.inj hd
    rfl
  · obtain rfl := Option.some.inj hd
    rfl

theorem set_map_of_getElem? {α β : Type} (f : α → β) (l : List α) (i : Nat) (a b : α)
    (h : l[i]? = some a) (hf : f b = f a) : (l.set i b).map f = l.map f := by
  apply List.ext_getElem?
  intro n
  rw [List.map_set, List.getElem?_set, List.getElem?_map]
  by_cases hn : i = n
  · subst hn
    have hlen := getElem?_lt _ _ _ h
    simp [hlen, h, hf]
  · simp [hn]

theorem feed_columns_ids (ix : Indexer) (w : EvalWorkEntry) (l : List Nat) :
    ∀ (s s' : SaveWorker) (v v' : Nat), feed_columns ix w l (s, v) = some (s', v') →
      s'.video_metadata_.map VideoDescriptor.ids = s.video_metadata_.map VideoDescriptor.ids := by
  induction l with
  | nil =>
    intro s s' v v' h
    rw [feed_columns_nil] at h
    obtain ⟨rfl, _⟩ := Prod.mk.inj (Option.some.inj h)
    rfl
  | cons j l ih =>
    intro s s' v v' h
    rw [feed_columns_cons] at h
    cases hstep : feed_column ix w j (s, v) with
    | none => rw [hstep] at h; simp at h
    | some st1 =>
      obtain ⟨s1, v1⟩ := st1
      rw [hstep, Option.some_bind] at h
      rw [ih s1 s' v1 v' h]
      obtain ⟨elements, df, mf, r, _, _, _, _, _, _, _, hcase⟩ :=
        feed_column_inv ix w j s s1 v v1 hstep
      rcases hcase with ⟨_, c, fi, vd, d, _, _, k3, k4, k5, k6, _⟩ | ⟨_, _, hvm, _⟩
      · rw [k6]
        exact set_map_of_getElem? _ _ _ vd d k3
          (feed_video_ids ix elements c fi j df mf vd d r k4 k5)
      · rw [hvm]

theorem feed_ids (ix : Indexer) (w : EvalWorkEntry) (s0 sN : SaveWorker)
    (h : s0.feed ix w = some sN) :
    sN.video_metadata_.map VideoDescriptor.ids = s0.video_metadata_.map VideoDescriptor.ids := by
  unfold SaveWorker.feed at h
  cases h1 : feed_columns ix w (List.range w.columns.length) (s0, 0) with
  | none => rw [h1] at h; simp at h
  | some st =>
    obtain ⟨s, v⟩ := st
    rw [h1] at h
    simp only [Option.map_some', Option.some.injEq] at h
    subst h
    exact feed_columns_ids ix w _ s0 s 0 v h1

theorem feed_all_ids (ix : Indexer) (entries : List EvalWorkEntry) :
    ∀ (s0 sN : SaveWorker), s0.feed_all ix entries = some sN →
      sN.video_metadata_.map VideoDescriptor.ids = s0.video_metadata_.map VideoDescriptor.ids := by
  induction entries with
  | nil =>
    intro s0 sN h
    rw [feed_all_nil] at h
    obtain rfl := Option.some.inj h
    rfl
  | cons w ws ih =>
    intro s0 sN h
    rw [feed_all_cons] at h
    cases h1 : s0.feed ix w with
    | none => rw [h1] at h; simp at h
    | some s1 =>
      rw [h1, Option.some_bind] at h
      rw [ih s1 sN h, feed_ids ix w s0 s1 h1]

theorem filter_range_getElem? (p : Nat → Bool) (n j : Nat) (hj : j < n) (hp : p j = true) :
    ((List.range n).filter p)[((List.range j).filter p).length]? = some j := by
  rw [range_split n j hj, List.filter_append, List.filter_cons, if_pos hp,
    List.getElem?_append_right (Nat.le_refl _), Nat.sub_self, List.getElem?_cons_zero]

/-! ### Which descriptor a Video column updates -/

theorem item_descriptor_ids (ix : Indexer) (worker : SaveWorker) (table_id task_id : Int)
    (column_types : List ColumnType) (earlier : List EvalWorkEntry) (s0 : SaveWorker)
    (hitem : (worker.new_task table_id task_id column_types).feed_all ix earlier = some s0) :
    s0.video_metadata_.map VideoDescriptor.ids =
      ((List.range column_types.length).filter
        (fun i => decide (column_types[i]? = some ColumnType.Video))).map
        (fun (i : Nat) => (table_id, (i : Int), task_id)) := by
  rw [feed_all_ids ix earlier _ s0 hitem, new_task_eq]
  simp only [List.map_map]
  rfl

theorem videos_before (l : List ColumnType) (j : Nat) (hj : j ≤ l.length) :
    ((List.range j).filter (fun i => decide (l[i]? = some ColumnType.Video))).length =
      ((l.take j).filter (fun t => decide (t = ColumnType.Video))).length := by
  induction j with
  | zero => simp
  | succ j ih =>
    have hlt : j < l.length := by omega
    rw [List.range_succ, List.filter_append, List.length_append, ih (by omega),
      List.take_succ, List.filter_append, List.length_append,
      List.getElem?_eq_getElem hlt]
    cases hx : l[j] <;> simp [List.filter_cons, List.getElem?_eq_getElem hlt, hx]

/-- C18: when the work entry has the column types given to the preceding
`new_task`, the iteration of `feed` for a Video column `out_idx` runs with
`video_col_idx = k`, the number of Video columns before `out_idx`; `k` is in
bounds of the descriptors, the descriptor at `k` is the only one whose
`column_id` is `out_idx`, and the iteration reads `frame_sizes[k]`, writes the
descriptor at `k` and leaves every other descriptor as it is. -/
theorem feed_video_descriptor_index (ix : Indexer) (worker : SaveWorker)
    (table_id task_id : Int) (column_types : List ColumnType)
    (earlier : List EvalWorkEntry) (s0 : SaveWorker) (w : EvalWorkEntry) (out_idx : Nat)
    (hitem : (worker.new_task table_id task_id column_types).feed_all ix earlier = some s0)
    (htypes : w.column_types = column_types)
    (hvideo : column_types[out_idx]? = some ColumnType.Video) :
    video_col_idx_at w out_idx =
      ((column_types.take out_idx).filter (fun t => decide (t = ColumnType.Video))).length ∧
    video_col_idx_at w out_idx < s0.video_metadata_.length ∧
    (∃ vd, s0.video_metadata_[video_col_idx_at w out_idx]? = some vd ∧
      vd.column_id = (out_idx : Int) ∧ vd.table_id = table_id ∧ vd.item_id = task_id) ∧
    (∀ (u : Nat) (vd' : VideoDescriptor), s0.video_metadata_[u]? = some vd' →
      vd'.column_id = (out_idx : Int) → u = video_col_idx_at w out_idx) ∧
    (∀ sN, s0.feed ix w = some sN → out_idx < w.columns.length →
      ∃ (s s' : SaveWorker) (fi : FrameInfo) (vd d : VideoDescriptor),
        feed_column ix w out_idx (s, video_col_idx_at w out_idx) =
          some (s', video_col_idx_at w out_idx + 1) ∧
        w.frame_sizes[video_col_idx_at w out_idx]? = some fi ∧
        s.video_metadata_[video_col_idx_at w out_idx]? = some vd ∧
        s'.video_metadata_ = s.video_metadata_.set (video_col_idx_at w out_idx) d ∧
        (∀ u, u ≠ video_col_idx_at w out_idx →
          s'.video_metadata_[u]? = s.video_metadata_[u]?) ∧
        d.width = fi.width ∧ d.height = fi.height ∧ d.channels = fi.channels ∧
        d.frame_type = some fi.type ∧ d.column_id = (out_idx : Int) ∧
        sN.video_metadata_[video_col_idx_at w out_idx]? = some d) := by
  have hlt : out_idx < column_types.length := getElem?_lt _ _ _ hvideo
  have hids := item_descriptor_ids ix worker table_id task_id column_types earlier s0 hitem
  have hk : video_col_idx_at w out_idx =
      ((List.range out_idx).filter
        (fun i => decide (column_types[i]? = some ColumnType.Video))).length := by
    unfold video_col_idx_at
    rw [htypes]
  have hfk := filter_range_getElem?
    (fun i => decide (column_types[i]? = some ColumnType.Video)) column_types.length out_idx
    hlt (by simp [hvideo])
  rw [← hk] at hfk
  have hat : (s0.video_metadata_.map VideoDescriptor.ids)[video_col_idx_at w out_idx]? =
      some (table_id, (out_idx : Int), task_id) := by
    rw [hids, List.getElem?_map, hfk]
    rfl
  rw [List.getElem?_map, Option.map_eq_some'] at hat
  obtain ⟨vd0, hvd0, hvd0ids⟩ := hat
  have hcid : vd0.column_id = (out_idx : Int) := congrArg (fun p => p.2.1) hvd0ids
  refine ⟨?_, getElem?_lt _ _ _ hvd0, ⟨vd0, hvd0, hcid,
    congrArg (fun p => p.1) hvd0ids, congrArg (fun p => p.2.2) hvd0ids⟩, ?_, ?_⟩
  · rw [hk]
    exact videos_before column_types out_idx (Nat.le_of_lt hlt)
  · intro u vd' hu hcol
    have hu' : (s0.video_metadata_.map VideoDescriptor.ids)[u]? = some vd'.ids := by
      rw [List.getElem?_map, hu]
      rfl
    rw [hids, List.getElem?_map, Option.map_eq_some'] at hu'
    obtain ⟨i, hi, hi2⟩ := hu'
    have hi3 : (i : Int) = (out_idx : Int) := by
      have := congrArg (fun p => p.2.1) hi2
      simp only [VideoDescriptor.ids] at this
      rw [this, hcol]
    have hi4 : i = out_idx := by exact_mod_cast hi3
    subst hi4
    have hnd : (List.filter (fun i => decide (column_types[i]? = some ColumnType.Video))
        (List.range column_types.length)).Nodup := (List.nodup_range _).filter _
    exact List.getElem?_inj (getElem?_lt _ _ _ hi) hnd (hi.trans hfk.symm)
  · intro sN hfeed hj
    have htype : w.column_types[out_idx]? = some ColumnType.Video := by rw [htypes]; exact hvideo
    obtain ⟨s, s', v', hstep, _, _, _, _, e5, e6⟩ := feed_at ix w s0 sN hfeed out_idx hj
    obtain ⟨elements, df, mf, r, _, _, _, _, _, _, _, hcase⟩ :=
      feed_column_inv ix w out_idx s s' _ v' hstep
    rcases hcase with ⟨_, c, fi, vd, d, _, k2, k3, k4, k5, k6, k7⟩ | ⟨hct, _⟩
    · subst k7
      obtain ⟨_, _, a3, a4, a5, a6⟩ := feed_video_codec ix elements c fi out_idx df mf vd d r k4 k5
      have hsame : vd = vd0 := by
        rw [e5, hvd0] at k3
        exact (Option.some.inj k3).symm
      have hdid : d.column_id = (out_idx : Int) := by
        have := feed_video_ids ix elements c fi out_idx df mf vd d r k4 k5
        rw [hsame] at this
        rw [← hcid]
        exact congrArg (fun p => p.2.1) this
      refine ⟨s, s', fi, vd, d, hstep, k2, k3, k6, ?_, a5, a6, a4, a3, hdid, ?_⟩
      · intro u hu
        rw [k6]
        exact List.getElem?_set_ne (Ne.symm hu)
      · rw [e6 htype, k6]
        simp [getElem?_lt _ _ _ k3]
    · rw [htype] at hct
      exact absurd hct (by simp)

/-- Witness for C18: the third of three columns is the second Video column. -/
theorem feed_video_descriptor_index_witness :
    video_col_idx_at scenario_mixed_entry 2 = 1 ∧
    ∃ sN d, (scenario_worker.new_task 7 0
        [ColumnType.Video, ColumnType.Bytes, ColumnType.Video]).feed scenario_packet_indexer
        scenario_mixed_entry = some sN ∧
      sN.video_metadata_[1]? = some d ∧ d.column_id = 2 ∧ d.width = 6 ∧ d.height = 4 := by
  have h := feed_video_descriptor_index scenario_packet_indexer scenario_worker 7 0
    [ColumnType.Video, ColumnType.Bytes, ColumnType.Video] []
    (scenario_worker.new_task 7 0 [ColumnType.Video, ColumnType.Bytes, ColumnType.Video])
    scenario_mixed_entry 2 rfl rfl rfl
  have hk : video_col_idx_at scenario_mixed_entry 2 = 1 := h.1.trans (by decide)
  have hsome : ((scenario_worker.new_task 7 0
      [ColumnType.Video, ColumnType.Bytes, ColumnType.Video]).feed scenario_packet_indexer
      scenario_mixed_entry).isSome = true := by decide
  obtain ⟨sN, hN⟩ := Option.isSome_iff_exists.mp hsome
  obtain ⟨s, s', fi, vd, d, _, h2, _, _, _, h6, h7, _, _, h10, h11⟩ :=
    h.2.2.2.2 sN hN (by decide)
  rw [hk] at h2 h11
  have hfi : fi = { shape0 := 4, shape1 := 6, shape2 := 3, type := FrameType.U8 } := by
    have e : scenario_mixed_entry.frame_sizes[1]? =
        some { shape0 := 4, shape1 := 6, shape2 := 3, type := FrameType.U8 } := by decide
    rw [e] at h2
    exact (Option.some.inj h2).symm
  subst hfi
  exact ⟨hk, sN, d, hN, h11, h10, h6.trans (by decide), h7.trans (by decide)⟩

/-! ### Counting the feeds of a Video column -/

theorem video_col_idx_at_types (w : EvalWorkEntry) (column_types : List ColumnType)
    (out_idx : Nat) (h : w.column_types = column_types) :
    video_col_idx_at w out_idx =
      ((List.range out_idx).filter
        (fun i => decide (column_types[i]? = some ColumnType.Video))).length := by
  unfold video_col_idx_at
  rw [h]

/-- One `feed` of a Video column, on the descriptor of the column. -/
theorem feed_video_step (ix : Indexer) (w : EvalWorkEntry) (s0 s1 : SaveWorker) (j : Nat)
    (vd0 : VideoDescriptor) (h : s0.feed ix w = some s1) (hj : j < w.columns.length)
    (htype : w.column_types[j]? = some ColumnType.Video)
    (hvd : s0.video_metadata_[video_col_idx_at w j]? = some vd0) :
    ∃ (elements : List Element) (c : Bool) (fi : FrameInfo) (d : VideoDescriptor),
      w.columns[j]? = some elements ∧
      s1.video_metadata_[video_col_idx_at w j]? = some d ∧
      takes_h264_path w j = h264_path c fi ∧
      ((h264_path c fi = true ∧ ∃ (df : WriteFile) (ic : H264ByteStreamIndexCreator)
          (sz : Int), feed_packets ix elements (ix.create df) 0 = some (ic, sz) ∧
          d = append_index (describe_frames vd0 fi) ic j) ∨
       (h264_path c fi = false ∧
          d = count_raw_frames (describe_frames vd0 fi) elements.length)) := by
  obtain ⟨elements, c, fi, df, mf, vd, d, r, a1, a2, a3, a4, a5, a6, a7⟩ :=
    feed_video_at ix w s0 s1 h j hj htype
  rw [hvd] at a4
  obtain rfl := Option.some.inj a4
  have hpath : takes_h264_path w j = h264_path c fi := by
    unfold takes_h264_path
    rw [a2, a3]
  obtain ⟨_, hcase⟩ := feed_video_inv ix elements c fi j df mf vd0 r a6
  refine ⟨elements, c, fi, d, a1, a5, hpath, ?_⟩
  rcases hcase with ⟨hp, ic, sz, hfp, rfl⟩ | ⟨hp, _, rfl⟩
  · left
    exact ⟨hp, df, ic, sz, hfp, (Option.some.inj a7).symm⟩
  · right
    exact ⟨hp, (Option.some.inj a7).symm⟩

theorem feed_all_counts (ix : Indexer) (column_types : List ColumnType) (out_idx : Nat)
    (hvideo : column_types[out_idx]? = some ColumnType.Video)
    (entries : List EvalWorkEntry) :
    ∀ (s0 sN : SaveWorker) (vd0 : VideoDescriptor),
      (∀ w ∈ entries, w.column_types = column_types ∧ out_idx < w.columns.length) →
      s0.video_metadata_[((List.range out_idx).filter
        (fun i => decide (column_types[i]? = some ColumnType.Video))).length]? = some vd0 →
      s0.feed_all ix entries = some sN →
      ∃ d, sN.video_metadata_[((List.range out_idx).filter
          (fun i => decide (column_types[i]? = some ColumnType.Video))).length]? = some d ∧
        d.num_encoded_videos = vd0.num_encoded_videos + (entries.length : Int) ∧
        d.frames_per_video.length = vd0.frames_per_video.length +
          (entries.filter (fun w => takes_h264_path w out_idx)).length ∧
        d.keyframes_per_video.length = vd0.keyframes_per_video.length +
          (entries.filter (fun w => takes_h264_path w out_idx)).length ∧
        d.size_per_video.length = vd0.size_per_video.length +
          (entries.filter (fun w => takes_h264_path w out_idx)).length ∧
        ((entries ≠ [] ∨ (vd0.time_base_num = 1 ∧ vd0.time_base_denom = 25)) →
          d.time_base_num = 1 ∧ d.time_base_denom = 25) := by
  induction entries with
  | nil =>
    intro s0 sN vd0 _ hvd h
    rw [feed_all_nil] at h
    obtain rfl := Option.some.inj h
    refine ⟨vd0, hvd, by simp, by simp, by simp, by simp, ?_⟩
    rintro (h | h)
    · exact absurd rfl h
    · exact h
  | cons w ws ih =>
    intro s0 sN vd0 hent hvd h
    rw [feed_all_cons] at h
    cases h1 : s0.feed ix w with
    | none => rw [h1] at h; simp at h
    | some s1 =>
      rw [h1, Option.some_bind] at h
      obtain ⟨hty, hj⟩ := hent w (List.mem_cons_self _ _)
      have hk := video_col_idx_at_types w column_types out_idx hty
      rw [← hk] at hvd ⊢
      obtain ⟨elements, c, fi, d1, _, hd1, hpath, hcase⟩ :=
        feed_video_step ix w s0 s1 out_idx vd0 h1 hj (by rw [hty]; exact hvideo) hvd
      rw [hk] at hd1
      obtain ⟨d, hd, e1, e2, e3, e4, e5⟩ :=
        ih s1 sN d1 (fun w' hw' => hent w' (List.mem_cons_of_mem _ hw')) hd1 h
      rw [hk]
      refine ⟨d, hd, ?_, ?_, ?_, ?_, ?_⟩
      · rw [e1]
        rcases hcase with ⟨_, _, ic, _, _, rfl⟩ | ⟨_, rfl⟩
        · simp only [append_index, describe_frames, List.length_cons]
          push_cast
          ring
        · simp only [count_raw_frames, describe_frames, List.length_cons]
          push_cast
          ring
      · rw [e2, List.filter_cons, hpath]
        rcases hcase with ⟨hp, _, ic, _, _, rfl⟩ | ⟨hp, rfl⟩
        · simp [hp, append_index, describe_frames]
          omega
        · simp [hp, count_raw_frames, describe_frames]
      · rw [e3, List.filter_cons, hpath]
        rcases hcase with ⟨hp, _, ic, _, _, rfl⟩ | ⟨hp, rfl⟩
        · simp [hp, append_index, describe_frames]
          omega
        · simp [hp, count_raw_frames, describe_frames]
      · rw [e4, List.filter_cons, hpath]
        rcases hcase with ⟨hp, _, ic, _, _, rfl⟩ | ⟨hp, rfl⟩
        · simp [hp, append_index, describe_frames]
          omega
        · simp [hp, count_raw_frames, describe_frames]
      · intro _
        apply e5
        right
        rcases hcase with ⟨_, _, ic, _, _, rfl⟩ | ⟨_, rfl⟩
        · exact ⟨rfl, rfl⟩
        · exact ⟨rfl, rfl⟩

/-- C19: after `new_task` and a sequence of feeds that all hold the Video
column `out_idx`, the column's descriptor has `num_encoded_videos` equal to
the number of feeds, time base 1/25 once there was a feed, and
`frames_per_video`, `keyframes_per_video` and `size_per_video` as long as the
number of feeds that took the H.264 path, so these lengths equal
`num_encoded_videos` exactly when no feed took the raw path. -/
theorem video_feed_counts (ix : Indexer) (worker : SaveWorker) (table_id task_id : Int)
    (column_types : List ColumnType) (entries : List EvalWorkEntry) (sN : SaveWorker)
    (out_idx : Nat) (hvideo : column_types[out_idx]? = some ColumnType.Video)
    (hentries : ∀ w ∈ entries, w.column_types = column_types ∧ out_idx < w.columns.length)
    (h : (worker.new_task table_id task_id column_types).feed_all ix entries = some sN) :
    ∃ d, sN.video_metadata_[((column_types.take out_idx).filter
        (fun t => decide (t = ColumnType.Video))).length]? = some d ∧
      d.column_id = (out_idx : Int) ∧
      d.num_encoded_videos = (entries.length : Int) ∧
      (entries ≠ [] → d.time_base_num = 1 ∧ d.time_base_denom = 25) ∧
      d.frames_per_video.length =
        (entries.filter (fun w => takes_h264_path w out_idx)).length ∧
      d.keyframes_per_video.length =
        (entries.filter (fun w => takes_h264_path w out_idx)).length ∧
      d.size_per_video.length =
        (entries.filter (fun w => takes_h264_path w out_idx)).length ∧
      ((d.frames_per_video.length : Int) = d.num_encoded_videos ↔
        ∀ w ∈ entries, takes_h264_path w out_idx = true) := by
  have hlt : out_idx < column_types.length := getElem?_lt _ _ _ hvideo
  rw [← videos_before column_types out_idx (Nat.le_of_lt hlt)]
  have hfk := filter_range_getElem?
    (fun i => decide (column_types[i]? = some ColumnType.Video)) column_types.length out_idx
    hlt (by simp [hvideo])
  have hstart : (worker.new_task table_id task_id column_types).video_metadata_[
      ((List.range out_idx).filter
        (fun i => decide (column_types[i]? = some ColumnType.Video))).length]? =
      some { VideoDescriptor.empty with
        table_id := table_id, column_id := (out_idx : Int), item_id := task_id } := by
    rw [new_task_eq]
    simp only [List.getElem?_map, hfk, Option.map_some']
  obtain ⟨d, hd, e1, e2, e3, e4, e5⟩ :=
    feed_all_counts ix column_types out_idx hvideo entries _ sN _ hentries hstart h
  have hids := item_descriptor_ids ix worker table_id task_id column_types entries sN h
  have hcid : d.column_id = (out_idx : Int) := by
    have hat : (sN.video_metadata_.map VideoDescriptor.ids)[
        ((List.range out_idx).filter
          (fun i => decide (column_types[i]? = some ColumnType.Video))).length]? =
        some (table_id, (out_idx : Int), task_id) := by
      rw [hids, List.getElem?_map, hfk]
      rfl
    rw [List.getElem?_map, hd] at hat
    exact congrArg (fun p => p.2.1) (Option.some.inj hat)
  simp only [VideoDescriptor.empty, List.length_nil, Nat.zero_add, Int.zero_add] at e1 e2 e3 e4
  refine ⟨d, hd, hcid, e1, fun hne => e5 (Or.inl hne), e2, e3, e4, ?_⟩
  rw [e1, e2]
  constructor
  · intro heq
    have : (entries.filter (fun w => takes_h264_path w out_idx)).length = entries.length := by
      exact_mod_cast heq
    exact List.filter_length_eq_length.mp this
  · intro hall
    have := (List.filter_length_eq_length (p := fun w => takes_h264_path w out_idx)).mpr hall
    exact_mod_cast this

/-- Witness for C19: one compressed feed and one raw feed to the same Video
column. -/
theorem video_feed_counts_witness :
    ∃ sN d, (scenario_worker.new_task 7 0 [ColumnType.Video]).feed_all
        scenario_packet_indexer [scenario_compressed_entry, scenario_frames_entry] =
        some sN ∧
      sN.video_metadata_[0]? = some d ∧ d.num_encoded_videos = 2 ∧
      d.frames_per_video.length = 1 ∧ d.time_base_num = 1 ∧ d.time_base_denom = 25 := by
  have hsome : ((scenario_worker.new_task 7 0 [ColumnType.Video]).feed_all
      scenario_packet_indexer [scenario_compressed_entry, scenario_frames_entry]).isSome =
      true := by decide
  obtain ⟨sN, hN⟩ := Option.isSome_iff_exists.mp hsome
  obtain ⟨d, h1, _, h3, h4, h5, _⟩ :=
    video_feed_counts scenario_packet_indexer scenario_worker 7 0 [ColumnType.Video]
      [scenario_compressed_entry, scenario_frames_entry] sN 0 rfl
      (by
        intro w hw
        simp only [List.mem_cons, List.mem_singleton, List.not_mem_nil, or_false] at hw
        rcases hw with rfl | rfl
        · exact ⟨rfl, by decide⟩
        · exact ⟨rfl, by decide⟩)
      hN
  have hh := h4 (by simp)
  exact ⟨sN, d, hN, h1, h3.trans (by decide), h5.trans (by decide), hh.1, hh.2⟩

/-! ### The accumulated index of a compressed column -/

/-- C16, as stated, fails from the second feed on: every run of the indexer
restarts at frame 0 and offset 0, and `feed` appends its lists as they are.
One feed leaves keyframe indices `[0]` and sample offsets `[0, 4]`, two feeds
leave `[0, 0]` and `[0, 4, 0, 4]`. -/
theorem two_compressed_feeds_index :
    ((scenario_worker.new_task 7 0 [ColumnType.Video]).feed_all scenario_packet_indexer
      [scenario_compressed_entry]).map
      (fun s => s.video_metadata_.map
        (fun d => (d.keyframe_indices, d.sample_offsets, d.frames))) =
      some [([0], [0, 4], 2)] ∧
    ((scenario_worker.new_task 7 0 [ColumnType.Video]).feed_all scenario_packet_indexer
      [scenario_compressed_entry, scenario_compressed_entry]).map
      (fun s => s.video_metadata_.map
        (fun d => (d.keyframe_indices, d.sample_offsets, d.frames))) =
      some [([0, 0], [0, 4, 0, 4], 4)] := by
  decide

theorem le_sum_of_mem (l : List Int) (h : ∀ x ∈ l, 0 ≤ x) (a : Int) (ha : a ∈ l) :
    a ≤ l.sum := by
  induction l with
  | nil => simp at ha
  | cons b l ih =>
    have hb : 0 ≤ b := h b (List.mem_cons_self _ _)
    have hl : ∀ x ∈ l, 0 ≤ x := fun x hx => h x (List.mem_cons_of_mem _ hx)
    have hs : 0 ≤ l.sum := List.sum_nonneg hl
    rw [List.sum_cons]
    rcases List.mem_cons.mp ha with rfl | ha
    · omega
    · have := ih hl ha
      omega

theorem feed_all_runs (ix : Indexer) (column_types : List ColumnType) (out_idx : Nat)
    (hvideo : column_types[out_idx]? = some ColumnType.Video)
    (entries : List EvalWorkEntry) :
    ∀ (s0 sN : SaveWorker) (vd0 : VideoDescriptor),
      (∀ w ∈ entries, w.column_types = column_types ∧ out_idx < w.columns.length) →
      (∀ w ∈ entries, takes_h264_path w out_idx = true) →
      (∀ w ∈ entries, ∀ (column : List Element) (df : WriteFile)
        (ic : H264ByteStreamIndexCreator) (sz : Int), w.columns[out_idx]? = some column →
        feed_packets ix column (ix.create df) 0 = some (ic, sz) → indexer_post ic) →
      s0.video_metadata_[((List.range out_idx).filter
        (fun i => decide (column_types[i]? = some ColumnType.Video))).length]? = some vd0 →
      s0.feed_all ix entries = some sN →
      ∃ (d : VideoDescriptor) (runs : List H264ByteStreamIndexCreator),
        sN.video_metadata_[((List.range out_idx).filter
          (fun i => decide (column_types[i]? = some ColumnType.Video))).length]? = some d ∧
        runs.length = entries.length ∧ (∀ c ∈ runs, indexer_post c) ∧
        d.keyframe_indices = vd0.keyframe_indices ++ runs.flatMap (fun c => c.keyframe_indices) ∧
        d.sample_offsets = vd0.sample_offsets ++ runs.flatMap (fun c => c.sample_offsets) ∧
        d.sample_sizes = vd0.sample_sizes ++ runs.flatMap (fun c => c.sample_sizes) ∧
        d.frames = vd0.frames + (runs.map (fun c => c.frames)).sum := by
  induction entries with
  | nil =>
    intro s0 sN vd0 _ _ _ hvd h
    rw [feed_all_nil] at h
    obtain rfl := Option.some.inj h
    exact ⟨vd0, [], hvd, rfl, by simp, by simp, by simp, by simp, by simp⟩
  | cons w ws ih =>
    intro s0 sN vd0 hent hpath hpost hvd h
    rw [feed_all_cons] at h
    cases h1 : s0.feed ix w with
    | none => rw [h1] at h; simp at h
    | some s1 =>
      rw [h1, Option.some_bind] at h
      obtain ⟨hty, hj⟩ := hent w (List.mem_cons_self _ _)
      have hk := video_col_idx_at_types w column_types out_idx hty
      rw [← hk] at hvd ⊢
      obtain ⟨elements, c, fi, d1, hel, hd1, hp, hcase⟩ :=
        feed_video_step ix w s0 s1 out_idx vd0 h1 hj (by rw [hty]; exact hvideo) hvd
      rw [hk] at hd1
      have hw := hpath w (List.mem_cons_self _ _)
      rw [hp] at hw
      rcases hcase with ⟨_, df, ic, sz, hfp, rfl⟩ | ⟨hraw, _⟩
      · have hic := hpost w (List.mem_cons_self _ _) elements df ic sz hel hfp
        obtain ⟨d, runs, hd, e1, e2, e3, e4, e5, e6⟩ :=
          ih s1 sN _ (fun w' hw' => hent w' (List.mem_cons_of_mem _ hw'))
            (fun w' hw' => hpath w' (List.mem_cons_of_mem _ hw'))
            (fun w' hw' => hpost w' (List.mem_cons_of_mem _ hw')) hd1 h
        rw [hk]
        refine ⟨d, ic :: runs, hd, by simp [e1], ?_, ?_, ?_, ?_, ?_⟩
        · intro x hx
          rcases List.mem_cons.mp hx with rfl | hx
          · exact hic
          · exact e2 x hx
        · rw [e3]; simp [append_index, describe_frames]
        · rw [e4]; simp [append_index, describe_frames]
        · rw [e5]; simp [append_index, describe_frames]
        · rw [e6]
          simp only [append_index, describe_frames, List.map_cons, List.sum_cons]
          ring
      · rw [hw] at hraw
        exact absurd hraw (by simp)

theorem runs_lengths (runs : List H264ByteStreamIndexCreator)
    (h : ∀ c ∈ runs, indexer_post c) :
    ((runs.flatMap (fun c => c.sample_offsets)).length : Int) =
      (runs.map (fun c => c.frames)).sum ∧
    ((runs.flatMap (fun c => c.sample_sizes)).length : Int) =
      (runs.map (fun c => c.frames)).sum ∧
    (∀ c ∈ runs, 0 ≤ c.frames) := by
  induction runs with
  | nil => simp
  | cons c l ih =>
    obtain ⟨_, _, _, h4, h5⟩ := h c (List.mem_cons_self _ _)
    obtain ⟨i1, i2, i3⟩ := ih (fun x hx => h x (List.mem_cons_of_mem _ hx))
    refine ⟨?_, ?_, ?_⟩
    · rw [List.flatMap_cons, List.length_append, List.map_cons, List.sum_cons]
      push_cast
      rw [i1, h4]
    · rw [List.flatMap_cons, List.length_append, List.map_cons, List.sum_cons]
      push_cast
      rw [i2, h5]
    · intro x hx
      rcases List.mem_cons.mp hx with rfl | hx
      · rw [← h4]; exact Int.natCast_nonneg _
      · exact i3 x hx

/-- C16, amended: when every run of the indexer leaves keyframe indices and
sample offsets strictly increasing, keyframe indices below its frame count and
one offset and one size per frame, then after `new_task` and any sequence of
compressed feeds to the same Video column the descriptor's `keyframe_indices`,
`sample_offsets` and `sample_sizes` are the lists of the runs one after the
other, `frames` is the sum of their frame counts, every keyframe index is
below `frames`, `len(sample_offsets) == len(sample_sizes) == frames`, and the
keyframe indices and sample offsets are strictly increasing when the item had
a single feed. -/
theorem accumulated_index (ix : Indexer) (worker : SaveWorker) (table_id task_id : Int)
    (column_types : List ColumnType) (entries : List EvalWorkEntry) (sN : SaveWorker)
    (out_idx : Nat) (hvideo : column_types[out_idx]? = some ColumnType.Video)
    (hentries : ∀ w ∈ entries, w.column_types = column_types ∧ out_idx < w.columns.length)
    (hpath : ∀ w ∈ entries, takes_h264_path w out_idx = true)
    (hpost : ∀ w ∈ entries, ∀ (column : List Element) (df : WriteFile)
      (ic : H264ByteStreamIndexCreator) (sz : Int), w.columns[out_idx]? = some column →
      feed_packets ix column (ix.create df) 0 = some (ic, sz) → indexer_post ic)
    (h : (worker.new_task table_id task_id column_types).feed_all ix entries = some sN) :
    ∃ (d : VideoDescriptor) (runs : List H264ByteStreamIndexCreator),
      sN.video_metadata_[((column_types.take out_idx).filter
        (fun t => decide (t = ColumnType.Video))).length]? = some d ∧
      runs.length = entries.length ∧ (∀ c ∈ runs, indexer_post c) ∧
      d.keyframe_indices = runs.flatMap (fun c => c.keyframe_indices) ∧
      d.sample_offsets = runs.flatMap (fun c => c.sample_offsets) ∧
      d.sample_sizes = runs.flatMap (fun c => c.sample_sizes) ∧
      d.frames = (runs.map (fun c => c.frames)).sum ∧
      (d.sample_offsets.length : Int) = d.frames ∧
      (d.sample_sizes.length : Int) = d.frames ∧
      (∀ x ∈ d.keyframe_indices, (x : Int) < d.frames) ∧
      (entries.length = 1 →
        d.keyframe_indices.Pairwise (· < ·) ∧ d.sample_offsets.Pairwise (· < ·)) := by
  have hlt : out_idx < column_types.length := getElem?_lt _ _ _ hvideo
  rw [← videos_before column_types out_idx (Nat.le_of_lt hlt)]
  have hfk := filter_range_getElem?
    (fun i => decide (column_types[i]? = some ColumnType.Video)) column_types.length out_idx
    hlt (by simp [hvideo])
  have hstart : (worker.new_task table_id task_id column_types).video_metadata_[
      ((List.range out_idx).filter
        (fun i => decide (column_types[i]? = some ColumnType.Video))).length]? =
      some { VideoDescriptor.empty with
        table_id := table_id, column_id := (out_idx : Int), item_id := task_id } := by
    rw [new_task_eq]
    simp only [List.getElem?_map, hfk, Option.map_some']
  obtain ⟨d, runs, hd, e1, e2, e3, e4, e5, e6⟩ :=
    feed_all_runs ix column_types out_idx hvideo entries _ sN _ hentries hpath hpost hstart h
  simp only [VideoDescriptor.empty, List.nil_append, Int.zero_add] at e3 e4 e5 e6
  obtain ⟨l1, l2, l3⟩ := runs_lengths runs e2
  refine ⟨d, runs, hd, e1, e2, e3, e4, e5, e6, ?_, ?_, ?_, ?_⟩
  · rw [e4, e6]; exact l1
  · rw [e5, e6]; exact l2
  · intro x hx
    rw [e3, List.mem_flatMap] at hx
    obtain ⟨c, hc, hxc⟩ := hx
    have h1 := (e2 c hc).2.1 x hxc
    have h2 := le_sum_of_mem (runs.map (fun c => c.frames))
      (by
        intro y hy
        obtain ⟨c', hc', rfl⟩ := List.mem_map.mp hy
        exact l3 c' hc')
      c.frames (List.mem_map.mpr ⟨c, hc, rfl⟩)
    rw [e6]
    omega
  · intro hone
    rw [← e1] at hone
    match runs, hone, e2, e3, e4 with
    | [c], _, e2, e3, e4 =>
      have hc := e2 c (List.mem_singleton.mpr rfl)
      rw [e3, e4]
      simp only [List.flatMap_cons, List.flatMap_nil, List.append_nil]
      exact ⟨hc.1, hc.2.2.1⟩

/-- Witness for C16: one compressed feed of two packets. -/
theorem accumulated_index_witness :
    ∃ sN d, (scenario_worker.new_task 7 0 [ColumnType.Video]).feed_all
        scenario_packet_indexer [scenario_compressed_entry] = some sN ∧
      sN.video_metadata_[0]? = some d ∧
      (d.sample_offsets.length : Int) = d.frames ∧
      d.keyframe_indices.Pairwise (· < ·) ∧ d.sample_offsets.Pairwise (· < ·) := by
  have hsome : ((scenario_worker.new_task 7 0 [ColumnType.Video]).feed_all
      scenario_packet_indexer [scenario_compressed_entry]).isSome = true := by decide
  obtain ⟨sN, hN⟩ := Option.isSome_iff_exists.mp hsome
  obtain ⟨d, runs, h1, _, _, _, _, _, _, h8, _, _, h11⟩ :=
    accumulated_index scenario_packet_indexer scenario_worker 7 0 [ColumnType.Video]
      [scenario_compressed_entry] sN 0 rfl
      (by
        intro w hw
        obtain rfl := List.mem_singleton.mp hw
        exact ⟨rfl, by decide⟩)
      (by
        intro w hw
        obtain rfl := List.mem_singleton.mp hw
        decide)
      (by
        intro w hw column df ic sz hcol hfp
        obtain rfl := List.mem_singleton.mp hw
        have hc : column =
            [scenario_element [0, 0, 1, 101], scenario_element [0, 0, 1, 65, 9]] := by
          have e : scenario_compressed_entry.columns[0]? =
              some [scenario_element [0, 0, 1, 101], scenario_element [0, 0, 1, 65, 9]] := rfl
          rw [e] at hcol
          exact (Option.some.inj hcol).symm
        subst hc
        simp [feed_packets, scenario_packet_indexer, scenario_element, List.foldlM] at hfp
        obtain ⟨rfl, _⟩ := hfp
        simp [indexer_post])
      hN
  exact ⟨sN, d, hN, h1, h8, (h11 rfl).1, (h11 rfl).2⟩

/-! ### The byte counter of the profiler -/

/-- For a Bytes column the count handed to `io_write` misses the eight bytes
of the element count written at line 168. -/
theorem feed_bytes_size_written (elements : List Element) (df mf : WriteFile)
    (r : ColumnOutput) (h : feed_bytes elements df mf = some r) :
    r.size_written + 8 =
      ((r.output_file.data.length : Int) - (df.data.length : Int)) +
      ((r.output_metadata_file.data.length : Int) - (mf.data.length : Int)) := by
  have hr := feed_bytes_readable _ _ _ r h
  rw [feed_bytes_some _ _ _ hr] at h
  obtain rfl := Option.some.inj h
  have h1 : (elements.flatMap (fun e => e.buffer.bytes.take e.size)).length =
      (elements.map (fun e => e.size)).sum :=
    flatMap_length_eq_sum elements _ _
      (fun e he => by rw [List.length_take]; exact Nat.min_eq_left (hr e he))
  have h2 : (elements.flatMap (fun e => u64_bytes e.size)).length =
      (elements.map (fun _ => 8)).sum :=
    flatMap_length_eq_sum elements _ _ (fun e _ => u64_bytes_length _)
  have h3 : (elements.map (fun _ => 8)).sum = 8 * elements.length := by
    rw [List.map_const', List.sum_replicate, smul_eq_mul, Nat.mul_comm]
  simp only [List.length_append, u64_bytes_length, h1, h2, h3]
  push_cast
  ring

/-- C17 at scenario 1: `feed` appends 4 bytes to the data file and 32 bytes to
the metadata file of the column, 36 bytes together, and adds 28 to `io_write`. -/
theorem io_write_misses_count_header :
    ((scenario_worker.new_task 7 0 [ColumnType.Bytes]).feed scenario_indexer
      scenario_bytes_entry).map
      (fun s => (s.io_write, s.output_.map (fun f => f.data.length),
                 s.output_metadata_.map (fun f => f.data.length))) =
      some (28, [4], [32]) ∧
    (scenario_worker.new_task 7 0 [ColumnType.Bytes]).io_write = 0 ∧
    (scenario_worker.new_task 7 0 [ColumnType.Bytes]).output_.map (fun f => f.data.length) =
      [0] ∧
    (scenario_worker.new_task 7 0 [ColumnType.Bytes]).output_metadata_.map
      (fun f => f.data.length) = [0] := by
  decide

end Scanner
